import Mathlib

/-!
# Closed-form 3x3 eigensolver and organized-cloud covariance (`pcl/cuda/common/eigen.h`)

A shallow embedding of the routines of `eigen.h` in exact arithmetic.  The
code is written for `float`; here every `float` is an element of a linearly
ordered field `F` (the reals in the theorems that need square roots or
trigonometry, any ordered field where only `+ - * /` and comparisons occur).
The library functions `sqrtf`, `atan2`, `cos`, `sin`, `floor`, `ceil` are
passed as a record `MathOps F`, so that every routine below is an ordinary
computable function; `realOps` instantiates the record with the real
functions.  The counters of the loops that count with `float` variables, and
the 32-bit buffer index, are also given their machine values, in the section
on machine arithmetic, to state the range in which the exact loops describe
the code.
-/

namespace PclCudaEigen

/-! ## Vector and matrix primitives -/

/-- Three `float` components, the CUDA `float3`. -/
structure float3 (F : Type) where
  x : F
  y : F
  z : F
deriving DecidableEq, Repr

/-- Modelled from the spec: the type `CovarianceMatrix`, whose declaration is
not among the sources; three rows `data[0]`, `data[1]`, `data[2]`, each a
`float3`. -/
structure CovarianceMatrix (F : Type) where
  data0 : float3 F
  data1 : float3 F
  data2 : float3 F
deriving DecidableEq, Repr

/-- The library functions of `<math.h>` that the code calls. `atan2 y x` takes
its arguments in the order of C; `floor` and `ceil` include the conversion
`(int)` that follows them in the source. -/
structure MathOps (F : Type) where
  sqrt : F → F
  atan2 : F → F → F
  cos : F → F
  sin : F → F
  floor : F → Int
  ceil : F → Int

/-- The real-number instance of the library functions; `atan2 y x` is the
argument of the complex number `x + i y`, which is `0` at the origin and `π`
on the negative real axis, as in C. -/
noncomputable def realOps : MathOps ℝ where
  sqrt := Real.sqrt
  atan2 := fun y x => Complex.arg ⟨x, y⟩
  cos := Real.cos
  sin := Real.sin
  floor := fun x => ⌊x⌋
  ceil := fun x => ⌈x⌉

section Defs

variable {F : Type} [LinearOrderedField F]

/-- The constant `FLT_EPSILON` of `<float.h>`: `2^-23`. -/
def FLT_EPSILON : F := 1 / 2 ^ 23

/-- The constant `FLT_MIN` of `<float.h>`: `2^-126`. -/
def FLT_MIN : F := 1 / 2 ^ 126

/-- Modelled from the spec: `make_float3` of the vector primitive library
(`cutil_math.h`, not among the sources). -/
def make_float3 (x y z : F) : float3 F := ⟨x, y, z⟩

namespace float3

/-- Modelled from the spec: component-wise `a + b` of the vector primitive
library. -/
def add (a b : float3 F) : float3 F := ⟨a.x + b.x, a.y + b.y, a.z + b.z⟩

/-- Modelled from the spec: component-wise `a - b` of the vector primitive
library. -/
def sub (a b : float3 F) : float3 F := ⟨a.x - b.x, a.y - b.y, a.z - b.z⟩

/-- Modelled from the spec: `a * s`, the vector scaled by a number. -/
def smul (a : float3 F) (s : F) : float3 F := ⟨a.x * s, a.y * s, a.z * s⟩

/-- Modelled from the spec: `a / s`, every component divided by a number. -/
def sdiv (a : float3 F) (s : F) : float3 F := ⟨a.x / s, a.y / s, a.z / s⟩

/-- Modelled from the spec: `fabs` on a vector, component-wise absolute
value. -/
def fabs (a : float3 F) : float3 F := ⟨|a.x|, |a.y|, |a.z|⟩

/-- Modelled from the spec: `fmaxf` on two vectors, component-wise maximum. -/
def fmaxf (a b : float3 F) : float3 F := ⟨max a.x b.x, max a.y b.y, max a.z b.z⟩

/-- Component `i` of a vector (`0`, `1`, `2` for `x`, `y`, `z`). -/
def get (a : float3 F) (i : Fin 3) : F :=
  match i with
  | 0 => a.x
  | 1 => a.y
  | 2 => a.z

end float3

/-- Modelled from the spec: the dot product of the vector primitive library. -/
def dot (a b : float3 F) : F := a.x * b.x + a.y * b.y + a.z * b.z

/-- Modelled from the spec: the cross product of the vector primitive
library. -/
def cross (a b : float3 F) : float3 F :=
  ⟨a.y * b.z - a.z * b.y, a.z * b.x - a.x * b.z, a.x * b.y - a.y * b.x⟩

/-- Modelled from the spec: `normalize` of the vector primitive library, the
vector divided by its length. -/
def normalize (ops : MathOps F) (v : float3 F) : float3 F :=
  v.sdiv (ops.sqrt (dot v v))

/-- Modelled from the spec: the clamp operation on integers of the vector
primitive library, `max (a, min (f, b))`. -/
def clamp (f a b : Int) : Int := max a (min f b)

/-! ## Cubic-root solver -/

/-- The function `isMuchSmallerThan (x, y)`, lines 106-110. -/
def isMuchSmallerThan (x y : F) : Bool :=
  let prec_sqr : F := FLT_EPSILON * FLT_EPSILON
  decide (x * x ≤ prec_sqr * y * y)

/-- The function `unitOrthogonal (src)`, lines 112-143. -/
def unitOrthogonal (ops : MathOps F) (src : float3 F) : float3 F :=
  if (!isMuchSmallerThan src.x src.z) || (!isMuchSmallerThan src.y src.z) then
    let invnm := 1 / ops.sqrt (src.x * src.x + src.y * src.y)
    ⟨-src.y * invnm, src.x * invnm, 0⟩
  else
    let invnm := 1 / ops.sqrt (src.z * src.z + src.y * src.y)
    ⟨0, -src.z * invnm, src.y * invnm⟩

/-- The function `computeRoots2 (b, c, roots)`, lines 145-156: the roots written to
`roots`. -/
def computeRoots2 (ops : MathOps F) (b c : F) : float3 F :=
  let d := b * b - 4 * c
  let d := if d < 0 then 0 else d
  let sd := ops.sqrt d
  ⟨0, (1 / 2) * (b - sd), (1 / 2) * (b + sd)⟩


/-- The function `swap (a, b)`, lines 158-161: the pair after the exchange. -/
def swap (a b : F) : F × F :=
  let c := a
  (b, c)

/-- The three conditional swaps of lines 213-221 of `computeRoots`, on the
triple `roots`. -/
def sortRoots (roots : float3 F) : float3 F :=
  let roots : float3 F :=
    if roots.x ≥ roots.y then ⟨(swap roots.x roots.y).1, (swap roots.x roots.y).2, roots.z⟩
    else roots
  if roots.y ≥ roots.z then
    let roots : float3 F := ⟨roots.x, (swap roots.y roots.z).1, (swap roots.y roots.z).2⟩
    if roots.x ≥ roots.y then ⟨(swap roots.x roots.y).1, (swap roots.x roots.y).2, roots.z⟩
    else roots
  else roots

/-- The coefficient `c0` of lines 171-175 (the determinant, read from the
upper triangle). -/
def charC0 (m : CovarianceMatrix F) : F :=
  m.data0.x * m.data1.y * m.data2.z
    + 2 * m.data0.y * m.data0.z * m.data1.z
    - m.data0.x * m.data1.z * m.data1.z
    - m.data1.y * m.data0.z * m.data0.z
    - m.data2.z * m.data0.y * m.data0.y

/-- The coefficient `c1` of lines 176-181 (the sum of the principal 2x2
minors). -/
def charC1 (m : CovarianceMatrix F) : F :=
  m.data0.x * m.data1.y -
    m.data0.y * m.data0.y +
    m.data0.x * m.data2.z -
    m.data0.z * m.data0.z +
    m.data1.y * m.data2.z -
    m.data1.z * m.data1.z

/-- The coefficient `c2` of line 182 (the trace). -/
def charC2 (m : CovarianceMatrix F) : F :=
  m.data0.x + m.data1.y + m.data2.z

/-- The value `a_over_3` of line 194, before the clamp of lines 195-196. -/
def aOver3Unclamped (c1 c2 : F) : F :=
  let s_inv3 : F := 1 / 3
  let c2_over_3 := c2 * s_inv3
  (c1 - c2 * c2_over_3) * s_inv3

/-- The value `half_b` of line 198. -/
def halfB (c0 c1 c2 : F) : F :=
  let s_inv3 : F := 1 / 3
  let c2_over_3 := c2 * s_inv3
  (1 / 2) * (c0 + c2_over_3 * (2 * c2_over_3 * c2_over_3 - c1))

/-- The value `q` of line 200, before the clamp of lines 201-202; `a_over_3`
is the clamped value of lines 194-196. -/
def qUnclamped (c0 c1 c2 : F) : F :=
  let a_over_3 := aOver3Unclamped c1 c2
  let a_over_3 := if a_over_3 > 0 then 0 else a_over_3
  let half_b := halfB c0 c1 c2
  half_b * half_b + a_over_3 * a_over_3 * a_over_3

/-- Lines 189-211 of `computeRoots`: the three roots of the trigonometric
closed form, before they are sorted. -/
def trigRoots (ops : MathOps F) (c0 c1 c2 : F) : float3 F :=
  let s_inv3 : F := 1 / 3
  let s_sqrt3 := ops.sqrt 3
  let c2_over_3 := c2 * s_inv3
  let a_over_3 := aOver3Unclamped c1 c2
  let a_over_3 := if a_over_3 > 0 then 0 else a_over_3
  let half_b := halfB c0 c1 c2
  let q := qUnclamped c0 c1 c2
  let q := if q > 0 then 0 else q
  let rho := ops.sqrt (-a_over_3)
  let theta := ops.atan2 (ops.sqrt (-q)) half_b * s_inv3
  let cos_theta := ops.cos theta
  let sin_theta := ops.sin theta
  ⟨c2_over_3 + 2 * rho * cos_theta,
   c2_over_3 - rho * (cos_theta + s_sqrt3 * sin_theta),
   c2_over_3 - rho * (cos_theta - s_sqrt3 * sin_theta)⟩

/-- The function `computeRoots (m, roots)`, lines 165-226: the roots written to `roots`. -/
def computeRoots (ops : MathOps F) (m : CovarianceMatrix F) : float3 F :=
  let c0 := charC0 m
  let c1 := charC1 m
  let c2 := charC2 m
  if |c0| < FLT_EPSILON then
    computeRoots2 ops c2 c1
  else
    let roots := sortRoots (trigRoots ops c0 c1 c2)
    if roots.x ≤ 0 then computeRoots2 ops c2 c1 else roots

/-! ## Eigen-decomposition engine -/

/-- What `eigen33` writes: the eigenvector rows `evecs` and the eigenvalues
`evals`. -/
structure EigenResult (F : Type) where
  evecs : CovarianceMatrix F
  evals : float3 F

namespace CovarianceMatrix

/-- The row `data[i]`; an index outside `0..2` is outside the array. -/
def get (m : CovarianceMatrix F) (i : Nat) : float3 F :=
  if i = 0 then m.data0 else if i = 1 then m.data1 else if i = 2 then m.data2
  else ⟨0, 0, 0⟩

/-- The assignment `data[i] = v`; an index outside `0..2` is outside the
array. -/
def set (m : CovarianceMatrix F) (i : Nat) (v : float3 F) : CovarianceMatrix F :=
  if i = 0 then { m with data0 := v } else if i = 1 then { m with data1 := v }
  else if i = 2 then { m with data2 := v } else m

/-- The entry in row `i` and column `j`. -/
def entry (m : CovarianceMatrix F) (i j : Fin 3) : F :=
  match i with
  | 0 => m.data0.get j
  | 1 => m.data1.get j
  | 2 => m.data2.get j

end CovarianceMatrix

/-- The scale factor of lines 237-240 of `eigen33`: the largest absolute
value of an entry, or `1` when that is at most `FLT_MIN`. -/
def eigen33Scale (mat : CovarianceMatrix F) : F :=
  let scale_tmp := float3.fmaxf (float3.fmaxf (float3.fabs mat.data0) (float3.fabs mat.data1))
    (float3.fabs mat.data2)
  let scale := max (max scale_tmp.x scale_tmp.y) scale_tmp.z
  if scale ≤ FLT_MIN then 1 else scale

/-- The matrix `scaledMat` of lines 242-245 of `eigen33`. -/
def eigen33ScaledMat (mat : CovarianceMatrix F) : CovarianceMatrix F :=
  let scale := eigen33Scale mat
  ⟨mat.data0.sdiv scale, mat.data1.sdiv scale, mat.data2.sdiv scale⟩

/-- The matrix `tmp` of lines 260-267 (and 290-296, 318-324, 353-358,
389-394): a copy of `scaledMat` with `lam` subtracted on the diagonal. -/
def shiftDiag (scaledMat : CovarianceMatrix F) (lam : F) : CovarianceMatrix F :=
  ⟨⟨scaledMat.data0.x - lam, scaledMat.data0.y, scaledMat.data0.z⟩,
   ⟨scaledMat.data1.x, scaledMat.data1.y - lam, scaledMat.data1.z⟩,
   ⟨scaledMat.data2.x, scaledMat.data2.y, scaledMat.data2.z - lam⟩⟩

/-- The outcome of one selection among the three row cross products: the
selected cross product `vec`, its squared length `len`, and the squared length
`len3` of the third cross product. -/
structure Selection (F : Type) where
  vec : float3 F
  len : F
  len3 : F

/-- Lines 269-282 (and 298-311, 326-351, 360-387, 396-423): the three
pairwise cross products of the rows of `tmp`, their squared lengths, and the
choice made by the `if` cascade. -/
def selectCross (tmp : CovarianceMatrix F) : Selection F :=
  let vec1 := cross tmp.data0 tmp.data1
  let vec2 := cross tmp.data0 tmp.data2
  let vec3 := cross tmp.data1 tmp.data2
  let len1 := dot vec1 vec1
  let len2 := dot vec2 vec2
  let len3 := dot vec3 vec3
  if len1 ≥ len2 ∧ len1 ≥ len3 then ⟨vec1, len1, len3⟩
  else if len2 ≥ len1 ∧ len2 ≥ len3 then ⟨vec2, len2, len3⟩
  else ⟨vec3, len3, len3⟩

/-- The array `mmax` of line 334, read at index `i`. -/
def mmaxGet (m0 m1 m2 : F) (i : Nat) : F :=
  if i = 0 then m0 else if i = 1 then m1 else m2

/-- The indices `(min_el, max_el)` when line 425 is reached. `mmax2`, `mmax1`
are the squared lengths selected for `evals.z` and `evals.y` (lines 339-349
and 369-383), `mmax0` the one selected for `evals.x` and `len3` the third
squared length of that last round: lines 407-408, 414-415 and 421-422 all
compare `len3`. The entry `mmax[0]` is not read before it is written; until
then it is taken `0` here. -/
def minMaxEl (mmax2 mmax1 mmax0 len3 : F) : Nat × Nat :=
  let min_el : Nat := 2
  let max_el : Nat := 2
  let min_el' := if mmax1 ≤ mmaxGet 0 mmax1 mmax2 min_el then 1 else min_el
  let max_el' := if mmax1 > mmaxGet 0 mmax1 mmax2 max_el then 1 else max_el
  let min_el'' := if len3 ≤ mmaxGet mmax0 mmax1 mmax2 min_el' then 0 else min_el'
  let max_el'' := if len3 > mmaxGet mmax0 mmax1 mmax2 max_el' then 0 else max_el'
  (min_el'', max_el'')

/-- The value `mid_el = 3 - min_el - max_el` of line 425, in `unsigned`
(32-bit) arithmetic: each subtraction is taken modulo `2^32`. -/
def midEl (min_el max_el : Nat) : Nat :=
  (3 + 4294967296 + 4294967296 - min_el - max_el) % 4294967296

/-- The three eigenvectors as they stand after line 423 of the all-distinct
branch: each the selected cross product divided by its length. -/
def distinctSelected (ops : MathOps F) (scaledMat : CovarianceMatrix F) (evals : float3 F) :
    CovarianceMatrix F :=
  let s2 := selectCross (shiftDiag scaledMat evals.z)
  let s1 := selectCross (shiftDiag scaledMat evals.y)
  let s0 := selectCross (shiftDiag scaledMat evals.x)
  ⟨s0.vec.sdiv (ops.sqrt s0.len), s1.vec.sdiv (ops.sqrt s1.len), s2.vec.sdiv (ops.sqrt s2.len)⟩

/-- The indices `(min_el, max_el)` of the all-distinct branch at line 425. -/
def distinctMinMax (scaledMat : CovarianceMatrix F) (evals : float3 F) : Nat × Nat :=
  let s2 := selectCross (shiftDiag scaledMat evals.z)
  let s1 := selectCross (shiftDiag scaledMat evals.y)
  let s0 := selectCross (shiftDiag scaledMat evals.x)
  minMaxEl s2.len s1.len s0.len s0.len3

/-- The all-distinct branch of `eigen33`, lines 317-428. -/
def eigen33Distinct (ops : MathOps F) (scaledMat : CovarianceMatrix F) (evals : float3 F) :
    CovarianceMatrix F :=
  let evecs := distinctSelected ops scaledMat evals
  let min_el := (distinctMinMax scaledMat evals).1
  let max_el := (distinctMinMax scaledMat evals).2
  let mid_el := midEl min_el max_el
  let evecs := evecs.set min_el
    (normalize ops (cross (evecs.get ((min_el + 1) % 3)) (evecs.get ((min_el + 2) % 3))))
  evecs.set mid_el
    (normalize ops (cross (evecs.get ((mid_el + 1) % 3)) (evecs.get ((mid_el + 2) % 3))))

/-- Lines 425-427 on their own: the two re-orthogonalisations of the
all-distinct branch, applied to the rows `evecs` with the indices `min_el` and
`max_el`. -/
def reorthogonalise (ops : MathOps F) (evecs : CovarianceMatrix F) (min_el max_el : Nat) :
    CovarianceMatrix F :=
  let mid_el := midEl min_el max_el
  let evecs := evecs.set min_el
    (normalize ops (cross (evecs.get ((min_el + 1) % 3)) (evecs.get ((min_el + 2) % 3))))
  evecs.set mid_el
    (normalize ops (cross (evecs.get ((mid_el + 1) % 3)) (evecs.get ((mid_el + 2) % 3))))

/-- The eigenvectors of `eigen33`, lines 250-428, from the scaled matrix and
its eigenvalues `evals` (not yet scaled back). -/
def eigen33Vectors (ops : MathOps F) (scaledMat : CovarianceMatrix F) (evals : float3 F) :
    CovarianceMatrix F :=
  if evals.z - evals.x ≤ FLT_EPSILON then
    ⟨make_float3 1 0 0, make_float3 0 1 0, make_float3 0 0 1⟩
  else if evals.y - evals.x ≤ FLT_EPSILON then
    let s := selectCross (shiftDiag scaledMat evals.z)
    let evecs2 := s.vec.sdiv (ops.sqrt s.len)
    let evecs1 := unitOrthogonal ops evecs2
    let evecs0 := cross evecs1 evecs2
    ⟨evecs0, evecs1, evecs2⟩
  else if evals.z - evals.y ≤ FLT_EPSILON then
    let s := selectCross (shiftDiag scaledMat evals.x)
    let evecs0 := s.vec.sdiv (ops.sqrt s.len)
    let evecs1 := unitOrthogonal ops evecs0
    let evecs2 := cross evecs0 evecs1
    ⟨evecs0, evecs1, evecs2⟩
  else
    eigen33Distinct ops scaledMat evals

/-- The function `eigen33 (mat, evecs, evals)`, lines 228-431: what it writes
to `evecs` and `evals`. Line 231 sets both to zero; every path overwrites
both. -/
def eigen33 (ops : MathOps F) (mat : CovarianceMatrix F) : EigenResult F :=
  let scale := eigen33Scale mat
  let scaledMat := eigen33ScaledMat mat
  let evals := computeRoots ops scaledMat
  let evecs := eigen33Vectors ops scaledMat evals
  ⟨evecs, evals.smul scale⟩

/-- The divisors of `eigen33` that its input decides: in the two
repeated-pair branches the length of the selected cross product; in the
all-distinct branch the lengths of the three selected cross products and of
the cross product of the first re-orthogonalisation (line 426). The
proposition says that none of them is zero. -/
def eigen33NoZeroDivisor (ops : MathOps F) (mat : CovarianceMatrix F) : Prop :=
  let scaledMat := eigen33ScaledMat mat
  let evals := computeRoots ops scaledMat
  if evals.z - evals.x ≤ FLT_EPSILON then True
  else if evals.y - evals.x ≤ FLT_EPSILON then
    (selectCross (shiftDiag scaledMat evals.z)).len ≠ 0
  else if evals.z - evals.y ≤ FLT_EPSILON then
    (selectCross (shiftDiag scaledMat evals.x)).len ≠ 0
  else
    (selectCross (shiftDiag scaledMat evals.z)).len ≠ 0
    ∧ (selectCross (shiftDiag scaledMat evals.y)).len ≠ 0
    ∧ (selectCross (shiftDiag scaledMat evals.x)).len ≠ 0
    ∧ (let evecs := distinctSelected ops scaledMat evals
       let min_el := (distinctMinMax scaledMat evals).1
       let c := cross (evecs.get ((min_el + 1) % 3)) (evecs.get ((min_el + 2) % 3))
       dot c c ≠ 0)

/-! ## Batch covariance and centroid builder -/

/-- The call operator `AddPoints::operator ()`, lines 434-441. -/
def AddPoints (lhs rhs : float3 F) : float3 F := lhs.add rhs

/-- The call operator `AddCovariances::operator ()`, lines 444-456. -/
def AddCovariances (lhs rhs : CovarianceMatrix F) : CovarianceMatrix F :=
  ⟨lhs.data0.add rhs.data0, lhs.data1.add rhs.data1, lhs.data2.add rhs.data2⟩

/-- The call operator `convert_point_to_float3::operator ()`, lines 459-463.
A point of a range handed to the batch builder is given by the `float3` it
converts to. -/
def convert_point_to_float3 (pt : float3 F) : float3 F := pt

/-- The call operator `ComputeCovarianceForPoint::operator ()`, lines
466-487, for the functor built from `centroid_`. The local `cov` is declared
without an initial value and only its upper triangle is assigned: the argument
`cov` is the content the local starts with. -/
def ComputeCovarianceForPoint (centroid_ : float3 F) (cov : CovarianceMatrix F)
    (point : float3 F) : CovarianceMatrix F :=
  let pt := point.sub centroid_
  let cov : CovarianceMatrix F := { cov with data1 := { cov.data1 with y := pt.y * pt.y } }
  let cov : CovarianceMatrix F := { cov with data1 := { cov.data1 with z := pt.y * pt.z } }
  let cov : CovarianceMatrix F := { cov with data2 := { cov.data2 with z := pt.z * pt.z } }
  let pt := pt.smul pt.x
  let cov : CovarianceMatrix F := { cov with data0 := { cov.data0 with x := pt.x } }
  let cov : CovarianceMatrix F := { cov with data0 := { cov.data0 with y := pt.y } }
  let cov : CovarianceMatrix F := { cov with data0 := { cov.data0 with z := pt.z } }
  cov

/-- The library call `transform_reduce (begin, end, unary_op, init,
binary_op)` of thrust, on the range `pts`: the images under `unary_op` are
combined with `binary_op`, starting from `init`, here from left to right. -/
def transform_reduce {α β : Type} (pts : List α) (unary_op : α → β) (init : β)
    (binary_op : β → β → β) : β :=
  pts.foldl (fun acc p => binary_op acc (unary_op p)) init

/-- The function `compute3DCentroid (begin, end, centroid)`, lines 490-498,
on the range `pts`: the centroid written. -/
def compute3DCentroid (pts : List (float3 F)) : float3 F :=
  let centroid : float3 F := ⟨0, 0, 0⟩
  let centroid := transform_reduce pts convert_point_to_float3 centroid AddPoints
  centroid.sdiv (pts.length : F)

/-- The function `computeCovariance (begin, end, cov, centroid)`, lines
501-522, on the range `pts`: the matrix written. `indet p` is the content that
the local `cov` of `ComputeCovarianceForPoint` starts with when `p` is
processed. -/
def computeCovariance (indet : float3 F → CovarianceMatrix F) (pts : List (float3 F))
    (centroid : float3 F) : CovarianceMatrix F :=
  let cov : CovarianceMatrix F := ⟨make_float3 0 0 0, make_float3 0 0 0, make_float3 0 0 0⟩
  let cov := transform_reduce pts (fun p => ComputeCovarianceForPoint centroid (indet p) p) cov
    AddCovariances
  let cov : CovarianceMatrix F := { cov with data1 := { cov.data1 with x := cov.data0.y } }
  let cov : CovarianceMatrix F := { cov with data2 := { cov.data2 with x := cov.data0.z } }
  let cov : CovarianceMatrix F := { cov with data2 := { cov.data2 with y := cov.data1.z } }
  ⟨cov.data0.sdiv (pts.length : F), cov.data1.sdiv (pts.length : F),
   cov.data2.sdiv (pts.length : F)⟩

/-! ## Windowed neighbour accumulator -/

/-- Modelled from the spec: the point type `PointXYZRGB` of the organized
cloud, whose declaration is not among the sources. A coordinate is a number or
not-a-number; `none` stands for not-a-number. -/
structure PointXYZRGB (F : Type) where
  x : Option F
  y : Option F
  z : Option F

/-- The members of `OrganizedRadiusSearch`, lines 767-770. The buffer
`points_` is given by the point it holds at each index. -/
structure OrganizedRadiusSearch (F : Type) where
  focalLength_ : F
  points_ : Int → PointXYZRGB F
  width_ : Int
  height_ : Int
  sqr_radius_ : F

/-- Four `float` components, the CUDA `float4`. -/
structure float4 (F : Type) where
  x : F
  y : F
  z : F
  w : F

/-- Four `int` components, the CUDA `int4`. -/
structure int4 where
  x : Int
  y : Int
  z : Int
  w : Int
deriving DecidableEq, Repr

/-- Lines 552-575 of `getProjectedRadiusSearchBox`: the rectangle `bounds`
before it is rounded to pixels and clamped. -/
def projectedBounds (ops : MathOps F) (s : OrganizedRadiusSearch F) (point_arg : float3 F) :
    float4 F :=
  let r_quadr := s.sqr_radius_ * s.sqr_radius_
  let z_sqr := point_arg.z * point_arg.z
  let sqrt_term_y :=
    ops.sqrt (point_arg.y * point_arg.y * s.sqr_radius_ + z_sqr * s.sqr_radius_ - r_quadr)
  let sqrt_term_x :=
    ops.sqrt (point_arg.x * point_arg.x * s.sqr_radius_ + z_sqr * s.sqr_radius_ - r_quadr)
  let norm := 1 / (z_sqr - s.sqr_radius_)
  let x_times_z := point_arg.x * point_arg.z
  let y_times_z := point_arg.y * point_arg.z
  let bounds : float4 F :=
    ⟨(x_times_z - sqrt_term_x) * norm, (x_times_z + sqrt_term_x) * norm,
     (y_times_z - sqrt_term_y) * norm, (y_times_z + sqrt_term_y) * norm⟩
  let bounds : float4 F :=
    ⟨bounds.x * s.focalLength_, bounds.y * s.focalLength_, bounds.z * s.focalLength_,
     bounds.w * s.focalLength_⟩
  ⟨bounds.x + (s.width_ : F) / 2, bounds.y + (s.width_ : F) / 2,
   bounds.z + (s.height_ : F) / 2, bounds.w + (s.height_ : F) / 2⟩

/-- The function `getProjectedRadiusSearchBox (point_arg)`, lines 540-588:
`.x = min_x, .y = max_x, .z = min_y, .w = max_y`. -/
def getProjectedRadiusSearchBox (ops : MathOps F) (s : OrganizedRadiusSearch F)
    (point_arg : float3 F) : int4 :=
  let bounds := projectedBounds ops s point_arg
  let res : int4 := ⟨ops.floor bounds.x, ops.ceil bounds.y, ops.floor bounds.z, ops.ceil bounds.w⟩
  ⟨clamp res.x 0 (s.width_ - 1), clamp res.y 0 (s.width_ - 1),
   clamp res.z 0 (s.height_ - 1), clamp res.w 0 (s.height_ - 1)⟩

/-- The values that the counter of `for (v = lo; v <= hi; v += 1)` takes:
`lo, lo + 1, ..., hi`, none when `lo > hi`. -/
def loopRange (lo hi : Int) : List Int :=
  (List.range (hi + 1 - lo).toNat).map (fun i => lo + (i : Int))

/-- The locals `cov`, `centroid` and `nnn` of `computeCovarianceOnline`. -/
structure OnlineState (F : Type) where
  cov : CovarianceMatrix F
  centroid : float3 F
  nnn : Int

/-- Lines 679-691 of `computeCovarianceOnline`: the update for an accepted
point `p = points_[idx]`. -/
def onlineUpdate (st : OnlineState F) (p : float3 F) : OnlineState F :=
  let nnn := st.nnn + 1
  let demean_old := p.sub st.centroid
  let centroid := st.centroid.add (demean_old.sdiv (nnn : F))
  let demean_new := p.sub centroid
  let cov := st.cov
  let cov : CovarianceMatrix F :=
    { cov with data1 := { cov.data1 with y := cov.data1.y + demean_new.y * demean_old.y } }
  let cov : CovarianceMatrix F :=
    { cov with data1 := { cov.data1 with z := cov.data1.z + demean_new.y * demean_old.z } }
  let cov : CovarianceMatrix F :=
    { cov with data2 := { cov.data2 with z := cov.data2.z + demean_new.z * demean_old.z } }
  let demean_old := demean_old.smul demean_new.x
  let cov : CovarianceMatrix F :=
    { cov with data0 := { cov.data0 with x := cov.data0.x + demean_old.x } }
  let cov : CovarianceMatrix F :=
    { cov with data0 := { cov.data0 with y := cov.data0.y + demean_old.y } }
  let cov : CovarianceMatrix F :=
    { cov with data0 := { cov.data0 with z := cov.data0.z + demean_old.z } }
  ⟨cov, centroid, nnn⟩

/-- Lines 667-692 of `computeCovarianceOnline`: the body of the inner loop at
the pixel `(x, y)`. -/
def onlineBody (s : OrganizedRadiusSearch F) (query_pt : float3 F) (st : OnlineState F)
    (y x : Int) : OnlineState F :=
  let idx := y * s.width_ + x
  match (s.points_ idx).x, (s.points_ idx).y, (s.points_ idx).z with
  | some px, some py, some pz =>
    let point_dif := (⟨px, py, pz⟩ : float3 F).sub query_pt
    if dot point_dif point_dif ≤ s.sqr_radius_ then onlineUpdate st ⟨px, py, pz⟩ else st
  | _, _, _ => st

/-- The search window of `computeCovarianceOnline` and `computeCentroid`,
lines 630-646 (713-729): the box of `getProjectedRadiusSearchBox`, clamped
once more. -/
def searchWindow (ops : MathOps F) (s : OrganizedRadiusSearch F) (query_pt : float3 F) : int4 :=
  let bounds := getProjectedRadiusSearchBox ops s query_pt
  ⟨clamp bounds.x 0 (s.width_ - 1), clamp bounds.y 0 (s.width_ - 1),
   clamp bounds.z 0 (s.height_ - 1), clamp bounds.w 0 (s.height_ - 1)⟩

/-- The function `computeCovarianceOnline (query_pt, cov,
sqrt_desired_nr_neighbors)`, lines 623-703: the matrix written to `cov` and
the count returned. Lines 652-655 set both strides `skipX`, `skipY` to `1`,
whatever `sqrt_desired_nr_neighbors` is; the two `float` counters then run
through the integers of the window. -/
def computeCovarianceOnline (ops : MathOps F) (s : OrganizedRadiusSearch F)
    (query_pt : float3 F) (sqrt_desired_nr_neighbors : F) : CovarianceMatrix F × Int :=
  let bounds := searchWindow ops s query_pt
  let _skipX := max (ops.sqrt ((bounds.y : F) - (bounds.x : F)) / sqrt_desired_nr_neighbors) 1
  let _skipY := max (ops.sqrt ((bounds.w : F) - (bounds.z : F)) / sqrt_desired_nr_neighbors) 1
  let init : OnlineState F :=
    ⟨⟨make_float3 0 0 0, make_float3 0 0 0, make_float3 0 0 0⟩, make_float3 0 0 0, 0⟩
  let st := (loopRange bounds.z bounds.w).foldl
    (fun st y => (loopRange bounds.x bounds.y).foldl (fun st x => onlineBody s query_pt st y x) st)
    init
  let cov := st.cov
  let cov : CovarianceMatrix F := { cov with data1 := { cov.data1 with x := cov.data0.y } }
  let cov : CovarianceMatrix F := { cov with data2 := { cov.data2 with x := cov.data0.z } }
  let cov : CovarianceMatrix F := { cov with data2 := { cov.data2 with y := cov.data1.z } }
  (⟨cov.data0.sdiv (st.nnn : F), cov.data1.sdiv (st.nnn : F), cov.data2.sdiv (st.nnn : F)⟩,
   st.nnn)

/-- The pixels `(y, x)` of the search window, row by row. -/
def windowPixels (ops : MathOps F) (s : OrganizedRadiusSearch F) (query_pt : float3 F) :
    List (Int × Int) :=
  let bounds := getProjectedRadiusSearchBox ops s query_pt
  (loopRange bounds.z bounds.w).flatMap
    (fun y => (loopRange bounds.x bounds.y).map (fun x => (y, x)))

/-- The point of the pixel `(y, x)` when it is accepted: a valid point (no
coordinate not-a-number) with squared distance to the query at most
`sqr_radius_`. -/
def acceptedPoint (s : OrganizedRadiusSearch F) (query_pt : float3 F) (yx : Int × Int) :
    Option (float3 F) :=
  match (s.points_ (yx.1 * s.width_ + yx.2)).x, (s.points_ (yx.1 * s.width_ + yx.2)).y,
      (s.points_ (yx.1 * s.width_ + yx.2)).z with
  | some px, some py, some pz =>
    if dot ((⟨px, py, pz⟩ : float3 F).sub query_pt) ((⟨px, py, pz⟩ : float3 F).sub query_pt)
        ≤ s.sqr_radius_ then some ⟨px, py, pz⟩ else none
  | _, _, _ => none

/-- The accepted points of the search window, in scan order. -/
def acceptedPoints (ops : MathOps F) (s : OrganizedRadiusSearch F) (query_pt : float3 F) :
    List (float3 F) :=
  (windowPixels ops s query_pt).filterMap (acceptedPoint s query_pt)

/-- The relation between the locals of `computeCovarianceOnline` and the
accepted points `ps` seen so far: `nnn` is their number, `centroid` their
mean, and the upper triangle of `cov` holds the sums of products about that
mean, `sum p_i p_j - nnn * centroid_i * centroid_j`. -/
structure OnlineInv {F : Type} [LinearOrderedField F] (ps : List (float3 F))
    (st : OnlineState F) : Prop where
  count : st.nnn = (ps.length : Int)
  meanx : (ps.length : F) * st.centroid.x = (ps.map (fun p => p.x)).sum
  meany : (ps.length : F) * st.centroid.y = (ps.map (fun p => p.y)).sum
  meanz : (ps.length : F) * st.centroid.z = (ps.map (fun p => p.z)).sum
  cxx : st.cov.data0.x
    = (ps.map (fun p => p.x * p.x)).sum - (ps.length : F) * st.centroid.x * st.centroid.x
  cxy : st.cov.data0.y
    = (ps.map (fun p => p.x * p.y)).sum - (ps.length : F) * st.centroid.x * st.centroid.y
  cxz : st.cov.data0.z
    = (ps.map (fun p => p.x * p.z)).sum - (ps.length : F) * st.centroid.x * st.centroid.z
  cyy : st.cov.data1.y
    = (ps.map (fun p => p.y * p.y)).sum - (ps.length : F) * st.centroid.y * st.centroid.y
  cyz : st.cov.data1.z
    = (ps.map (fun p => p.y * p.z)).sum - (ps.length : F) * st.centroid.y * st.centroid.z
  czz : st.cov.data2.z
    = (ps.map (fun p => p.z * p.z)).sum - (ps.length : F) * st.centroid.z * st.centroid.z

/-- A cloud of two pixels in one row, `(0, 0, 1)` and `(1/2, 0, 1)`, with
focal length `1` and squared radius `1/2`. -/
def twoPixelCloud : OrganizedRadiusSearch F where
  focalLength_ := 1
  points_ := fun idx =>
    if idx = 0 then ⟨some 0, some 0, some 1⟩
    else if idx = 1 then ⟨some (1 / 2), some 0, some 1⟩
    else ⟨none, none, none⟩
  width_ := 2
  height_ := 1
  sqr_radius_ := 1 / 2

/-- The rows of a matrix are pairwise orthogonal and of unit length. -/
def Orthonormal (m : CovarianceMatrix F) : Prop :=
  dot m.data0 m.data1 = 0 ∧ dot m.data0 m.data2 = 0 ∧ dot m.data1 m.data2 = 0
    ∧ dot m.data0 m.data0 = 1 ∧ dot m.data1 m.data1 = 1 ∧ dot m.data2 m.data2 = 1

/-- A matrix is symmetric: `M[i][j] = M[j][i]`. -/
def IsSymmetric (m : CovarianceMatrix F) : Prop :=
  m.data1.x = m.data0.y ∧ m.data2.x = m.data0.z ∧ m.data2.y = m.data1.z

/-- The quadratic form `v^T M v`. -/
def quadForm (m : CovarianceMatrix F) (v : float3 F) : F :=
  dot v ⟨dot m.data0 v, dot m.data1 v, dot m.data2 v⟩

/-- A matrix is positive-semidefinite: `v^T M v ≥ 0` for every vector `v`. -/
def IsPSD (m : CovarianceMatrix F) : Prop :=
  ∀ v : float3 F, 0 ≤ quadForm m v

/-- The diagonal matrix `diag (a, b, c)`. -/
def diag (a b c : F) : CovarianceMatrix F :=
  ⟨⟨a, 0, 0⟩, ⟨0, b, 0⟩, ⟨0, 0, c⟩⟩

/-- The determinant of a 3x3 matrix. -/
def det3 (m : CovarianceMatrix F) : F :=
  m.data0.x * (m.data1.y * m.data2.z - m.data1.z * m.data2.y)
    - m.data0.y * (m.data1.x * m.data2.z - m.data1.z * m.data2.x)
    + m.data0.z * (m.data1.x * m.data2.y - m.data1.y * m.data2.x)

/-- The sum of the three principal 2x2 minors of a 3x3 matrix. -/
def principalMinorSum (m : CovarianceMatrix F) : F :=
  (m.data0.x * m.data1.y - m.data0.y * m.data1.x)
    + (m.data0.x * m.data2.z - m.data0.z * m.data2.x)
    + (m.data1.y * m.data2.z - m.data1.z * m.data2.y)

/-- The trace of a 3x3 matrix. -/
def trace3 (m : CovarianceMatrix F) : F :=
  m.data0.x + m.data1.y + m.data2.z

/-- The characteristic polynomial `x^3 - c2*x^2 + c1*x - c0` of the matrix
`m`, with `c0 = det m`, `c1` the sum of the principal 2x2 minors and
`c2 = trace m`. -/
def charPoly (m : CovarianceMatrix F) (x : F) : F :=
  x ^ 3 - trace3 m * x ^ 2 + principalMinorSum m * x - det3 m

/-- The locals of `computeCovarianceOnline` when the loops of lines 663-694
are left, before the matrix is completed and divided by the count. -/
def computeCovarianceOnlineLocals (ops : MathOps F) (s : OrganizedRadiusSearch F)
    (query_pt : float3 F) : OnlineState F :=
  let bounds := searchWindow ops s query_pt
  let init : OnlineState F :=
    ⟨⟨make_float3 0 0 0, make_float3 0 0 0, make_float3 0 0 0⟩, make_float3 0 0 0, 0⟩
  (loopRange bounds.z bounds.w).foldl
    (fun st y => (loopRange bounds.x bounds.y).foldl (fun st x => onlineBody s query_pt st y x) st)
    init

/-- The locals `centroid` and `nnn` of `computeCentroid`. -/
structure CentroidState (F : Type) where
  centroid : float3 F
  nnn : Int

/-- Lines 758-759 of `computeCentroid`: the update for an accepted point
`p = points_[idx]`. -/
def centroidUpdate (st : CentroidState F) (p : float3 F) : CentroidState F :=
  ⟨st.centroid.add p, st.nnn + 1⟩

/-- Lines 746-760 of `computeCentroid`: the body of the inner loop at the
pixel `(x, y)`. -/
def centroidBody (s : OrganizedRadiusSearch F) (query_pt : float3 F) (st : CentroidState F)
    (y x : Int) : CentroidState F :=
  let idx := y * s.width_ + x
  match (s.points_ idx).x, (s.points_ idx).y, (s.points_ idx).z with
  | some px, some py, some pz =>
    let point_dif := (⟨px, py, pz⟩ : float3 F).sub query_pt
    if dot point_dif point_dif ≤ s.sqr_radius_ then centroidUpdate st ⟨px, py, pz⟩ else st
  | _, _, _ => st

/-- The function `computeCentroid (query_pt, cov, sqrt_desired_nr_neighbors)`,
lines 706-765: the centroid returned, and the content of the reference
argument `cov` afterwards; no line assigns to `cov`. As in
`computeCovarianceOnline` both strides are set to `1` (lines 737-738). -/
def computeCentroid (ops : MathOps F) (s : OrganizedRadiusSearch F) (query_pt : float3 F)
    (cov : CovarianceMatrix F) (sqrt_desired_nr_neighbors : F) : float3 F × CovarianceMatrix F :=
  let bounds := searchWindow ops s query_pt
  let _skipX := max (ops.sqrt ((bounds.y : F) - (bounds.x : F)) / sqrt_desired_nr_neighbors) 1
  let _skipY := max (ops.sqrt ((bounds.w : F) - (bounds.z : F)) / sqrt_desired_nr_neighbors) 1
  let init : CentroidState F := ⟨make_float3 0 0 0, 0⟩
  let st := (loopRange bounds.z bounds.w).foldl
    (fun st y =>
      (loopRange bounds.x bounds.y).foldl (fun st x => centroidBody s query_pt st y x) st)
    init
  (st.centroid.sdiv (st.nnn : F), cov)

/-- A point of the cloud is invalid: one of its coordinates is
not-a-number. -/
def PointXYZRGB.invalid (pt : PointXYZRGB F) : Prop :=
  pt.x = none ∨ pt.y = none ∨ pt.z = none

/-- The test of lines 671-677 (750-756) on one point of the cloud: the point
when it is accepted (valid and with squared distance to the query at most
`sqr_radius`), nothing otherwise. -/
def acceptedOf (sqr_radius : F) (query_pt : float3 F) (pt : PointXYZRGB F) :
    Option (float3 F) :=
  match pt.x, pt.y, pt.z with
  | some px, some py, some pz =>
    if dot ((⟨px, py, pz⟩ : float3 F).sub query_pt) ((⟨px, py, pz⟩ : float3 F).sub query_pt)
        ≤ sqr_radius then some ⟨px, py, pz⟩ else none
  | _, _, _ => none

/-- A cloud of two pixels in one row, with focal length `1` and squared
radius `1/2`: pixel `0` holds `(0, 0, 1)` and pixel `1` holds `far`. -/
def pairCloud (far : PointXYZRGB F) : OrganizedRadiusSearch F where
  focalLength_ := 1
  points_ := fun idx => if idx = 0 then ⟨some 0, some 0, some 1⟩ else far
  width_ := 2
  height_ := 1
  sqr_radius_ := 1 / 2

/-- The array `k_indices` and the counter `nnn` of `radiusSearch`. -/
structure SearchState where
  k_indices : Int → Int
  nnn : Int

/-- Lines 603-615 of `radiusSearch`: the body of the inner loop at the pixel
`(x, y)`. Line 605 tests the `x` coordinate alone; when `y` or `z` is
not-a-number the squared distance is not-a-number and the comparison of line
611 is false. -/
def radiusBody (s : OrganizedRadiusSearch F) (query_pt : float3 F) (st : SearchState)
    (x y : Int) : SearchState :=
  let idx := y * s.width_ + x
  match (s.points_ idx).x with
  | none => st
  | some px =>
    match (s.points_ idx).y, (s.points_ idx).z with
    | some py, some pz =>
      let point_dif := (⟨px, py, pz⟩ : float3 F).sub query_pt
      if dot point_dif point_dif ≤ s.sqr_radius_ then
        ⟨Function.update st.k_indices st.nnn idx, st.nnn + 1⟩
      else st
    | _, _ => st

/-- The loop `for (v = lo; (v <= hi) & (nnn < max_nnn); ++v)` of lines 599
and 601, on the values `vs = lo, ..., hi` of its counter: the body runs for
the next value as long as `nnn < max_nnn`, and the loop is left at the first
test that fails. -/
def cappedLoop {α : Type} (max_nnn : Int) (body : SearchState → α → SearchState) :
    List α → SearchState → SearchState
  | [], st => st
  | v :: vs, st => if st.nnn < max_nnn then cappedLoop max_nnn body vs (body st v) else st

/-- The function `radiusSearch (query_pt, k_indices, max_nnn)`, lines
592-620: the content of the array `k_indices` afterwards and the count
returned. The outer loop runs over the columns `x`, the inner one over the
rows `y`. -/
def radiusSearch (ops : MathOps F) (s : OrganizedRadiusSearch F) (query_pt : float3 F)
    (k_indices : Int → Int) (max_nnn : Int) : (Int → Int) × Int :=
  let bounds := getProjectedRadiusSearchBox ops s query_pt
  let st := cappedLoop max_nnn
    (fun st x =>
      cappedLoop max_nnn (fun st y => radiusBody s query_pt st x y)
        (loopRange bounds.z bounds.w) st)
    (loopRange bounds.x bounds.y) ⟨k_indices, 0⟩
  (st.k_indices, st.nnn)

/-- The pixels `(y, x)` of the search window, column by column. -/
def columnPixels (ops : MathOps F) (s : OrganizedRadiusSearch F) (query_pt : float3 F) :
    List (Int × Int) :=
  let bounds := getProjectedRadiusSearchBox ops s query_pt
  (loopRange bounds.x bounds.y).flatMap
    (fun x => (loopRange bounds.z bounds.w).map (fun y => (y, x)))

/-- The buffer index `y * width_ + x` of the pixel `(y, x)`. -/
def pixelIndex (s : OrganizedRadiusSearch F) (yx : Int × Int) : Int :=
  yx.1 * s.width_ + yx.2

/-- The accepted pixels of the search window, column by column. -/
def acceptedColumnPixels (ops : MathOps F) (s : OrganizedRadiusSearch F)
    (query_pt : float3 F) : List (Int × Int) :=
  (columnPixels ops s query_pt).filter (fun yx => (acceptedPoint s query_pt yx).isSome)

/-- The array `k` after the values `vs` have been stored from position
`start` on. -/
def writeFrom (k : Int → Int) (start : Int) : List Int → Int → Int
  | [] => k
  | v :: vs => writeFrom (Function.update k start v) (start + 1) vs

/-- A cloud of two rows and two columns, with focal length `1` and squared
radius `1/2`, holding `(0, 0, 1)`, `(1/2, 0, 1)`, `(0, 1/2, 1)` and
`(1/2, 1/2, 1)` at the indices `0, 1, 2, 3`. -/
def fourPixelCloud : OrganizedRadiusSearch F where
  focalLength_ := 1
  points_ := fun idx =>
    if idx = 0 then ⟨some 0, some 0, some 1⟩
    else if idx = 1 then ⟨some (1 / 2), some 0, some 1⟩
    else if idx = 2 then ⟨some 0, some (1 / 2), some 1⟩
    else if idx = 3 then ⟨some (1 / 2), some (1 / 2), some 1⟩
    else ⟨none, none, none⟩
  width_ := 2
  height_ := 2
  sqr_radius_ := 1 / 2

/-- A cloud header with `width_ = 0` and `height_ = 2`, with focal length
`1` and squared radius `1/2`, over a buffer that holds `(0, 0, 1)` at index
`0`. -/
def zeroWidthCloud : OrganizedRadiusSearch F where
  focalLength_ := 1
  points_ := fun idx => if idx = 0 then ⟨some 0, some 0, some 1⟩ else ⟨none, none, none⟩
  width_ := 0
  height_ := 2
  sqr_radius_ := 1 / 2

/-- The product `M v` of a matrix, given by its rows, and a vector. -/
def mulVec (m : CovarianceMatrix F) (v : float3 F) : float3 F :=
  ⟨dot m.data0 v, dot m.data1 v, dot m.data2 v⟩

/-- The values of `idx` that `computeCovarianceOnline` computes at line 668
and `computeCentroid` at line 747, where `points_[idx]` is read, in the order
of the two loops: the loop nest of lines 663-665 (742-744) with a body that
records `idx`. -/
def scanIndices (ops : MathOps F) (s : OrganizedRadiusSearch F) (query_pt : float3 F) :
    List Int :=
  let bounds := searchWindow ops s query_pt
  (loopRange bounds.z bounds.w).foldl
    (fun log y =>
      (loopRange bounds.x bounds.y).foldl (fun log x => log ++ [y * s.width_ + x]) log)
    []

/-- The counter values for which the body of the loop
`for (v = lo; (v <= hi) & (nnn < max_nnn); ++v)` runs, each with the state in
which the body starts. -/
def cappedRuns {α : Type} (max_nnn : Int) (body : SearchState → α → SearchState) :
    List α → SearchState → List (α × SearchState)
  | [], _ => []
  | v :: vs, st =>
    if st.nnn < max_nnn then (v, st) :: cappedRuns max_nnn body vs (body st v) else []

/-- The values of `idx` that `radiusSearch` computes at line 603, where
`points_[idx]` is read, in the order of the two loops: for every column `x`
for which the outer body runs, the rows `y` for which the inner body runs. -/
def radiusSearchIndices (ops : MathOps F) (s : OrganizedRadiusSearch F) (query_pt : float3 F)
    (k_indices : Int → Int) (max_nnn : Int) : List Int :=
  let bounds := getProjectedRadiusSearchBox ops s query_pt
  (cappedRuns max_nnn
      (fun st x =>
        cappedLoop max_nnn (fun st y => radiusBody s query_pt st x y)
          (loopRange bounds.z bounds.w) st)
      (loopRange bounds.x bounds.y) ⟨k_indices, 0⟩).flatMap
    (fun xst =>
      (cappedRuns max_nnn (fun st y => radiusBody s query_pt st xst.1 y)
        (loopRange bounds.z bounds.w) xst.2).map (fun yst => yst.1 * s.width_ + xst.1))

/-! ## Machine arithmetic of the loop counters and of the buffer index

The loops of `computeCovarianceOnline` and `computeCentroid` count with
`float` variables and the index `idx` is an `int`. The definitions of this
section give the counters their binary32 values and the index its 32-bit
value, so that the range in which the exact loops above describe the code can
be stated. -/

/-- The value of a 32-bit `int` computation whose exact result is `v`:
two's-complement wrap-around to `-2^31 .. 2^31 - 1`. -/
def wrapInt32 (v : Int) : Int :=
  (v + 2147483648) % 4294967296 - 2147483648

/-- The binary32 `float` nearest to the integer `n`, ties going to the even
significand: the conversion `(float) n` of an `int`, and the rounding of a sum
of two integer-valued `float`s with exact value `n`. A binary32 number with
magnitude in `[2^e, 2^(e+1))` is a multiple of `2^(e-23)`; magnitudes of
`2^128` and more, which become infinite, are beyond every 32-bit `int`. -/
def roundToFloat (n : Int) : Int :=
  let a := n.natAbs
  let u := 2 ^ (Nat.log 2 a - 23)
  let q := a / u
  let r := a % u
  let m := if 2 * r < u then q else if u < 2 * r then q + 1 else if q % 2 = 0 then q else q + 1
  Int.sign n * ((m * u : Nat) : Int)

/-- The loop `for (float v = (float) lo; v <= hi; v += 1)` of lines 663, 665,
742 and 744, started with the counter at `v`: the bound `hi` is an `int`,
converted to `float` for the comparison, and the sum `v + 1` is rounded to
binary32. `fuel` bounds the number of tests of the condition; `none` means
that the loop has not ended after `fuel` tests, or that its body has not. -/
def floatCounterLoop {σ : Type} (hi : Int) (body : σ → Int → Option σ) :
    Nat → Int → σ → Option σ
  | 0, _, _ => none
  | fuel + 1, v, st =>
    if v ≤ roundToFloat hi then
      match body st v with
      | some st' => floatCounterLoop hi body fuel (roundToFloat (v + 1)) st'
      | none => none
    else some st

/-- The loop nest of lines 663-665 (742-744) with its `float` counters: the
rows `y` from `bounds.z` to `bounds.w` outside, the columns `x` from
`bounds.x` to `bounds.y` inside, `body st y x` being run with the `int`
values `(int) y`, `(int) x` of the counters. -/
def floatScan {σ : Type} (fuel : Nat) (bounds : int4) (body : σ → Int → Int → σ) (init : σ) :
    Option σ :=
  floatCounterLoop bounds.w
    (fun st y =>
      floatCounterLoop bounds.y (fun st x => some (body st y x)) fuel (roundToFloat bounds.x) st)
    fuel (roundToFloat bounds.z) init

/-- The loops of lines 663-694 of `computeCovarianceOnline` with their
`float` counters: the locals when the loops are left, `none` when they are not
left within `fuel` tests. -/
def computeCovarianceOnlineFloatLoops (fuel : Nat) (ops : MathOps F)
    (s : OrganizedRadiusSearch F) (query_pt : float3 F) : Option (OnlineState F) :=
  floatScan fuel (searchWindow ops s query_pt) (onlineBody s query_pt)
    ⟨⟨make_float3 0 0 0, make_float3 0 0 0, make_float3 0 0 0⟩, make_float3 0 0 0, 0⟩

/-- The loops of lines 742-762 of `computeCentroid` with their `float`
counters: the locals when the loops are left, `none` when they are not left
within `fuel` tests. -/
def computeCentroidFloatLoops (fuel : Nat) (ops : MathOps F) (s : OrganizedRadiusSearch F)
    (query_pt : float3 F) : Option (CentroidState F) :=
  floatScan fuel (searchWindow ops s query_pt) (centroidBody s query_pt) ⟨make_float3 0 0 0, 0⟩

/-- The values of `idx` of line 668 (747) recorded by the loop nest with its
`float` counters, each computed in 32-bit `int` arithmetic. -/
def scanIndicesFloat (fuel : Nat) (ops : MathOps F) (s : OrganizedRadiusSearch F)
    (query_pt : float3 F) : Option (List Int) :=
  floatScan fuel (searchWindow ops s query_pt)
    (fun log y x => log ++ [wrapInt32 (wrapInt32 (y * s.width_) + x)]) []

/-- A cloud of one column and `2^25` rows, with focal length `2^26` and
squared radius `1/2`, every pixel holding `(0, 0, 1)`. -/
def tallCloud : OrganizedRadiusSearch F where
  focalLength_ := 67108864
  points_ := fun _ => ⟨some 0, some 0, some 1⟩
  width_ := 1
  height_ := 33554432
  sqr_radius_ := 1 / 2

end Defs

/-! ## Lemmas -/

section Lemmas

/-! ### Library functions on the reals -/

@[simp] theorem realOps_sqrt (x : ℝ) : realOps.sqrt x = Real.sqrt x := rfl

@[simp] theorem realOps_cos (x : ℝ) : realOps.cos x = Real.cos x := rfl

@[simp] theorem realOps_sin (x : ℝ) : realOps.sin x = Real.sin x := rfl

@[simp] theorem realOps_atan2 (y x : ℝ) : realOps.atan2 y x = Complex.arg ⟨x, y⟩ := rfl

theorem FLT_EPSILON_pos {F : Type} [LinearOrderedField F] : (0 : F) < FLT_EPSILON := by
  unfold FLT_EPSILON; positivity

theorem FLT_MIN_pos {F : Type} [LinearOrderedField F] : (0 : F) < FLT_MIN := by
  unfold FLT_MIN; positivity

/-! ### The sorting network -/

theorem sortRoots_sorted {F : Type} [LinearOrderedField F] (r : float3 F) :
    (sortRoots r).x ≤ (sortRoots r).y ∧ (sortRoots r).y ≤ (sortRoots r).z := by
  obtain ⟨x, y, z⟩ := r
  simp only [sortRoots, swap, ge_iff_le]
  by_cases h1 : y ≤ x <;> by_cases h2 : z ≤ x <;> by_cases h3 : z ≤ y <;>
    simp only [h1, h2, h3, if_true, if_false, true_and, and_true, and_self] <;>
    (try simp only [not_le] at *) <;> (try constructor) <;> linarith

/-! ### The quadratic solver -/

theorem computeRoots2_eq (b c : ℝ) :
    computeRoots2 realOps b c
      = ⟨0, (b - Real.sqrt (max (b * b - 4 * c) 0)) / 2,
            (b + Real.sqrt (max (b * b - 4 * c) 0)) / 2⟩ := by
  have hd : (if b * b - 4 * c < 0 then (0 : ℝ) else b * b - 4 * c) = max (b * b - 4 * c) 0 := by
    split_ifs with h
    · exact (max_eq_right h.le).symm
    · exact (max_eq_left (not_lt.mp h)).symm
  simp only [computeRoots2, realOps, hd]
  congr 1 <;> ring

theorem computeRoots2_nonneg (b c : ℝ) (hb : 0 ≤ b) (hc : 0 ≤ c) :
    (computeRoots2 realOps b c).x = 0
      ∧ 0 ≤ (computeRoots2 realOps b c).y
      ∧ (computeRoots2 realOps b c).y ≤ (computeRoots2 realOps b c).z := by
  rw [computeRoots2_eq]
  dsimp only
  have hs : 0 ≤ Real.sqrt (max (b * b - 4 * c) 0) := Real.sqrt_nonneg _
  have hle : Real.sqrt (max (b * b - 4 * c) 0) ≤ b := by
    rw [Real.sqrt_le_left hb]
    apply max_le <;> nlinarith
  refine ⟨rfl, by linarith, by linarith⟩

/-! ### Positive-semidefinite matrices -/

theorem eigen33Scale_pos {F : Type} [LinearOrderedField F] (mat : CovarianceMatrix F) :
    0 < eigen33Scale mat := by
  unfold eigen33Scale
  dsimp only
  split_ifs with h
  · exact zero_lt_one
  · exact lt_trans FLT_MIN_pos (not_le.mp h)

theorem quadForm_scaled {F : Type} [LinearOrderedField F] (mat : CovarianceMatrix F)
    (v : float3 F) :
    quadForm (eigen33ScaledMat mat) v = quadForm mat v / eigen33Scale mat := by
  simp only [quadForm, eigen33ScaledMat, dot, float3.sdiv]
  ring

theorem isPSD_scaled {F : Type} [LinearOrderedField F] (mat : CovarianceMatrix F)
    (h : IsPSD mat) : IsPSD (eigen33ScaledMat mat) := by
  intro v
  rw [quadForm_scaled]
  exact div_nonneg (h v) (eigen33Scale_pos mat).le

theorem isSymmetric_scaled {F : Type} [LinearOrderedField F] (mat : CovarianceMatrix F)
    (h : IsSymmetric mat) : IsSymmetric (eigen33ScaledMat mat) := by
  obtain ⟨h1, h2, h3⟩ := h
  simp only [IsSymmetric, eigen33ScaledMat, float3.sdiv, h1, h2, h3, and_self]

theorem minor_nonneg {F : Type} [LinearOrderedField F] (a b c : F)
    (h : ∀ s t : F, 0 ≤ a * (s * s) + 2 * c * (s * t) + b * (t * t)) :
    0 ≤ a * b - c * c := by
  have ha : 0 ≤ a := by have := h 1 0; simpa using this
  have hb : 0 ≤ b := by have := h 0 1; simpa using this
  have h1 := h c (-a)
  have h2 := h b (-c)
  have h3 := h 1 (-c)
  by_contra hneg
  push_neg at hneg
  rcases ha.eq_or_lt with ha0 | hapos
  · rcases hb.eq_or_lt with hb0 | hbpos
    · rw [← ha0, ← hb0] at h3
      nlinarith [mul_self_nonneg c]
    · nlinarith [mul_self_nonneg c]
  · nlinarith [mul_self_nonneg c]

theorem psd_coeffs_nonneg {F : Type} [LinearOrderedField F] (m : CovarianceMatrix F)
    (hsym : IsSymmetric m) (hpsd : IsPSD m) : 0 ≤ charC1 m ∧ 0 ≤ charC2 m := by
  obtain ⟨s1, s2, s3⟩ := hsym
  have hx : 0 ≤ m.data0.x := by
    have := hpsd ⟨1, 0, 0⟩; simpa [quadForm, dot] using this
  have hy : 0 ≤ m.data1.y := by
    have := hpsd ⟨0, 1, 0⟩; simpa [quadForm, dot] using this
  have hz : 0 ≤ m.data2.z := by
    have := hpsd ⟨0, 0, 1⟩; simpa [quadForm, dot] using this
  have m01 : 0 ≤ m.data0.x * m.data1.y - m.data0.y * m.data0.y := by
    apply minor_nonneg
    intro s t
    have := hpsd ⟨s, t, 0⟩
    simp only [quadForm, dot, s1] at this
    linarith
  have m02 : 0 ≤ m.data0.x * m.data2.z - m.data0.z * m.data0.z := by
    apply minor_nonneg
    intro s t
    have := hpsd ⟨s, 0, t⟩
    simp only [quadForm, dot, s2] at this
    linarith
  have m12 : 0 ≤ m.data1.y * m.data2.z - m.data1.z * m.data1.z := by
    apply minor_nonneg
    intro s t
    have := hpsd ⟨0, s, t⟩
    simp only [quadForm, dot, s3] at this
    linarith
  constructor
  · unfold charC1; linarith
  · unfold charC2; linarith

/-- With non-negative `c1` and `c2` the roots of `computeRoots` are
non-negative and ascending, on every path. -/
theorem computeRoots_nonneg_sorted (m : CovarianceMatrix ℝ)
    (h1 : 0 ≤ charC1 m) (h2 : 0 ≤ charC2 m) :
    0 ≤ (computeRoots realOps m).x
      ∧ (computeRoots realOps m).x ≤ (computeRoots realOps m).y
      ∧ (computeRoots realOps m).y ≤ (computeRoots realOps m).z := by
  obtain ⟨q0, q1, q2⟩ := computeRoots2_nonneg (charC2 m) (charC1 m) h2 h1
  unfold computeRoots
  dsimp only
  split_ifs with hc hx
  · exact ⟨q0.ge, q0 ▸ q1, q2⟩
  · exact ⟨q0.ge, q0 ▸ q1, q2⟩
  · obtain ⟨s1, s2⟩ := sortRoots_sorted (trigRoots realOps (charC0 m) (charC1 m) (charC2 m))
    exact ⟨(not_le.mp hx).le, s1, s2⟩

theorem eigen33_evals_eq {F : Type} [LinearOrderedField F] (ops : MathOps F)
    (mat : CovarianceMatrix F) :
    (eigen33 ops mat).evals
      = (computeRoots ops (eigen33ScaledMat mat)).smul (eigen33Scale mat) := rfl

theorem eigen33_evecs_eq {F : Type} [LinearOrderedField F] (ops : MathOps F)
    (mat : CovarianceMatrix F) :
    (eigen33 ops mat).evecs
      = eigen33Vectors ops (eigen33ScaledMat mat) (computeRoots ops (eigen33ScaledMat mat)) := rfl

/-! ### Diagonal matrices -/

theorem isSymmetric_diag {F : Type} [LinearOrderedField F] (a b c : F) :
    IsSymmetric (diag a b c) := by
  simp [IsSymmetric, diag]

theorem isPSD_diag {F : Type} [LinearOrderedField F] (a b c : F)
    (ha : 0 ≤ a) (hb : 0 ≤ b) (hc : 0 ≤ c) : IsPSD (diag a b c) := by
  intro v
  simp only [quadForm, dot, diag, zero_mul, add_zero, zero_add]
  have h1 := mul_nonneg ha (mul_self_nonneg v.x)
  have h2 := mul_nonneg hb (mul_self_nonneg v.y)
  have h3 := mul_nonneg hc (mul_self_nonneg v.z)
  nlinarith

theorem eigen33Scale_diag {F : Type} [LinearOrderedField F] (a b c : F) :
    eigen33Scale (diag a b c)
      = if max (max |a| |b|) |c| ≤ FLT_MIN then 1 else max (max |a| |b|) |c| := by
  simp [eigen33Scale, diag, float3.fmaxf, float3.fabs]

theorem eigen33ScaledMat_diag {F : Type} [LinearOrderedField F] (a b c : F) :
    eigen33ScaledMat (diag a b c)
      = diag (a / eigen33Scale (diag a b c)) (b / eigen33Scale (diag a b c))
          (c / eigen33Scale (diag a b c)) := by
  simp [eigen33ScaledMat, diag, float3.sdiv]

theorem FLT_EPSILON_lt_of_le {F : Type} [LinearOrderedField F] (x : F) (h : 1 / 1024 ≤ x) :
    ¬ x ≤ FLT_EPSILON := by
  have : (FLT_EPSILON : F) < 1 / 1024 := by unfold FLT_EPSILON; norm_num
  intro h'
  linarith

/-! ### The scaled matrix `diag (1/4, 1/4, 1)` -/

theorem charC0_quarter : charC0 (diag (1 / 4 : ℝ) (1 / 4) 1) = 1 / 16 := by
  simp [charC0, diag]; norm_num

theorem charC1_quarter : charC1 (diag (1 / 4 : ℝ) (1 / 4) 1) = 9 / 16 := by
  simp [charC1, diag]; norm_num

theorem charC2_quarter : charC2 (diag (1 / 4 : ℝ) (1 / 4) 1) = 3 / 2 := by
  simp [charC2, diag]; norm_num

theorem aOver3_quarter : aOver3Unclamped (9 / 16 : ℝ) (3 / 2) = -(1 / 16) := by
  simp only [aOver3Unclamped]; norm_num

theorem halfB_quarter : halfB (1 / 16 : ℝ) (9 / 16) (3 / 2) = 1 / 64 := by
  simp only [halfB]; norm_num

theorem qUnclamped_quarter : qUnclamped (1 / 16 : ℝ) (9 / 16) (3 / 2) = 0 := by
  simp only [qUnclamped, aOver3_quarter, halfB_quarter]; norm_num

theorem trigRoots_quarter :
    trigRoots realOps (1 / 16 : ℝ) (9 / 16) (3 / 2) = ⟨1, 1 / 4, 1 / 4⟩ := by
  have hrho : Real.sqrt (1 / 16) = 1 / 4 := by
    rw [show (1 / 16 : ℝ) = (1 / 4) ^ 2 by norm_num]
    exact Real.sqrt_sq (by norm_num)
  have harg : Complex.arg ⟨(1 / 64 : ℝ), 0⟩ = 0 :=
    Complex.arg_ofReal_of_nonneg (by norm_num)
  have hneg : ¬ (-(1 / 16 : ℝ) > 0) := by norm_num
  simp only [trigRoots, aOver3_quarter, halfB_quarter, qUnclamped_quarter, hneg, lt_irrefl,
    if_false, gt_iff_lt, neg_zero, neg_neg,
    realOps_sqrt, realOps_atan2, realOps_cos, realOps_sin, Real.sqrt_zero, hrho, harg,
    zero_mul, Real.cos_zero, Real.sin_zero, mul_zero]
  norm_num

theorem sortRoots_quarter :
    sortRoots (⟨1, 1 / 4, 1 / 4⟩ : float3 ℝ) = ⟨1 / 4, 1 / 4, 1⟩ := by
  simp only [sortRoots, swap]; norm_num

theorem computeRoots_quarter :
    computeRoots realOps (diag (1 / 4 : ℝ) (1 / 4) 1) = ⟨1 / 4, 1 / 4, 1⟩ := by
  unfold computeRoots
  simp only [charC0_quarter, charC1_quarter, charC2_quarter, trigRoots_quarter,
    sortRoots_quarter]
  rw [if_neg, if_neg]
  · norm_num
  · rw [abs_of_pos (by norm_num : (0 : ℝ) < 1 / 16)]
    exact not_lt.mpr (le_of_lt (by unfold FLT_EPSILON; norm_num))

/-! ### The trigonometric closed form -/

theorem sortRoots_mem {F : Type} [LinearOrderedField F] (P : F → Prop) (r : float3 F)
    (hx : P r.x) (hy : P r.y) (hz : P r.z) :
    P (sortRoots r).x ∧ P (sortRoots r).y ∧ P (sortRoots r).z := by
  obtain ⟨x, y, z⟩ := r
  simp only [sortRoots, swap, ge_iff_le]
  by_cases h1 : y ≤ x <;> by_cases h2 : z ≤ x <;> by_cases h3 : z ≤ y <;>
    simp only [h1, h2, h3, if_true, if_false] <;> exact ⟨by assumption, by assumption, by assumption⟩

/-- The three values of the closed form solve the cubic, given the two
relations `rho^2 = -a_over_3` and `rho^3 * cos (3 theta) = half_b`. -/
theorem cubic_of_trig (c0 c1 c2 rho C S s3 : ℝ)
    (hrho : rho * rho = -aOver3Unclamped c1 c2)
    (hK : rho * rho * rho * (4 * C ^ 3 - 3 * C) = halfB c0 c1 c2)
    (hCS : C ^ 2 + S ^ 2 = 1) (hs3 : s3 * s3 = 3) :
    (c2 * (1 / 3) + 2 * rho * C) ^ 3 - c2 * (c2 * (1 / 3) + 2 * rho * C) ^ 2
        + c1 * (c2 * (1 / 3) + 2 * rho * C) - c0 = 0
      ∧ (c2 * (1 / 3) - rho * (C + s3 * S)) ^ 3 - c2 * (c2 * (1 / 3) - rho * (C + s3 * S)) ^ 2
        + c1 * (c2 * (1 / 3) - rho * (C + s3 * S)) - c0 = 0
      ∧ (c2 * (1 / 3) - rho * (C - s3 * S)) ^ 3 - c2 * (c2 * (1 / 3) - rho * (C - s3 * S)) ^ 2
        + c1 * (c2 * (1 / 3) - rho * (C - s3 * S)) - c0 = 0 := by
  simp only [aOver3Unclamped, halfB] at hrho hK
  refine ⟨?_, ?_, ?_⟩
  · linear_combination 2 * hK + 6 * rho * C * hrho
  · linear_combination 2 * hK - 3 * rho * (C + s3 * S) * hrho
      - rho ^ 3 * (3 * C * S ^ 2 + s3 * S ^ 3) * hs3 - rho ^ 3 * (9 * C + 3 * s3 * S) * hCS
  · linear_combination 2 * hK - 3 * rho * (C - s3 * S) * hrho
      - rho ^ 3 * (3 * C * S ^ 2 - s3 * S ^ 3) * hs3 - rho ^ 3 * (9 * C - 3 * s3 * S) * hCS

/-- The relation `rho^3 * cos (3 theta) = half_b` of the closed form, when
`a_over_3 ≤ 0` and `q = half_b^2 + a_over_3^3 ≤ 0`. -/
theorem rho_cube_cos (a h : ℝ) (ha : a ≤ 0) (hq : h * h + a * a * a ≤ 0) :
    Real.sqrt (-a) * Real.sqrt (-a) * Real.sqrt (-a)
        * (4 * Real.cos (Complex.arg ⟨h, Real.sqrt (-(h * h + a * a * a))⟩ * (1 / 3)) ^ 3
            - 3 * Real.cos (Complex.arg ⟨h, Real.sqrt (-(h * h + a * a * a))⟩ * (1 / 3)))
      = h := by
  set z : ℂ := ⟨h, Real.sqrt (-(h * h + a * a * a))⟩ with hz
  have h3 : 4 * Real.cos (Complex.arg z * (1 / 3)) ^ 3 - 3 * Real.cos (Complex.arg z * (1 / 3))
      = Real.cos (Complex.arg z) := by
    rw [← Real.cos_three_mul]
    congr 1
    ring
  rw [h3]
  have hr : Real.sqrt (-a) * Real.sqrt (-a) = -a := Real.mul_self_sqrt (by linarith)
  have hr0 : 0 ≤ Real.sqrt (-a) := Real.sqrt_nonneg _
  have hs : Real.sqrt (-(h * h + a * a * a)) * Real.sqrt (-(h * h + a * a * a))
      = -(h * h + a * a * a) := Real.mul_self_sqrt (by linarith)
  have habs : Complex.abs z = Real.sqrt (-a) * Real.sqrt (-a) * Real.sqrt (-a) := by
    rw [Complex.abs_apply, Complex.normSq_apply]
    simp only [hz, hs]
    rw [show h * h + -(h * h + a * a * a)
        = (Real.sqrt (-a) * Real.sqrt (-a) * Real.sqrt (-a)) ^ 2 by
      rw [hr]; ring_nf; rw [show Real.sqrt (-a) ^ 2 = -a by rw [sq]; exact hr]; ring]
    exact Real.sqrt_sq (by positivity)
  by_cases hz0 : z = 0
  · have hh : h = 0 := by
      have := congrArg Complex.re hz0
      simpa [hz] using this
    have habs0 : Complex.abs z = 0 := by rw [hz0]; simp
    rw [← habs, habs0, hh]; ring
  · rw [Complex.cos_arg hz0, ← habs]
    have hne : Complex.abs z ≠ 0 := fun h0 => hz0 (by simpa using h0)
    have hre : z.re = h := by rw [hz]
    rw [hre]
    field_simp

theorem charC0_eq_det3 {F : Type} [LinearOrderedField F] (m : CovarianceMatrix F)
    (h : IsSymmetric m) : charC0 m = det3 m := by
  obtain ⟨h1, h2, h3⟩ := h
  simp only [charC0, det3, h1, h2, h3]; ring

theorem charC1_eq_principalMinorSum {F : Type} [LinearOrderedField F] (m : CovarianceMatrix F)
    (h : IsSymmetric m) : charC1 m = principalMinorSum m := by
  obtain ⟨h1, h2, h3⟩ := h
  simp only [charC1, principalMinorSum, h1, h2, h3]; ring

/-- With `a_over_3 ≤ 0` and `q ≤ 0` before their clamps, each of the three
values of the trigonometric closed form solves
`x^3 - c2*x^2 + c1*x - c0 = 0`. -/
theorem trigRoots_cubic (c0 c1 c2 : ℝ) (ha : aOver3Unclamped c1 c2 ≤ 0)
    (hq : qUnclamped c0 c1 c2 ≤ 0) :
    ((trigRoots realOps c0 c1 c2).x ^ 3 - c2 * (trigRoots realOps c0 c1 c2).x ^ 2
        + c1 * (trigRoots realOps c0 c1 c2).x - c0 = 0)
      ∧ ((trigRoots realOps c0 c1 c2).y ^ 3 - c2 * (trigRoots realOps c0 c1 c2).y ^ 2
        + c1 * (trigRoots realOps c0 c1 c2).y - c0 = 0)
      ∧ ((trigRoots realOps c0 c1 c2).z ^ 3 - c2 * (trigRoots realOps c0 c1 c2).z ^ 2
        + c1 * (trigRoots realOps c0 c1 c2).z - c0 = 0) := by
  have hna : ¬ (aOver3Unclamped c1 c2 > 0) := not_lt.mpr ha
  have hnq : ¬ (qUnclamped c0 c1 c2 > 0) := not_lt.mpr hq
  have hqe : qUnclamped c0 c1 c2
      = halfB c0 c1 c2 * halfB c0 c1 c2
        + aOver3Unclamped c1 c2 * aOver3Unclamped c1 c2 * aOver3Unclamped c1 c2 := by
    simp only [qUnclamped, if_neg hna]
  have hK := rho_cube_cos (aOver3Unclamped c1 c2) (halfB c0 c1 c2) ha (hqe ▸ hq)
  rw [← hqe] at hK
  have hrho : Real.sqrt (-aOver3Unclamped c1 c2) * Real.sqrt (-aOver3Unclamped c1 c2)
      = -aOver3Unclamped c1 c2 := Real.mul_self_sqrt (by linarith)
  have hs3 : Real.sqrt 3 * Real.sqrt 3 = 3 := Real.mul_self_sqrt (by norm_num)
  have hCS := Real.cos_sq_add_sin_sq
    (Complex.arg ⟨halfB c0 c1 c2, Real.sqrt (-qUnclamped c0 c1 c2)⟩ * (1 / 3))
  have := cubic_of_trig c0 c1 c2 _ _ _ _ hrho hK hCS hs3
  simpa only [trigRoots, if_neg hna, if_neg hnq, realOps_sqrt, realOps_atan2, realOps_cos,
    realOps_sin] using this

/-! ### Clamp -/

theorem clamp_mem (f a b : Int) (h : a ≤ b) : a ≤ clamp f a b ∧ clamp f a b ≤ b := by
  unfold clamp
  exact ⟨le_max_left _ _, max_le h (min_le_right _ _)⟩

theorem clamp_idem (f a b : Int) : clamp (clamp f a b) a b = clamp f a b := by
  unfold clamp
  rcases le_total a b with h | h
  · have h1 : max a (min f b) ≤ b := max_le h (min_le_right _ _)
    rw [min_eq_left h1, max_eq_right (le_max_left _ _)]
  · have h1 : min f b ≤ a := le_trans (min_le_right _ _) h
    rw [max_eq_left h1, min_eq_right h, max_eq_left h]

/-! ### Sums over a range of points -/

theorem foldl_AddPoints_proj {F : Type} [LinearOrderedField F] (proj : float3 F → F)
    (hproj : ∀ a b, proj (AddPoints a b) = proj a + proj b) (g : float3 F → float3 F)
    (pts : List (float3 F)) (init : float3 F) :
    proj (transform_reduce pts g init AddPoints) = proj init + (pts.map (fun p => proj (g p))).sum := by
  unfold transform_reduce
  induction pts generalizing init with
  | nil => simp
  | cons p ps ih =>
    simp only [List.foldl_cons, List.map_cons, List.sum_cons]
    rw [ih, hproj, add_assoc]

theorem foldl_AddCovariances_proj {F : Type} [LinearOrderedField F]
    (proj : CovarianceMatrix F → F)
    (hproj : ∀ a b, proj (AddCovariances a b) = proj a + proj b)
    (g : float3 F → CovarianceMatrix F) (pts : List (float3 F)) (init : CovarianceMatrix F) :
    proj (transform_reduce pts g init AddCovariances)
      = proj init + (pts.map (fun p => proj (g p))).sum := by
  unfold transform_reduce
  induction pts generalizing init with
  | nil => simp
  | cons p ps ih =>
    simp only [List.foldl_cons, List.map_cons, List.sum_cons]
    rw [ih, hproj, add_assoc]

/-- The centroid of `compute3DCentroid`, by components. -/
theorem compute3DCentroid_eq {F : Type} [LinearOrderedField F] (pts : List (float3 F)) :
    compute3DCentroid pts
      = ⟨(pts.map (fun p => p.x)).sum / (pts.length : F),
         (pts.map (fun p => p.y)).sum / (pts.length : F),
         (pts.map (fun p => p.z)).sum / (pts.length : F)⟩ := by
  have hx := foldl_AddPoints_proj (fun v : float3 F => v.x) (fun _ _ => rfl)
    convert_point_to_float3 pts ⟨0, 0, 0⟩
  have hy := foldl_AddPoints_proj (fun v : float3 F => v.y) (fun _ _ => rfl)
    convert_point_to_float3 pts ⟨0, 0, 0⟩
  have hz := foldl_AddPoints_proj (fun v : float3 F => v.z) (fun _ _ => rfl)
    convert_point_to_float3 pts ⟨0, 0, 0⟩
  simp only [zero_add, convert_point_to_float3] at hx hy hz
  simp only [compute3DCentroid, float3.sdiv, convert_point_to_float3, hx, hy, hz]

/-- The matrix of `computeCovariance`, by entries; the content `indet` of the
unassigned entries does not occur in it. -/
theorem computeCovariance_eq {F : Type} [LinearOrderedField F]
    (indet : float3 F → CovarianceMatrix F) (pts : List (float3 F)) (c : float3 F) :
    computeCovariance indet pts c
      = ⟨⟨(pts.map (fun p => (p.x - c.x) * (p.x - c.x))).sum / (pts.length : F),
          (pts.map (fun p => (p.x - c.x) * (p.y - c.y))).sum / (pts.length : F),
          (pts.map (fun p => (p.x - c.x) * (p.z - c.z))).sum / (pts.length : F)⟩,
         ⟨(pts.map (fun p => (p.y - c.y) * (p.x - c.x))).sum / (pts.length : F),
          (pts.map (fun p => (p.y - c.y) * (p.y - c.y))).sum / (pts.length : F),
          (pts.map (fun p => (p.y - c.y) * (p.z - c.z))).sum / (pts.length : F)⟩,
         ⟨(pts.map (fun p => (p.z - c.z) * (p.x - c.x))).sum / (pts.length : F),
          (pts.map (fun p => (p.z - c.z) * (p.y - c.y))).sum / (pts.length : F),
          (pts.map (fun p => (p.z - c.z) * (p.z - c.z))).sum / (pts.length : F)⟩⟩ := by
  have h (proj : CovarianceMatrix F → F)
      (hproj : ∀ a b, proj (AddCovariances a b) = proj a + proj b) :=
    foldl_AddCovariances_proj proj hproj (fun p => ComputeCovarianceForPoint c (indet p) p) pts
      ⟨make_float3 0 0 0, make_float3 0 0 0, make_float3 0 0 0⟩
  have h00 := h (fun m => m.data0.x) (fun _ _ => rfl)
  have h01 := h (fun m => m.data0.y) (fun _ _ => rfl)
  have h02 := h (fun m => m.data0.z) (fun _ _ => rfl)
  have h11 := h (fun m => m.data1.y) (fun _ _ => rfl)
  have h12 := h (fun m => m.data1.z) (fun _ _ => rfl)
  have h22 := h (fun m => m.data2.z) (fun _ _ => rfl)
  simp only [make_float3, zero_add, ComputeCovarianceForPoint, float3.sub, float3.smul]
    at h00 h01 h02 h11 h12 h22
  have e01 : (pts.map (fun p => (p.x - c.x) * (p.y - c.y))).sum
      = (pts.map (fun p => (p.y - c.y) * (p.x - c.x))).sum := by
    congr 2; funext p; ring
  have e02 : (pts.map (fun p => (p.x - c.x) * (p.z - c.z))).sum
      = (pts.map (fun p => (p.z - c.z) * (p.x - c.x))).sum := by
    congr 2; funext p; ring
  have e12 : (pts.map (fun p => (p.z - c.z) * (p.y - c.y))).sum
      = (pts.map (fun p => (p.y - c.y) * (p.z - c.z))).sum := by
    congr 2; funext p; ring
  simp only [computeCovariance, float3.sdiv, make_float3, ComputeCovarianceForPoint, float3.sub,
    float3.smul, h00, h01, h02, h11, h12, h22, e01, e02, e12]

/-! ### The one-pass accumulator -/

theorem searchWindow_eq {F : Type} [LinearOrderedField F] (ops : MathOps F)
    (s : OrganizedRadiusSearch F) (q : float3 F) :
    searchWindow ops s q = getProjectedRadiusSearchBox ops s q := by
  simp only [searchWindow, getProjectedRadiusSearchBox, clamp_idem]

theorem onlineBody_eq {F : Type} [LinearOrderedField F] (s : OrganizedRadiusSearch F)
    (q : float3 F) (st : OnlineState F) (y x : Int) :
    onlineBody s q st y x
      = match acceptedPoint s q (y, x) with
        | some p => onlineUpdate st p
        | none => st := by
  unfold onlineBody acceptedPoint
  dsimp only
  split <;> [split_ifs <;> rfl; rfl]

/-- The two nested loops are one pass over the accepted points. -/
theorem online_loops_eq {F : Type} [LinearOrderedField F] (s : OrganizedRadiusSearch F)
    (q : float3 F) (ys xs : List Int) (st : OnlineState F) :
    ys.foldl (fun st y => xs.foldl (fun st x => onlineBody s q st y x) st) st
      = ((ys.flatMap (fun y => xs.map (fun x => (y, x)))).filterMap (acceptedPoint s q)).foldl
          onlineUpdate st := by
  have inner : ∀ (y : Int) (xs : List Int) (st : OnlineState F),
      xs.foldl (fun st x => onlineBody s q st y x) st
        = ((xs.map (fun x => (y, x))).filterMap (acceptedPoint s q)).foldl onlineUpdate st := by
    intro y xs
    induction xs with
    | nil => intro st; rfl
    | cons x xs ih =>
      intro st
      rw [List.foldl_cons, ih, List.map_cons, List.filterMap_cons, onlineBody_eq]
      cases acceptedPoint s q (y, x) <;> rfl
  induction ys generalizing st with
  | nil => rfl
  | cons y ys ih =>
    simp only [List.foldl_cons, List.flatMap_cons, List.filterMap_append, List.foldl_append]
    rw [ih, inner]

theorem onlineInv_init {F : Type} [LinearOrderedField F] :
    OnlineInv ([] : List (float3 F))
      ⟨⟨make_float3 0 0 0, make_float3 0 0 0, make_float3 0 0 0⟩, make_float3 0 0 0, 0⟩ := by
  constructor <;> simp [make_float3]

theorem onlineInv_step {F : Type} [LinearOrderedField F] (ps : List (float3 F))
    (st : OnlineState F) (p : float3 F) (h : OnlineInv ps st) :
    OnlineInv (ps ++ [p]) (onlineUpdate st p) := by
  have hn : ((ps.length : F) + 1) ≠ 0 := by positivity
  have hcast : (((st.nnn + 1 : Int)) : F) = (ps.length : F) + 1 := by
    rw [h.count]; push_cast; ring
  have hx : (onlineUpdate st p).centroid.x
      = st.centroid.x + (p.x - st.centroid.x) / ((ps.length : F) + 1) := by
    simp only [onlineUpdate, float3.add, float3.sub, float3.sdiv, hcast]
  have hy : (onlineUpdate st p).centroid.y
      = st.centroid.y + (p.y - st.centroid.y) / ((ps.length : F) + 1) := by
    simp only [onlineUpdate, float3.add, float3.sub, float3.sdiv, hcast]
  have hz : (onlineUpdate st p).centroid.z
      = st.centroid.z + (p.z - st.centroid.z) / ((ps.length : F) + 1) := by
    simp only [onlineUpdate, float3.add, float3.sub, float3.sdiv, hcast]
  have hlen : (((ps ++ [p]).length : ℕ) : F) = (ps.length : F) + 1 := by
    simp
  constructor
  · simp only [onlineUpdate, h.count]; simp
  · rw [hlen, hx, List.map_append, List.sum_append, ← h.meanx]; simp; field_simp; ring
  · rw [hlen, hy, List.map_append, List.sum_append, ← h.meany]; simp; field_simp; ring
  · rw [hlen, hz, List.map_append, List.sum_append, ← h.meanz]; simp; field_simp; ring
  · rw [hlen, hx, List.map_append, List.sum_append]
    have : (onlineUpdate st p).cov.data0.x
        = st.cov.data0.x + (p.x - st.centroid.x)
          * (p.x - (st.centroid.x + (p.x - st.centroid.x) / ((ps.length : F) + 1))) := by
      simp only [onlineUpdate, float3.add, float3.sub, float3.sdiv, float3.smul, hcast]
    rw [this, h.cxx]; simp; field_simp; ring
  · rw [hlen, hx, hy, List.map_append, List.sum_append]
    have : (onlineUpdate st p).cov.data0.y
        = st.cov.data0.y + (p.y - st.centroid.y)
          * (p.x - (st.centroid.x + (p.x - st.centroid.x) / ((ps.length : F) + 1))) := by
      simp only [onlineUpdate, float3.add, float3.sub, float3.sdiv, float3.smul, hcast]
    rw [this, h.cxy]; simp; field_simp; ring
  · rw [hlen, hx, hz, List.map_append, List.sum_append]
    have : (onlineUpdate st p).cov.data0.z
        = st.cov.data0.z + (p.z - st.centroid.z)
          * (p.x - (st.centroid.x + (p.x - st.centroid.x) / ((ps.length : F) + 1))) := by
      simp only [onlineUpdate, float3.add, float3.sub, float3.sdiv, float3.smul, hcast]
    rw [this, h.cxz]; simp; field_simp; ring
  · rw [hlen, hy, List.map_append, List.sum_append]
    have : (onlineUpdate st p).cov.data1.y
        = st.cov.data1.y
          + (p.y - (st.centroid.y + (p.y - st.centroid.y) / ((ps.length : F) + 1)))
            * (p.y - st.centroid.y) := by
      simp only [onlineUpdate, float3.add, float3.sub, float3.sdiv, float3.smul, hcast]
    rw [this, h.cyy]; simp; field_simp; ring
  · rw [hlen, hy, hz, List.map_append, List.sum_append]
    have : (onlineUpdate st p).cov.data1.z
        = st.cov.data1.z
          + (p.y - (st.centroid.y + (p.y - st.centroid.y) / ((ps.length : F) + 1)))
            * (p.z - st.centroid.z) := by
      simp only [onlineUpdate, float3.add, float3.sub, float3.sdiv, float3.smul, hcast]
    rw [this, h.cyz]; simp; field_simp; ring
  · rw [hlen, hz, List.map_append, List.sum_append]
    have : (onlineUpdate st p).cov.data2.z
        = st.cov.data2.z
          + (p.z - (st.centroid.z + (p.z - st.centroid.z) / ((ps.length : F) + 1)))
            * (p.z - st.centroid.z) := by
      simp only [onlineUpdate, float3.add, float3.sub, float3.sdiv, float3.smul, hcast]
    rw [this, h.czz]; simp; field_simp; ring

theorem onlineInv_foldl {F : Type} [LinearOrderedField F] (ps qs : List (float3 F))
    (st : OnlineState F) (h : OnlineInv qs st) :
    OnlineInv (qs ++ ps) (ps.foldl onlineUpdate st) := by
  induction ps generalizing qs st with
  | nil => simpa using h
  | cons p ps ih =>
    have := ih (qs ++ [p]) (onlineUpdate st p) (onlineInv_step qs st p h)
    simpa using this

theorem sum_demean_mul {F : Type} [LinearOrderedField F] (ps : List (float3 F))
    (f g : float3 F → F) (a b : F) :
    (ps.map (fun p => (f p - a) * (g p - b))).sum
      = (ps.map (fun p => f p * g p)).sum - b * (ps.map f).sum - a * (ps.map g).sum
        + (ps.length : F) * a * b := by
  induction ps with
  | nil => simp
  | cons p ps ih =>
    simp only [List.map_cons, List.sum_cons, List.length_cons, ih]
    push_cast
    ring

/-- What `computeCovarianceOnline` returns, in terms of the state reached by
one pass over the accepted points. -/
theorem computeCovarianceOnline_state {F : Type} [LinearOrderedField F] (ops : MathOps F)
    (s : OrganizedRadiusSearch F) (q : float3 F) (d : F) :
    computeCovarianceOnline ops s q d
      = (⟨⟨((acceptedPoints ops s q).foldl onlineUpdate
                ⟨⟨make_float3 0 0 0, make_float3 0 0 0, make_float3 0 0 0⟩,
                  make_float3 0 0 0, 0⟩).cov.data0.x
              / (((acceptedPoints ops s q).foldl onlineUpdate
                ⟨⟨make_float3 0 0 0, make_float3 0 0 0, make_float3 0 0 0⟩,
                  make_float3 0 0 0, 0⟩).nnn : F),
            ((acceptedPoints ops s q).foldl onlineUpdate
                ⟨⟨make_float3 0 0 0, make_float3 0 0 0, make_float3 0 0 0⟩,
                  make_float3 0 0 0, 0⟩).cov.data0.y
              / (((acceptedPoints ops s q).foldl onlineUpdate
                ⟨⟨make_float3 0 0 0, make_float3 0 0 0, make_float3 0 0 0⟩,
                  make_float3 0 0 0, 0⟩).nnn : F),
            ((acceptedPoints ops s q).foldl onlineUpdate
                ⟨⟨make_float3 0 0 0, make_float3 0 0 0, make_float3 0 0 0⟩,
                  make_float3 0 0 0, 0⟩).cov.data0.z
              / (((acceptedPoints ops s q).foldl onlineUpdate
                ⟨⟨make_float3 0 0 0, make_float3 0 0 0, make_float3 0 0 0⟩,
                  make_float3 0 0 0, 0⟩).nnn : F)⟩,
          ⟨((acceptedPoints ops s q).foldl onlineUpdate
                ⟨⟨make_float3 0 0 0, make_float3 0 0 0, make_float3 0 0 0⟩,
                  make_float3 0 0 0, 0⟩).cov.data0.y
              / (((acceptedPoints ops s q).foldl onlineUpdate
                ⟨⟨make_float3 0 0 0, make_float3 0 0 0, make_float3 0 0 0⟩,
                  make_float3 0 0 0, 0⟩).nnn : F),
            ((acceptedPoints ops s q).foldl onlineUpdate
                ⟨⟨make_float3 0 0 0, make_float3 0 0 0, make_float3 0 0 0⟩,
                  make_float3 0 0 0, 0⟩).cov.data1.y
              / (((acceptedPoints ops s q).foldl onlineUpdate
                ⟨⟨make_float3 0 0 0, make_float3 0 0 0, make_float3 0 0 0⟩,
                  make_float3 0 0 0, 0⟩).nnn : F),
            ((acceptedPoints ops s q).foldl onlineUpdate
                ⟨⟨make_float3 0 0 0, make_float3 0 0 0, make_float3 0 0 0⟩,
                  make_float3 0 0 0, 0⟩).cov.data1.z
              / (((acceptedPoints ops s q).foldl onlineUpdate
                ⟨⟨make_float3 0 0 0, make_float3 0 0 0, make_float3 0 0 0⟩,
                  make_float3 0 0 0, 0⟩).nnn : F)⟩,
          ⟨((acceptedPoints ops s q).foldl onlineUpdate
                ⟨⟨make_float3 0 0 0, make_float3 0 0 0, make_float3 0 0 0⟩,
                  make_float3 0 0 0, 0⟩).cov.data0.z
              / (((acceptedPoints ops s q).foldl onlineUpdate
                ⟨⟨make_float3 0 0 0, make_float3 0 0 0, make_float3 0 0 0⟩,
                  make_float3 0 0 0, 0⟩).nnn : F),
            ((acceptedPoints ops s q).foldl onlineUpdate
                ⟨⟨make_float3 0 0 0, make_float3 0 0 0, make_float3 0 0 0⟩,
                  make_float3 0 0 0, 0⟩).cov.data1.z
              / (((acceptedPoints ops s q).foldl onlineUpdate
                ⟨⟨make_float3 0 0 0, make_float3 0 0 0, make_float3 0 0 0⟩,
                  make_float3 0 0 0, 0⟩).nnn : F),
            ((acceptedPoints ops s q).foldl onlineUpdate
                ⟨⟨make_float3 0 0 0, make_float3 0 0 0, make_float3 0 0 0⟩,
                  make_float3 0 0 0, 0⟩).cov.data2.z
              / (((acceptedPoints ops s q).foldl onlineUpdate
                ⟨⟨make_float3 0 0 0, make_float3 0 0 0, make_float3 0 0 0⟩,
                  make_float3 0 0 0, 0⟩).nnn : F)⟩⟩,
         ((acceptedPoints ops s q).foldl onlineUpdate
            ⟨⟨make_float3 0 0 0, make_float3 0 0 0, make_float3 0 0 0⟩,
              make_float3 0 0 0, 0⟩).nnn) := by
  simp only [computeCovarianceOnline, acceptedPoints, windowPixels, searchWindow_eq,
    online_loops_eq, float3.sdiv]

/-! ### The two-pixel cloud -/

theorem twoPixelCloud_box :
    getProjectedRadiusSearchBox realOps (twoPixelCloud : OrganizedRadiusSearch ℝ) ⟨0, 0, 1⟩
      = ⟨0, 1, 0, 0⟩ := by
  have hs : Real.sqrt (0 * 0 * (1 / 2) + 1 * 1 * (1 / 2) - 1 / 2 * (1 / 2)) = 1 / 2 := by
    rw [show (0 * 0 * (1 / 2) + 1 * 1 * (1 / 2) - 1 / 2 * (1 / 2) : ℝ) = (1 / 2) ^ 2 by norm_num]
    exact Real.sqrt_sq (by norm_num)
  have hb : projectedBounds realOps (twoPixelCloud : OrganizedRadiusSearch ℝ) ⟨0, 0, 1⟩
      = ⟨0, 2, -(1 / 2), 3 / 2⟩ := by
    simp only [projectedBounds, twoPixelCloud, realOps_sqrt, hs]
    norm_num
  have f0 : ⌊(0 : ℝ)⌋ = 0 := Int.floor_zero
  have c2 : ⌈(2 : ℝ)⌉ = 2 := by
    rw [Int.ceil_eq_iff]; norm_num
  have f1 : ⌊(-(1 / 2) : ℝ)⌋ = -1 := by
    rw [Int.floor_eq_iff]; norm_num
  have c3 : ⌈(3 / 2 : ℝ)⌉ = 2 := by
    rw [Int.ceil_eq_iff]; norm_num
  unfold getProjectedRadiusSearchBox
  rw [hb]
  simp only [realOps, f0, c2, f1, c3, twoPixelCloud, clamp]
  decide

theorem twoPixelCloud_accepted :
    acceptedPoints realOps (twoPixelCloud : OrganizedRadiusSearch ℝ) ⟨0, 0, 1⟩
      = [⟨0, 0, 1⟩, ⟨1 / 2, 0, 1⟩] := by
  have hr0 : loopRange 0 0 = [0] := by decide
  have hr1 : loopRange 0 1 = [0, 1] := by decide
  have a0 : acceptedPoint (twoPixelCloud : OrganizedRadiusSearch ℝ) ⟨0, 0, 1⟩ (0, 0)
      = some ⟨0, 0, 1⟩ := by
    simp [acceptedPoint, twoPixelCloud, dot, float3.sub]
  have a1 : acceptedPoint (twoPixelCloud : OrganizedRadiusSearch ℝ) ⟨0, 0, 1⟩ (0, 1)
      = some ⟨1 / 2, 0, 1⟩ := by
    simp [acceptedPoint, twoPixelCloud, dot, float3.sub]
    norm_num
  simp only [acceptedPoints, windowPixels, twoPixelCloud_box, hr0, hr1, List.flatMap_cons,
    List.flatMap_nil, List.map_cons, List.map_nil, List.append_nil, List.filterMap_cons, a0, a1,
    List.filterMap_nil]

/-! ### Orthonormal triples -/

theorem dot_comm {F : Type} [LinearOrderedField F] (a b : float3 F) : dot a b = dot b a := by
  simp only [dot]; ring

theorem dot_self_nonneg {F : Type} [LinearOrderedField F] (a : float3 F) : 0 ≤ dot a a := by
  simp only [dot]
  nlinarith [mul_self_nonneg a.x, mul_self_nonneg a.y, mul_self_nonneg a.z]

theorem dot_cross_left {F : Type} [LinearOrderedField F] (a b : float3 F) :
    dot (cross a b) a = 0 := by
  simp only [dot, cross]; ring

theorem dot_cross_right {F : Type} [LinearOrderedField F] (a b : float3 F) :
    dot (cross a b) b = 0 := by
  simp only [dot, cross]; ring

theorem dot_cross_self {F : Type} [LinearOrderedField F] (a b : float3 F) :
    dot (cross a b) (cross a b) = dot a a * dot b b - dot a b * dot a b := by
  simp only [dot, cross]; ring

theorem dot_sdiv_left {F : Type} [LinearOrderedField F] (a b : float3 F) (s : F) :
    dot (a.sdiv s) b = dot a b / s := by
  simp only [dot, float3.sdiv]; ring

/-- A non-zero vector divided by its length is a unit vector. -/
theorem sdiv_sqrt_unit (v : float3 ℝ) (l : ℝ) (hl : l = dot v v) (h : l ≠ 0) :
    dot (v.sdiv (realOps.sqrt l)) (v.sdiv (realOps.sqrt l)) = 1 := by
  have h0 : 0 ≤ l := hl ▸ dot_self_nonneg v
  have hs : Real.sqrt l * Real.sqrt l = l := Real.mul_self_sqrt h0
  have hne : Real.sqrt l ≠ 0 := fun h' => h (by rw [← hs, h', mul_zero])
  simp only [dot, float3.sdiv, realOps_sqrt]
  simp only [dot] at hl
  field_simp
  nlinarith

theorem selectCross_len {F : Type} [LinearOrderedField F] (tmp : CovarianceMatrix F) :
    (selectCross tmp).len = dot (selectCross tmp).vec (selectCross tmp).vec := by
  unfold selectCross
  dsimp only
  split_ifs <;> rfl

theorem normalize_unit (v : float3 ℝ) (h : dot v v ≠ 0) :
    dot (normalize realOps v) (normalize realOps v) = 1
      ∧ ∀ w, dot v w = 0 → dot (normalize realOps v) w = 0 := by
  refine ⟨sdiv_sqrt_unit v _ rfl h, ?_⟩
  intro w hw
  unfold normalize
  rw [dot_sdiv_left, hw, zero_div]

theorem normalize_of_unit (v : float3 ℝ) (h : dot v v = 1) : normalize realOps v = v := by
  obtain ⟨x, y, z⟩ := v
  simp only [normalize, h, realOps_sqrt, Real.sqrt_one, float3.sdiv, div_one]

/-- The vector of `unitOrthogonal` for a unit vector: of unit length, and
orthogonal to its argument. -/
theorem unitOrthogonal_of_unit (u : float3 ℝ) (hu : dot u u = 1) :
    dot (unitOrthogonal realOps u) (unitOrthogonal realOps u) = 1
      ∧ dot (unitOrthogonal realOps u) u = 0 := by
  obtain ⟨x, y, z⟩ := u
  simp only [dot] at hu
  have he : (0 : ℝ) < FLT_EPSILON := FLT_EPSILON_pos
  unfold unitOrthogonal
  dsimp only
  split_ifs with hc
  · have hpos : 0 < x * x + y * y := by
      by_contra hle
      have hx : x = 0 := by nlinarith [mul_self_nonneg x, mul_self_nonneg y]
      have hy : y = 0 := by nlinarith [mul_self_nonneg x, mul_self_nonneg y]
      have hz : 0 ≤ FLT_EPSILON * FLT_EPSILON * z * z := by
        have := mul_nonneg (mul_nonneg he.le he.le) (mul_self_nonneg z)
        nlinarith
      simp [isMuchSmallerThan, hx, hy, hz] at hc
    have hs : Real.sqrt (x * x + y * y) * Real.sqrt (x * x + y * y) = x * x + y * y :=
      Real.mul_self_sqrt hpos.le
    have hne : Real.sqrt (x * x + y * y) ≠ 0 := (Real.sqrt_pos.mpr hpos).ne'
    simp only [dot, realOps_sqrt]
    constructor
    · field_simp; nlinarith
    · field_simp; ring
  · have hpos : 0 < z * z + y * y := by
      by_contra hle
      have hz : z = 0 := by nlinarith [mul_self_nonneg z, mul_self_nonneg y]
      have hy : y = 0 := by nlinarith [mul_self_nonneg z, mul_self_nonneg y]
      simp only [Bool.or_eq_true, Bool.not_eq_eq_eq_not, Bool.not_true, not_or,
        Bool.not_eq_false, isMuchSmallerThan, decide_eq_true_eq, hz, mul_zero] at hc
      have hx : x = 0 := by nlinarith [mul_self_nonneg x, hc.1]
      rw [hx, hy, hz] at hu
      norm_num at hu
    have hs : Real.sqrt (z * z + y * y) * Real.sqrt (z * z + y * y) = z * z + y * y :=
      Real.mul_self_sqrt hpos.le
    have hne : Real.sqrt (z * z + y * y) ≠ 0 := (Real.sqrt_pos.mpr hpos).ne'
    simp only [dot, realOps_sqrt]
    constructor
    · field_simp
    · field_simp; ring

/-- The cross product of two orthogonal unit vectors is a unit vector
orthogonal to both. -/
theorem cross_unit {F : Type} [LinearOrderedField F] (a b : float3 F)
    (ha : dot a a = 1) (hb : dot b b = 1) (hab : dot a b = 0) :
    dot (cross a b) (cross a b) = 1 ∧ dot (cross a b) a = 0 ∧ dot (cross a b) b = 0 := by
  refine ⟨?_, dot_cross_left a b, dot_cross_right a b⟩
  rw [dot_cross_self, ha, hb, hab]; ring

theorem minMaxEl_cases {F : Type} [LinearOrderedField F] (mmax2 mmax1 mmax0 len3 : F) :
    minMaxEl mmax2 mmax1 mmax0 len3 = (0, 1) ∨ minMaxEl mmax2 mmax1 mmax0 len3 = (0, 2)
      ∨ minMaxEl mmax2 mmax1 mmax0 len3 = (1, 0) ∨ minMaxEl mmax2 mmax1 mmax0 len3 = (1, 2)
      ∨ minMaxEl mmax2 mmax1 mmax0 len3 = (2, 0) ∨ minMaxEl mmax2 mmax1 mmax0 len3 = (2, 1) := by
  unfold minMaxEl mmaxGet
  by_cases h1 : mmax1 ≤ mmax2
  · have h1' : ¬ mmax1 > mmax2 := not_lt.mpr h1
    by_cases h2 : len3 ≤ mmax1
    · have h3 : ¬ len3 > mmax2 := not_lt.mpr (h2.trans h1)
      simp [h1, h1', h2, h3]
    · by_cases h3 : len3 > mmax2 <;> simp [h1, h1', h2, h3]
  · have h1' : mmax1 > mmax2 := not_le.mp h1
    by_cases h2 : len3 ≤ mmax2
    · have h3 : ¬ len3 > mmax1 := not_lt.mpr (h2.trans h1'.le)
      simp [h1, h1', h2, h3]
    · by_cases h3 : len3 > mmax1 <;> simp [h1, h1', h2, h3]

/-- The two re-orthogonalisations of lines 425-427, on three unit vectors
`E`: when the first cross product is not zero, the three rows end up
orthonormal, whichever pair `(min_el, max_el)` of different indices is used. -/
theorem reorth_orthonormal (E : CovarianceMatrix ℝ)
    (u0 : dot E.data0 E.data0 = 1) (u1 : dot E.data1 E.data1 = 1)
    (u2 : dot E.data2 E.data2 = 1) (mn mx : ℕ)
    (hcases : (mn, mx) = (0, 1) ∨ (mn, mx) = (0, 2) ∨ (mn, mx) = (1, 0) ∨ (mn, mx) = (1, 2)
      ∨ (mn, mx) = (2, 0) ∨ (mn, mx) = (2, 1))
    (hc : dot (cross (E.get ((mn + 1) % 3)) (E.get ((mn + 2) % 3)))
      (cross (E.get ((mn + 1) % 3)) (E.get ((mn + 2) % 3))) ≠ 0) :
    Orthonormal
      ((E.set mn (normalize realOps (cross (E.get ((mn + 1) % 3)) (E.get ((mn + 2) % 3))))).set
        (midEl mn mx)
        (normalize realOps
          (cross
            ((E.set mn (normalize realOps
              (cross (E.get ((mn + 1) % 3)) (E.get ((mn + 2) % 3))))).get ((midEl mn mx + 1) % 3))
            ((E.set mn (normalize realOps
              (cross (E.get ((mn + 1) % 3)) (E.get ((mn + 2) % 3))))).get
                ((midEl mn mx + 2) % 3))))) := by
  unfold Orthonormal
  rcases hcases with h | h | h | h | h | h
  · obtain ⟨rfl, rfl⟩ := Prod.mk.inj h
    simp only [CovarianceMatrix.get, CovarianceMatrix.set, midEl, Nat.reduceAdd, Nat.reduceMod,
      Nat.reduceSub, Nat.reduceEqDiff, OfNat.ofNat_ne_zero, OfNat.ofNat_ne_one,
      OfNat.zero_ne_ofNat, OfNat.one_ne_ofNat, zero_ne_one, one_ne_zero, if_true, if_false]
      at hc ⊢
    obtain ⟨hn, hnw⟩ := normalize_unit _ hc
    have hna := hnw E.data1 (dot_cross_left _ _)
    have hnb := hnw E.data2 (dot_cross_right _ _)
    generalize normalize realOps (cross E.data1 E.data2) = n at hn hna hnb ⊢
    obtain ⟨k1, k2, k3⟩ := cross_unit n E.data1 hn u1 (hna)
    rw [normalize_of_unit _ k1]
    refine ⟨?_, ?_, ?_, ?_, ?_, ?_⟩ <;>
      first | assumption | (rw [dot_comm]; assumption)
  · obtain ⟨rfl, rfl⟩ := Prod.mk.inj h
    simp only [CovarianceMatrix.get, CovarianceMatrix.set, midEl, Nat.reduceAdd, Nat.reduceMod,
      Nat.reduceSub, Nat.reduceEqDiff, OfNat.ofNat_ne_zero, OfNat.ofNat_ne_one,
      OfNat.zero_ne_ofNat, OfNat.one_ne_ofNat, zero_ne_one, one_ne_zero, if_true, if_false]
      at hc ⊢
    obtain ⟨hn, hnw⟩ := normalize_unit _ hc
    have hna := hnw E.data1 (dot_cross_left _ _)
    have hnb := hnw E.data2 (dot_cross_right _ _)
    generalize normalize realOps (cross E.data1 E.data2) = n at hn hna hnb ⊢
    obtain ⟨k1, k2, k3⟩ := cross_unit E.data2 n u2 hn ((dot_comm _ _).trans hnb)
    rw [normalize_of_unit _ k1]
    refine ⟨?_, ?_, ?_, ?_, ?_, ?_⟩ <;>
      first | assumption | (rw [dot_comm]; assumption)
  · obtain ⟨rfl, rfl⟩ := Prod.mk.inj h
    simp only [CovarianceMatrix.get, CovarianceMatrix.set, midEl, Nat.reduceAdd, Nat.reduceMod,
      Nat.reduceSub, Nat.reduceEqDiff, OfNat.ofNat_ne_zero, OfNat.ofNat_ne_one,
      OfNat.zero_ne_ofNat, OfNat.one_ne_ofNat, zero_ne_one, one_ne_zero, if_true, if_false]
      at hc ⊢
    obtain ⟨hn, hnw⟩ := normalize_unit _ hc
    have hna := hnw E.data2 (dot_cross_left _ _)
    have hnb := hnw E.data0 (dot_cross_right _ _)
    generalize normalize realOps (cross E.data2 E.data0) = n at hn hna hnb ⊢
    obtain ⟨k1, k2, k3⟩ := cross_unit E.data0 n u0 hn ((dot_comm _ _).trans hnb)
    rw [normalize_of_unit _ k1]
    refine ⟨?_, ?_, ?_, ?_, ?_, ?_⟩ <;>
      first | assumption | (rw [dot_comm]; assumption)
  · obtain ⟨rfl, rfl⟩ := Prod.mk.inj h
    simp only [CovarianceMatrix.get, CovarianceMatrix.set, midEl, Nat.reduceAdd, Nat.reduceMod,
      Nat.reduceSub, Nat.reduceEqDiff, OfNat.ofNat_ne_zero, OfNat.ofNat_ne_one,
      OfNat.zero_ne_ofNat, OfNat.one_ne_ofNat, zero_ne_one, one_ne_zero, if_true, if_false]
      at hc ⊢
    obtain ⟨hn, hnw⟩ := normalize_unit _ hc
    have hna := hnw E.data2 (dot_cross_left _ _)
    have hnb := hnw E.data0 (dot_cross_right _ _)
    generalize normalize realOps (cross E.data2 E.data0) = n at hn hna hnb ⊢
    obtain ⟨k1, k2, k3⟩ := cross_unit n E.data2 hn u2 (hna)
    rw [normalize_of_unit _ k1]
    refine ⟨?_, ?_, ?_, ?_, ?_, ?_⟩ <;> assumption
  · obtain ⟨rfl, rfl⟩ := Prod.mk.inj h
    simp only [CovarianceMatrix.get, CovarianceMatrix.set, midEl, Nat.reduceAdd, Nat.reduceMod,
      Nat.reduceSub, Nat.reduceEqDiff, OfNat.ofNat_ne_zero, OfNat.ofNat_ne_one,
      OfNat.zero_ne_ofNat, OfNat.one_ne_ofNat, zero_ne_one, one_ne_zero, if_true, if_false]
      at hc ⊢
    obtain ⟨hn, hnw⟩ := normalize_unit _ hc
    have hna := hnw E.data0 (dot_cross_left _ _)
    have hnb := hnw E.data1 (dot_cross_right _ _)
    generalize normalize realOps (cross E.data0 E.data1) = n at hn hna hnb ⊢
    obtain ⟨k1, k2, k3⟩ := cross_unit n E.data0 hn u0 (hna)
    rw [normalize_of_unit _ k1]
    refine ⟨?_, ?_, ?_, ?_, ?_, ?_⟩ <;>
      first | assumption | (rw [dot_comm]; assumption)
  · obtain ⟨rfl, rfl⟩ := Prod.mk.inj h
    simp only [CovarianceMatrix.get, CovarianceMatrix.set, midEl, Nat.reduceAdd, Nat.reduceMod,
      Nat.reduceSub, Nat.reduceEqDiff, OfNat.ofNat_ne_zero, OfNat.ofNat_ne_one,
      OfNat.zero_ne_ofNat, OfNat.one_ne_ofNat, zero_ne_one, one_ne_zero, if_true, if_false]
      at hc ⊢
    obtain ⟨hn, hnw⟩ := normalize_unit _ hc
    have hna := hnw E.data0 (dot_cross_left _ _)
    have hnb := hnw E.data1 (dot_cross_right _ _)
    generalize normalize realOps (cross E.data0 E.data1) = n at hn hna hnb ⊢
    obtain ⟨k1, k2, k3⟩ := cross_unit E.data1 n u1 hn ((dot_comm _ _).trans hnb)
    rw [normalize_of_unit _ k1]
    refine ⟨?_, ?_, ?_, ?_, ?_, ?_⟩ <;>
      first | assumption | (rw [dot_comm]; assumption)

/-! ### The matrix `diag (1, 1, -1/6)` -/

theorem eigen33Scale_sixth : eigen33Scale (diag (1 : ℝ) 1 (-(1 / 6))) = 1 := by
  rw [eigen33Scale_diag]
  have hm : max (max |(1 : ℝ)| |(1 : ℝ)|) |(-(1 / 6) : ℝ)| = 1 := by
    rw [abs_neg, abs_one, max_self, abs_of_pos (by norm_num : (0 : ℝ) < 1 / 6)]
    exact max_eq_left (by norm_num)
  rw [hm, if_neg]
  unfold FLT_MIN; norm_num

theorem eigen33ScaledMat_sixth :
    eigen33ScaledMat (diag (1 : ℝ) 1 (-(1 / 6))) = diag 1 1 (-(1 / 6)) := by
  rw [eigen33ScaledMat_diag, eigen33Scale_sixth]; simp

theorem charC0_sixth : charC0 (diag (1 : ℝ) 1 (-(1 / 6))) = -(1 / 6) := by
  simp [charC0, diag]

theorem charC1_sixth : charC1 (diag (1 : ℝ) 1 (-(1 / 6))) = 2 / 3 := by
  simp [charC1, diag]; norm_num

theorem charC2_sixth : charC2 (diag (1 : ℝ) 1 (-(1 / 6))) = 11 / 6 := by
  simp [charC2, diag]; norm_num

theorem aOver3_sixth : aOver3Unclamped (2 / 3 : ℝ) (11 / 6) = -(49 / 324) := by
  simp only [aOver3Unclamped]; norm_num

theorem halfB_sixth : halfB (-(1 / 6) : ℝ) (2 / 3) (11 / 6) = -(343 / 5832) := by
  simp only [halfB]; norm_num

theorem qUnclamped_sixth : qUnclamped (-(1 / 6) : ℝ) (2 / 3) (11 / 6) = 0 := by
  simp only [qUnclamped, aOver3_sixth, halfB_sixth]; norm_num

/-- On `diag (1, 1, -1/6)` the closed form has `q = 0`, `half_b < 0`, so
`theta = π/3`, and gives the exact eigenvalues `(1, -1/6, 1)`. -/
theorem trigRoots_sixth :
    trigRoots realOps (-(1 / 6) : ℝ) (2 / 3) (11 / 6) = ⟨1, -(1 / 6), 1⟩ := by
  have hrho : Real.sqrt (49 / 324) = 7 / 18 := by
    rw [show (49 / 324 : ℝ) = (7 / 18) ^ 2 by norm_num]
    exact Real.sqrt_sq (by norm_num)
  have harg : Complex.arg ⟨(-(343 / 5832) : ℝ), 0⟩ = Real.pi :=
    Complex.arg_ofReal_of_neg (by norm_num)
  have hneg : ¬ (-(49 / 324 : ℝ) > 0) := by norm_num
  have hth : Real.pi * (1 / 3) = Real.pi / 3 := by ring
  have hs3 : Real.sqrt 3 * Real.sqrt 3 = 3 := Real.mul_self_sqrt (by norm_num)
  simp only [trigRoots, aOver3_sixth, halfB_sixth, qUnclamped_sixth, hneg, lt_irrefl, if_false,
    gt_iff_lt, neg_zero, neg_neg, realOps_sqrt, realOps_atan2, realOps_cos, realOps_sin,
    Real.sqrt_zero, hrho, harg, hth, Real.cos_pi_div_three, Real.sin_pi_div_three]
  congr 1
  · norm_num
  · linear_combination (-(7 / 36 : ℝ)) * hs3
  · linear_combination (7 / 36 : ℝ) * hs3

theorem sortRoots_sixth :
    sortRoots (⟨1, -(1 / 6), 1⟩ : float3 ℝ) = ⟨-(1 / 6), 1, 1⟩ := by
  simp only [sortRoots, swap]; norm_num

theorem computeRoots2_sixth : computeRoots2 realOps (11 / 6 : ℝ) (2 / 3) = ⟨0, 1 / 2, 4 / 3⟩ := by
  have hd : max ((11 / 6 : ℝ) * (11 / 6) - 4 * (2 / 3)) 0 = (5 / 6) ^ 2 := by norm_num
  rw [computeRoots2_eq, hd, Real.sqrt_sq (by norm_num)]
  norm_num

/-- On `diag (1, 1, -1/6)` the smallest root of the closed form is negative,
and `computeRoots` returns the roots `(0, 1/2, 4/3)` of the fallback. -/
theorem computeRoots_sixth :
    computeRoots realOps (diag (1 : ℝ) 1 (-(1 / 6))) = ⟨0, 1 / 2, 4 / 3⟩ := by
  unfold computeRoots
  simp only [charC0_sixth, charC1_sixth, charC2_sixth, trigRoots_sixth, sortRoots_sixth,
    computeRoots2_sixth]
  rw [if_neg, if_pos]
  · norm_num
  · rw [abs_neg, abs_of_pos (by norm_num : (0 : ℝ) < 1 / 6)]
    exact not_lt.mpr (le_of_lt (by unfold FLT_EPSILON; norm_num))

theorem selectCross_sixth_z :
    selectCross (shiftDiag (diag (1 : ℝ) 1 (-(1 / 6))) (4 / 3))
      = ⟨⟨0, -(1 / 2), 0⟩, 1 / 4, 1 / 4⟩ := by
  simp only [selectCross, shiftDiag, diag, cross, dot]; norm_num

theorem selectCross_sixth_y :
    selectCross (shiftDiag (diag (1 : ℝ) 1 (-(1 / 6))) (1 / 2))
      = ⟨⟨0, 1 / 3, 0⟩, 1 / 9, 1 / 9⟩ := by
  simp only [selectCross, shiftDiag, diag, cross, dot]; norm_num

theorem selectCross_sixth_x :
    selectCross (shiftDiag (diag (1 : ℝ) 1 (-(1 / 6))) 0)
      = ⟨⟨0, 0, 1⟩, 1, 1 / 36⟩ := by
  simp only [selectCross, shiftDiag, diag, cross, dot]; norm_num

/-- The eigenvectors selected for `4/3` and for `1/2` are both on the `y`
axis. -/
theorem distinctSelected_sixth :
    distinctSelected realOps (diag (1 : ℝ) 1 (-(1 / 6))) ⟨0, 1 / 2, 4 / 3⟩
      = ⟨⟨0, 0, 1⟩, ⟨0, 1, 0⟩, ⟨0, -1, 0⟩⟩ := by
  have h4 : Real.sqrt (1 / 4) = 1 / 2 := by
    rw [show (1 / 4 : ℝ) = (1 / 2) ^ 2 by norm_num]
    exact Real.sqrt_sq (by norm_num)
  have h9 : Real.sqrt (1 / 9) = 1 / 3 := by
    rw [show (1 / 9 : ℝ) = (1 / 3) ^ 2 by norm_num]
    exact Real.sqrt_sq (by norm_num)
  simp only [distinctSelected, selectCross_sixth_z, selectCross_sixth_y, selectCross_sixth_x,
    realOps_sqrt, h4, h9, Real.sqrt_one, float3.sdiv]
  norm_num

/-- With `len3 = 1/36` compared in place of the selected length `1`, index
`0` becomes `min_el`. -/
theorem distinctMinMax_sixth :
    distinctMinMax (diag (1 : ℝ) 1 (-(1 / 6))) ⟨0, 1 / 2, 4 / 3⟩ = (0, 2) := by
  simp only [distinctMinMax, selectCross_sixth_z, selectCross_sixth_y, selectCross_sixth_x,
    minMaxEl, mmaxGet]
  norm_num

/-! ### Permutations of three values -/

/-- Every rearrangement of three values that the sorting network of
`computeRoots` can produce is a permutation of the original triple. -/
theorem perm3_cases {α : Type} (a b c : α) :
    List.Perm [a, b, c] [a, b, c] ∧ List.Perm [b, a, c] [a, b, c]
      ∧ List.Perm [a, c, b] [a, b, c] ∧ List.Perm [c, a, b] [a, b, c]
      ∧ List.Perm [b, c, a] [a, b, c] ∧ List.Perm [c, b, a] [a, b, c] := by
  have h1 : List.Perm [b, a, c] [a, b, c] := List.Perm.swap a b [c]
  have h2 : List.Perm [a, c, b] [a, b, c] := (List.Perm.swap b c []).cons a
  have h3 : List.Perm [c, a, b] [a, b, c] := (List.Perm.swap a c [b]).trans h2
  have h4 : List.Perm [b, c, a] [a, b, c] := ((List.Perm.swap a c []).cons b).trans h1
  have h5 : List.Perm [c, b, a] [a, b, c] := (List.Perm.swap b c [a]).trans h4
  exact ⟨List.Perm.refl _, h1, h2, h3, h4, h5⟩

/-! ### The batch covariance as a quadratic form -/

/-- The quadratic form of the matrix of `computeCovariance` is the mean of
the squared projections of the centred points. -/
theorem quadForm_computeCovariance {F : Type} [LinearOrderedField F]
    (indet : float3 F → CovarianceMatrix F) (pts : List (float3 F)) (c v : float3 F) :
    quadForm (computeCovariance indet pts c) v
      = (pts.map (fun p =>
            (v.x * (p.x - c.x) + v.y * (p.y - c.y) + v.z * (p.z - c.z)) ^ 2)).sum
          / (pts.length : F) := by
  have key : ∀ l : List (float3 F),
      (l.map (fun p => (v.x * (p.x - c.x) + v.y * (p.y - c.y) + v.z * (p.z - c.z)) ^ 2)).sum
        = v.x * ((l.map (fun p => (p.x - c.x) * (p.x - c.x))).sum * v.x
              + (l.map (fun p => (p.x - c.x) * (p.y - c.y))).sum * v.y
              + (l.map (fun p => (p.x - c.x) * (p.z - c.z))).sum * v.z)
          + v.y * ((l.map (fun p => (p.y - c.y) * (p.x - c.x))).sum * v.x
              + (l.map (fun p => (p.y - c.y) * (p.y - c.y))).sum * v.y
              + (l.map (fun p => (p.y - c.y) * (p.z - c.z))).sum * v.z)
          + v.z * ((l.map (fun p => (p.z - c.z) * (p.x - c.x))).sum * v.x
              + (l.map (fun p => (p.z - c.z) * (p.y - c.y))).sum * v.y
              + (l.map (fun p => (p.z - c.z) * (p.z - c.z))).sum * v.z) := by
    intro l
    induction l with
    | nil => simp
    | cons p l ih =>
      simp only [List.map_cons, List.sum_cons, ih]
      ring
  rw [computeCovariance_eq, key]
  simp only [quadForm, dot]
  ring

/-! ### Triple products -/

/-- The scalar triple product `a · (b × c)`. -/
theorem triple_cross_last {F : Type} [LinearOrderedField F] (a b : float3 F) :
    dot a (cross b (cross a b)) = dot a a * dot b b - dot a b * dot a b := by
  simp only [dot, cross]; ring

theorem triple_cross_mid {F : Type} [LinearOrderedField F] (a c : float3 F) :
    dot a (cross (cross c a) c) = dot a a * dot c c - dot c a * dot c a := by
  simp only [dot, cross]; ring

/-- The two re-orthogonalisations of lines 425-427, on three unit vectors
`E`: when the first cross product is not zero, the three rows end up with
the triple product `1`, whichever pair `(min_el, max_el)` of different indices
is used. -/
theorem reorth_triple (E : CovarianceMatrix ℝ)
    (u0 : dot E.data0 E.data0 = 1) (u1 : dot E.data1 E.data1 = 1)
    (u2 : dot E.data2 E.data2 = 1) (mn mx : ℕ)
    (hcases : (mn, mx) = (0, 1) ∨ (mn, mx) = (0, 2) ∨ (mn, mx) = (1, 0) ∨ (mn, mx) = (1, 2)
      ∨ (mn, mx) = (2, 0) ∨ (mn, mx) = (2, 1))
    (hc : dot (cross (E.get ((mn + 1) % 3)) (E.get ((mn + 2) % 3)))
      (cross (E.get ((mn + 1) % 3)) (E.get ((mn + 2) % 3))) ≠ 0)
    (R : CovarianceMatrix ℝ)
    (hR : R = (E.set mn (normalize realOps (cross (E.get ((mn + 1) % 3))
        (E.get ((mn + 2) % 3))))).set (midEl mn mx)
        (normalize realOps
          (cross
            ((E.set mn (normalize realOps
              (cross (E.get ((mn + 1) % 3)) (E.get ((mn + 2) % 3))))).get ((midEl mn mx + 1) % 3))
            ((E.set mn (normalize realOps
              (cross (E.get ((mn + 1) % 3)) (E.get ((mn + 2) % 3))))).get
                ((midEl mn mx + 2) % 3))))) :
    dot R.data0 (cross R.data1 R.data2) = 1 := by
  subst hR
  rcases hcases with h | h | h | h | h | h
  · obtain ⟨rfl, rfl⟩ := Prod.mk.inj h
    simp only [CovarianceMatrix.get, CovarianceMatrix.set, midEl, Nat.reduceAdd, Nat.reduceMod,
      Nat.reduceSub, Nat.reduceEqDiff, OfNat.ofNat_ne_zero, OfNat.ofNat_ne_one,
      OfNat.zero_ne_ofNat, OfNat.one_ne_ofNat, zero_ne_one, one_ne_zero, if_true, if_false]
      at hc ⊢
    obtain ⟨hn, hnw⟩ := normalize_unit _ hc
    have hna := hnw E.data1 (dot_cross_left _ _)
    have hnb := hnw E.data2 (dot_cross_right _ _)
    generalize normalize realOps (cross E.data1 E.data2) = n at hn hna hnb ⊢
    obtain ⟨k1, _, _⟩ := cross_unit n E.data1 hn u1 (hna)
    rw [normalize_of_unit _ k1]
    rw [triple_cross_last, hn, u1, hna]; norm_num
  · obtain ⟨rfl, rfl⟩ := Prod.mk.inj h
    simp only [CovarianceMatrix.get, CovarianceMatrix.set, midEl, Nat.reduceAdd, Nat.reduceMod,
      Nat.reduceSub, Nat.reduceEqDiff, OfNat.ofNat_ne_zero, OfNat.ofNat_ne_one,
      OfNat.zero_ne_ofNat, OfNat.one_ne_ofNat, zero_ne_one, one_ne_zero, if_true, if_false]
      at hc ⊢
    obtain ⟨hn, hnw⟩ := normalize_unit _ hc
    have hna := hnw E.data1 (dot_cross_left _ _)
    have hnb := hnw E.data2 (dot_cross_right _ _)
    generalize normalize realOps (cross E.data1 E.data2) = n at hn hna hnb ⊢
    obtain ⟨k1, _, _⟩ := cross_unit E.data2 n u2 hn ((dot_comm _ _).trans hnb)
    rw [normalize_of_unit _ k1]
    rw [triple_cross_mid, hn, u2, dot_comm, hnb]; norm_num
  · obtain ⟨rfl, rfl⟩ := Prod.mk.inj h
    simp only [CovarianceMatrix.get, CovarianceMatrix.set, midEl, Nat.reduceAdd, Nat.reduceMod,
      Nat.reduceSub, Nat.reduceEqDiff, OfNat.ofNat_ne_zero, OfNat.ofNat_ne_one,
      OfNat.zero_ne_ofNat, OfNat.one_ne_ofNat, zero_ne_one, one_ne_zero, if_true, if_false]
      at hc ⊢
    obtain ⟨hn, hnw⟩ := normalize_unit _ hc
    have hna := hnw E.data2 (dot_cross_left _ _)
    have hnb := hnw E.data0 (dot_cross_right _ _)
    generalize normalize realOps (cross E.data2 E.data0) = n at hn hna hnb ⊢
    obtain ⟨k1, _, _⟩ := cross_unit E.data0 n u0 hn ((dot_comm _ _).trans hnb)
    rw [normalize_of_unit _ k1]
    rw [triple_cross_last, hn, u0, dot_comm, hnb]; norm_num
  · obtain ⟨rfl, rfl⟩ := Prod.mk.inj h
    simp only [CovarianceMatrix.get, CovarianceMatrix.set, midEl, Nat.reduceAdd, Nat.reduceMod,
      Nat.reduceSub, Nat.reduceEqDiff, OfNat.ofNat_ne_zero, OfNat.ofNat_ne_one,
      OfNat.zero_ne_ofNat, OfNat.one_ne_ofNat, zero_ne_one, one_ne_zero, if_true, if_false]
      at hc ⊢
    obtain ⟨hn, hnw⟩ := normalize_unit _ hc
    have hna := hnw E.data2 (dot_cross_left _ _)
    have hnb := hnw E.data0 (dot_cross_right _ _)
    generalize normalize realOps (cross E.data2 E.data0) = n at hn hna hnb ⊢
    obtain ⟨k1, _, _⟩ := cross_unit n E.data2 hn u2 (hna)
    rw [normalize_of_unit _ k1]
    exact k1
  · obtain ⟨rfl, rfl⟩ := Prod.mk.inj h
    simp only [CovarianceMatrix.get, CovarianceMatrix.set, midEl, Nat.reduceAdd, Nat.reduceMod,
      Nat.reduceSub, Nat.reduceEqDiff, OfNat.ofNat_ne_zero, OfNat.ofNat_ne_one,
      OfNat.zero_ne_ofNat, OfNat.one_ne_ofNat, zero_ne_one, one_ne_zero, if_true, if_false]
      at hc ⊢
    obtain ⟨hn, hnw⟩ := normalize_unit _ hc
    have hna := hnw E.data0 (dot_cross_left _ _)
    have hnb := hnw E.data1 (dot_cross_right _ _)
    generalize normalize realOps (cross E.data0 E.data1) = n at hn hna hnb ⊢
    obtain ⟨k1, _, _⟩ := cross_unit n E.data0 hn u0 (hna)
    rw [normalize_of_unit _ k1]
    rw [triple_cross_mid, hn, u0, hna]; norm_num
  · obtain ⟨rfl, rfl⟩ := Prod.mk.inj h
    simp only [CovarianceMatrix.get, CovarianceMatrix.set, midEl, Nat.reduceAdd, Nat.reduceMod,
      Nat.reduceSub, Nat.reduceEqDiff, OfNat.ofNat_ne_zero, OfNat.ofNat_ne_one,
      OfNat.zero_ne_ofNat, OfNat.one_ne_ofNat, zero_ne_one, one_ne_zero, if_true, if_false]
      at hc ⊢
    obtain ⟨hn, hnw⟩ := normalize_unit _ hc
    have hna := hnw E.data0 (dot_cross_left _ _)
    have hnb := hnw E.data1 (dot_cross_right _ _)
    generalize normalize realOps (cross E.data0 E.data1) = n at hn hna hnb ⊢
    obtain ⟨k1, _, _⟩ := cross_unit E.data1 n u1 hn ((dot_comm _ _).trans hnb)
    rw [normalize_of_unit _ k1]
    exact k1

/-! ### The matrix `diag (1, 1/2, 0)` -/

theorem eigen33Scale_half : eigen33Scale (diag (1 : ℝ) (1 / 2) 0) = 1 := by
  rw [eigen33Scale_diag]
  have hm : max (max |(1 : ℝ)| |(1 / 2 : ℝ)|) |(0 : ℝ)| = 1 := by
    rw [abs_zero, abs_one, abs_of_pos (by norm_num : (0 : ℝ) < 1 / 2)]
    norm_num
  rw [hm, if_neg]
  unfold FLT_MIN; norm_num

theorem eigen33ScaledMat_half :
    eigen33ScaledMat (diag (1 : ℝ) (1 / 2) 0) = diag 1 (1 / 2) 0 := by
  rw [eigen33ScaledMat_diag, eigen33Scale_half]; simp

/-- On `diag (1, 1/2, 0)` the determinant `c0` is `0`, and the quadratic path
returns the exact eigenvalues `(0, 1/2, 1)`. -/
theorem computeRoots_half :
    computeRoots realOps (diag (1 : ℝ) (1 / 2) 0) = ⟨0, 1 / 2, 1⟩ := by
  have h0 : charC0 (diag (1 : ℝ) (1 / 2) 0) = 0 := by simp [charC0, diag]
  have h1 : charC1 (diag (1 : ℝ) (1 / 2) 0) = 1 / 2 := by simp [charC1, diag]
  have h2 : charC2 (diag (1 : ℝ) (1 / 2) 0) = 3 / 2 := by simp [charC2, diag]; norm_num
  have hd : max ((3 / 2 : ℝ) * (3 / 2) - 4 * (1 / 2)) 0 = (1 / 2) ^ 2 := by norm_num
  unfold computeRoots
  simp only [h0, h1, h2, abs_zero, FLT_EPSILON_pos, if_true]
  rw [computeRoots2_eq, hd, Real.sqrt_sq (by norm_num)]
  norm_num

/-- For the eigenvalue `1` the third cross product is selected. -/
theorem selectCross_half_z :
    selectCross (shiftDiag (diag (1 : ℝ) (1 / 2) 0) 1) = ⟨⟨1 / 2, 0, 0⟩, 1 / 4, 1 / 4⟩ := by
  simp only [selectCross, shiftDiag, diag, cross, dot]; norm_num

/-- For the eigenvalue `1/2` the second cross product is selected. -/
theorem selectCross_half_y :
    selectCross (shiftDiag (diag (1 : ℝ) (1 / 2) 0) (1 / 2)) = ⟨⟨0, 1 / 4, 0⟩, 1 / 16, 0⟩ := by
  simp only [selectCross, shiftDiag, diag, cross, dot]; norm_num

/-- For the eigenvalue `0` the first cross product is selected, of squared
length `1/4`, while `len3 = 0`. -/
theorem selectCross_half_x :
    selectCross (shiftDiag (diag (1 : ℝ) (1 / 2) 0) 0) = ⟨⟨0, 0, 1 / 2⟩, 1 / 4, 0⟩ := by
  simp only [selectCross, shiftDiag, diag, cross, dot]; norm_num

theorem distinctSelected_half :
    distinctSelected realOps (diag (1 : ℝ) (1 / 2) 0) ⟨0, 1 / 2, 1⟩
      = ⟨⟨0, 0, 1⟩, ⟨0, 1, 0⟩, ⟨1, 0, 0⟩⟩ := by
  have h4 : Real.sqrt (1 / 4) = 1 / 2 := by
    rw [show (1 / 4 : ℝ) = (1 / 2) ^ 2 by norm_num]
    exact Real.sqrt_sq (by norm_num)
  have h16 : Real.sqrt (1 / 16) = 1 / 4 := by
    rw [show (1 / 16 : ℝ) = (1 / 4) ^ 2 by norm_num]
    exact Real.sqrt_sq (by norm_num)
  simp only [distinctSelected, selectCross_half_z, selectCross_half_y, selectCross_half_x,
    realOps_sqrt, h4, h16, float3.sdiv]
  norm_num

/-- With `len3 = 0` compared in place of the selected length `1/4`, index `0`
becomes `min_el`. -/
theorem distinctMinMax_half :
    distinctMinMax (diag (1 : ℝ) (1 / 2) 0) ⟨0, 1 / 2, 1⟩ = (0, 2) := by
  simp only [distinctMinMax, selectCross_half_z, selectCross_half_y, selectCross_half_x,
    minMaxEl, mmaxGet]
  norm_num

/-- On `diag (1, 1/2, 0)` the all-distinct branch is taken. -/
theorem branch_half :
    ¬ ((⟨0, 1 / 2, 1⟩ : float3 ℝ).z - (⟨0, 1 / 2, 1⟩ : float3 ℝ).x ≤ FLT_EPSILON)
      ∧ ¬ ((⟨0, 1 / 2, 1⟩ : float3 ℝ).y - (⟨0, 1 / 2, 1⟩ : float3 ℝ).x ≤ FLT_EPSILON)
      ∧ ¬ ((⟨0, 1 / 2, 1⟩ : float3 ℝ).z - (⟨0, 1 / 2, 1⟩ : float3 ℝ).y ≤ FLT_EPSILON) :=
  ⟨FLT_EPSILON_lt_of_le ((1 : ℝ) - 0) (by norm_num),
    FLT_EPSILON_lt_of_le ((1 / 2 : ℝ) - 0) (by norm_num),
    FLT_EPSILON_lt_of_le ((1 : ℝ) - 1 / 2) (by norm_num)⟩

theorem eigen33NoZeroDivisor_half : eigen33NoZeroDivisor realOps (diag (1 : ℝ) (1 / 2) 0) := by
  obtain ⟨b1, b2, b3⟩ := branch_half
  unfold eigen33NoZeroDivisor
  rw [eigen33ScaledMat_half]
  dsimp only
  rw [computeRoots_half]
  simp only [if_neg b1, if_neg b2, if_neg b3, distinctSelected_half, distinctMinMax_half,
    selectCross_half_z, selectCross_half_y, selectCross_half_x,
    CovarianceMatrix.get, Nat.reduceAdd, Nat.reduceMod, Nat.reduceEqDiff,
    OfNat.ofNat_ne_zero, OfNat.ofNat_ne_one, OfNat.zero_ne_ofNat, OfNat.one_ne_ofNat,
    zero_ne_one, one_ne_zero, if_true, if_false]
  simp [dot, cross]

theorem eigen33_evecs_half :
    (eigen33 realOps (diag (1 : ℝ) (1 / 2) 0)).evecs = ⟨⟨0, 0, -1⟩, ⟨0, 1, 0⟩, ⟨1, 0, 0⟩⟩ := by
  obtain ⟨b1, b2, b3⟩ := branch_half
  rw [eigen33_evecs_eq, eigen33ScaledMat_half, computeRoots_half]
  unfold eigen33Vectors
  rw [if_neg b1, if_neg b2, if_neg b3]
  unfold eigen33Distinct
  simp only [distinctSelected_half, distinctMinMax_half, midEl, CovarianceMatrix.get,
    CovarianceMatrix.set, Nat.reduceAdd, Nat.reduceMod, Nat.reduceSub, Nat.reduceEqDiff,
    OfNat.ofNat_ne_zero, OfNat.ofNat_ne_one, OfNat.zero_ne_ofNat, OfNat.one_ne_ofNat,
    zero_ne_one, one_ne_zero, if_true, if_false]
  simp [normalize, cross, dot, float3.sdiv]


/-! ### The projected search window -/

/-- The ray from the origin through a point `(px, pz)` of the disc of squared
radius `S` around `(qx, qz)`, with `S < qz²`, has its slope `px / pz` between
the two values of lines 565-566 of `getProjectedRadiusSearchBox`. -/
theorem slope_in_bounds (qx qz S px pz : ℝ) (hA : 0 < qz * qz - S) (hpz : pz ≠ 0)
    (hd : (px - qx) * (px - qx) + (pz - qz) * (pz - qz) ≤ S) :
    (qx * qz - Real.sqrt (qx * qx * S + qz * qz * S - S * S)) * (1 / (qz * qz - S)) ≤ px / pz
      ∧ px / pz
        ≤ (qx * qz + Real.sqrt (qx * qx * S + qz * qz * S - S * S)) * (1 / (qz * qz - S)) := by
  have hp2 : 0 < pz * pz := mul_self_pos.mpr hpz
  have hCS : (qx * pz - qz * px) ^ 2 ≤ S * (px * px + pz * pz) := by
    nlinarith [sq_nonneg ((qx - px) * px + (qz - pz) * pz),
      mul_nonneg (sub_nonneg.mpr hd) (add_nonneg (mul_self_nonneg px) (mul_self_nonneg pz))]
  have hpx : px = px / pz * pz := by field_simp
  generalize px / pz = t at hpx ⊢
  subst hpx
  have hline : (qx - qz * t) ^ 2 ≤ S * (t * t + 1) := by
    have h1 : (qx * pz - qz * (t * pz)) ^ 2 = (pz * pz) * (qx - qz * t) ^ 2 := by ring
    have h2 : S * (t * pz * (t * pz) + pz * pz) = (pz * pz) * (S * (t * t + 1)) := by ring
    rw [h1, h2] at hCS
    exact le_of_mul_le_mul_left hCS hp2
  have hsq : ((qz * qz - S) * t - qx * qz) ^ 2 ≤ qx * qx * S + qz * qz * S - S * S := by
    nlinarith [mul_nonneg hA.le (sub_nonneg.mpr hline)]
  have habs := abs_le.mp (Real.abs_le_sqrt hsq)
  rw [mul_one_div, mul_one_div, div_le_iff₀ hA, le_div_iff₀ hA]
  constructor <;> linarith [habs.1, habs.2]


/-! ### The centroid accumulator -/

/-- What `computeCovarianceOnline` does after its loops: the lower triangle
is copied from the upper one and the rows are divided by the count. -/
theorem computeCovarianceOnline_locals {F : Type} [LinearOrderedField F] (ops : MathOps F)
    (s : OrganizedRadiusSearch F) (q : float3 F) (d : F) :
    computeCovarianceOnline ops s q d
      = (⟨(computeCovarianceOnlineLocals ops s q).cov.data0.sdiv
              ((computeCovarianceOnlineLocals ops s q).nnn : F),
          (⟨(computeCovarianceOnlineLocals ops s q).cov.data0.y,
            (computeCovarianceOnlineLocals ops s q).cov.data1.y,
            (computeCovarianceOnlineLocals ops s q).cov.data1.z⟩ : float3 F).sdiv
              ((computeCovarianceOnlineLocals ops s q).nnn : F),
          (⟨(computeCovarianceOnlineLocals ops s q).cov.data0.z,
            (computeCovarianceOnlineLocals ops s q).cov.data1.z,
            (computeCovarianceOnlineLocals ops s q).cov.data2.z⟩ : float3 F).sdiv
              ((computeCovarianceOnlineLocals ops s q).nnn : F)⟩,
         (computeCovarianceOnlineLocals ops s q).nnn) := rfl

theorem computeCovarianceOnlineLocals_eq {F : Type} [LinearOrderedField F] (ops : MathOps F)
    (s : OrganizedRadiusSearch F) (q : float3 F) :
    computeCovarianceOnlineLocals ops s q
      = (acceptedPoints ops s q).foldl onlineUpdate
          ⟨⟨make_float3 0 0 0, make_float3 0 0 0, make_float3 0 0 0⟩, make_float3 0 0 0, 0⟩ := by
  simp only [computeCovarianceOnlineLocals, searchWindow_eq, acceptedPoints, windowPixels,
    online_loops_eq]

theorem acceptedPoint_eq_acceptedOf {F : Type} [LinearOrderedField F]
    (s : OrganizedRadiusSearch F) (q : float3 F) (yx : Int × Int) :
    acceptedPoint s q yx = acceptedOf s.sqr_radius_ q (s.points_ (yx.1 * s.width_ + yx.2)) :=
  rfl

theorem centroidBody_eq {F : Type} [LinearOrderedField F] (s : OrganizedRadiusSearch F)
    (q : float3 F) (st : CentroidState F) (y x : Int) :
    centroidBody s q st y x
      = match acceptedPoint s q (y, x) with
        | some p => centroidUpdate st p
        | none => st := by
  unfold centroidBody acceptedPoint
  dsimp only
  generalize s.points_ (y * s.width_ + x) = pt
  obtain ⟨_ | px, _ | py, _ | pz⟩ := pt <;> try rfl
  dsimp only
  split_ifs <;> rfl

/-- The two nested loops of `computeCentroid` are one pass over the accepted
points. -/
theorem centroid_loops_eq {F : Type} [LinearOrderedField F] (s : OrganizedRadiusSearch F)
    (q : float3 F) (ys xs : List Int) (st : CentroidState F) :
    ys.foldl (fun st y => xs.foldl (fun st x => centroidBody s q st y x) st) st
      = ((ys.flatMap (fun y => xs.map (fun x => (y, x)))).filterMap (acceptedPoint s q)).foldl
          centroidUpdate st := by
  have inner : ∀ (y : Int) (xs : List Int) (st : CentroidState F),
      xs.foldl (fun st x => centroidBody s q st y x) st
        = ((xs.map (fun x => (y, x))).filterMap (acceptedPoint s q)).foldl centroidUpdate st := by
    intro y xs
    induction xs with
    | nil => intro st; rfl
    | cons x xs ih =>
      intro st
      rw [List.foldl_cons, ih, List.map_cons, List.filterMap_cons, centroidBody_eq]
      cases acceptedPoint s q (y, x) <;> rfl
  induction ys generalizing st with
  | nil => rfl
  | cons y ys ih =>
    simp only [List.foldl_cons, List.flatMap_cons, List.filterMap_append, List.foldl_append]
    rw [ih, inner]

/-- The sums and the count that `computeCentroid` accumulates. -/
theorem centroidUpdate_foldl {F : Type} [LinearOrderedField F] (ps : List (float3 F))
    (st : CentroidState F) :
    ps.foldl centroidUpdate st
      = ⟨⟨st.centroid.x + (ps.map (fun p => p.x)).sum, st.centroid.y + (ps.map (fun p => p.y)).sum,
          st.centroid.z + (ps.map (fun p => p.z)).sum⟩, st.nnn + (ps.length : Int)⟩ := by
  induction ps generalizing st with
  | nil => simp
  | cons p ps ih =>
    rw [List.foldl_cons, ih]
    simp only [centroidUpdate, float3.add, List.map_cons, List.sum_cons, List.length_cons,
      Nat.cast_add, Nat.cast_one, add_assoc]
    rw [add_comm (1 : Int)]

/-- What `computeCentroid` returns, in terms of the accepted points. -/
theorem computeCentroid_eq {F : Type} [LinearOrderedField F] (ops : MathOps F)
    (s : OrganizedRadiusSearch F) (q : float3 F) (cov : CovarianceMatrix F) (d : F) :
    computeCentroid ops s q cov d
      = (⟨((acceptedPoints ops s q).map (fun p => p.x)).sum / ((acceptedPoints ops s q).length : F),
          ((acceptedPoints ops s q).map (fun p => p.y)).sum / ((acceptedPoints ops s q).length : F),
          ((acceptedPoints ops s q).map (fun p => p.z)).sum
            / ((acceptedPoints ops s q).length : F)⟩, cov) := by
  simp only [computeCentroid, searchWindow_eq, centroid_loops_eq, acceptedPoints, windowPixels,
    centroidUpdate_foldl]
  simp [make_float3, float3.sdiv]


/-! ### The capped search -/

/-- The state after the index `idx` has been stored (lines 613-614). -/
theorem radiusBody_eq {F : Type} [LinearOrderedField F] (s : OrganizedRadiusSearch F)
    (q : float3 F) (st : SearchState) (x y : Int) :
    radiusBody s q st x y
      = if (acceptedPoint s q (y, x)).isSome then
          ⟨Function.update st.k_indices st.nnn (pixelIndex s (y, x)), st.nnn + 1⟩
        else st := by
  unfold radiusBody acceptedPoint pixelIndex
  dsimp only
  generalize s.points_ (y * s.width_ + x) = pt
  obtain ⟨_ | px, _ | py, _ | pz⟩ := pt <;> try rfl
  dsimp only
  split_ifs <;> first | rfl | simp_all

/-- A capped loop that starts with the cap reached does nothing. -/
theorem cappedLoop_full {α : Type} (max_nnn : Int) (body : SearchState → α → SearchState)
    (vs : List α) (st : SearchState) (h : ¬ st.nnn < max_nnn) :
    cappedLoop max_nnn body vs st = st := by
  cases vs with
  | nil => rfl
  | cons v vs => simp only [cappedLoop, h, if_false]

theorem cappedLoop_append {α : Type} (max_nnn : Int) (body : SearchState → α → SearchState)
    (l1 l2 : List α) (st : SearchState) :
    cappedLoop max_nnn body (l1 ++ l2) st
      = cappedLoop max_nnn body l2 (cappedLoop max_nnn body l1 st) := by
  induction l1 generalizing st with
  | nil => rfl
  | cons v l1 ih =>
    by_cases h : st.nnn < max_nnn
    · simp only [List.cons_append, cappedLoop, h, if_true]
      exact ih _
    · simp only [List.cons_append, cappedLoop, h, if_false, cappedLoop_full _ _ _ _ h]

theorem cappedLoop_map {α β : Type} (max_nnn : Int) (body : SearchState → β → SearchState)
    (f : α → β) (l : List α) (st : SearchState) :
    cappedLoop max_nnn (fun st v => body st (f v)) l st
      = cappedLoop max_nnn body (l.map f) st := by
  induction l generalizing st with
  | nil => rfl
  | cons v l ih => simp only [List.map_cons, cappedLoop, ih]

/-- Two nested capped loops are one capped loop over the pairs of counter
values, the outer counter varying slowest. -/
theorem cappedLoop_nested {α β γ : Type} (max_nnn : Int)
    (body : SearchState → γ → SearchState) (f : α → β → γ) (xs : List α) (ys : List β)
    (st : SearchState) :
    cappedLoop max_nnn (fun st x => cappedLoop max_nnn (fun st y => body st (f x y)) ys st) xs st
      = cappedLoop max_nnn body (xs.flatMap (fun x => ys.map (fun y => f x y))) st := by
  induction xs generalizing st with
  | nil => rfl
  | cons x xs ih =>
    by_cases h : st.nnn < max_nnn
    · simp only [cappedLoop, h, if_true, List.flatMap_cons, cappedLoop_append, ih,
        cappedLoop_map max_nnn body (f x)]
    · rw [cappedLoop_full _ _ _ _ h, cappedLoop_full _ _ _ _ h]

/-- The state after the values `g v` of the accepted `v` have been stored from
position `nnn` on, up to the cap. -/
theorem cappedLoop_store {α : Type} (max_nnn : Int) (p : α → Bool) (g : α → Int)
    (vs : List α) (st : SearchState) :
    cappedLoop max_nnn
        (fun st v => if p v then ⟨Function.update st.k_indices st.nnn (g v), st.nnn + 1⟩ else st)
        vs st
      = ⟨writeFrom st.k_indices st.nnn
            (((vs.filter p).map g).take (max_nnn - st.nnn).toNat),
          st.nnn + ((((vs.filter p).map g).take (max_nnn - st.nnn).toNat).length : Int)⟩ := by
  induction vs generalizing st with
  | nil => simp [cappedLoop, writeFrom]
  | cons v vs ih =>
    by_cases h : st.nnn < max_nnn
    · simp only [cappedLoop, h, if_true]
      rw [ih]
      cases hv : p v with
      | false => simp [List.filter_cons, hv]
      | true =>
        have e : (max_nnn - st.nnn).toNat = (max_nnn - (st.nnn + 1)).toNat + 1 := by omega
        simp only [List.filter_cons, hv, if_true, List.map_cons, e, List.take_succ_cons,
          writeFrom, List.length_cons, Nat.cast_add, Nat.cast_one]
        congr 1
        ring
    · have e : (max_nnn - st.nnn).toNat = 0 := by omega
      simp only [cappedLoop, h, if_false, e, List.take_zero, writeFrom, List.length_nil,
        Nat.cast_zero, add_zero]

/-- What `radiusSearch` leaves in `k_indices` and returns: the indices of
the accepted pixels, column by column, up to the cap. -/
theorem radiusSearch_eq {F : Type} [LinearOrderedField F] (ops : MathOps F)
    (s : OrganizedRadiusSearch F) (q : float3 F) (k_indices : Int → Int) (max_nnn : Int) :
    radiusSearch ops s q k_indices max_nnn
      = (writeFrom k_indices 0
          (((acceptedColumnPixels ops s q).map (pixelIndex s)).take max_nnn.toNat),
         ((((acceptedColumnPixels ops s q).map (pixelIndex s)).take max_nnn.toNat).length
           : Int)) := by
  have hbody : (fun (st : SearchState) (x : Int) =>
      cappedLoop max_nnn (fun st y => radiusBody s q st x y)
        (loopRange (getProjectedRadiusSearchBox ops s q).z
          (getProjectedRadiusSearchBox ops s q).w) st)
      = (fun (st : SearchState) (x : Int) =>
      cappedLoop max_nnn (fun st y =>
        (fun (st : SearchState) (yx : Int × Int) =>
          if (acceptedPoint s q yx).isSome then
            ⟨Function.update st.k_indices st.nnn (pixelIndex s yx), st.nnn + 1⟩
          else st) st ((fun x y => (y, x)) x y))
        (loopRange (getProjectedRadiusSearchBox ops s q).z
          (getProjectedRadiusSearchBox ops s q).w) st) := by
    funext st x
    congr 1
    funext st y
    exact radiusBody_eq s q st x y
  have hloop := (cappedLoop_nested max_nnn
      (fun (st : SearchState) (yx : Int × Int) =>
        if (acceptedPoint s q yx).isSome then
          ⟨Function.update st.k_indices st.nnn (pixelIndex s yx), st.nnn + 1⟩
        else st)
      (fun (x y : Int) => (y, x))
      (loopRange (getProjectedRadiusSearchBox ops s q).x (getProjectedRadiusSearchBox ops s q).y)
      (loopRange (getProjectedRadiusSearchBox ops s q).z (getProjectedRadiusSearchBox ops s q).w)
      ⟨k_indices, 0⟩).trans
    (cappedLoop_store max_nnn (fun yx => (acceptedPoint s q yx).isSome) (pixelIndex s) _ _)
  unfold radiusSearch
  dsimp only
  rw [hbody]
  dsimp only at hloop ⊢
  rw [hloop]
  simp only [acceptedColumnPixels, columnPixels, sub_zero, zero_add]

theorem writeFrom_outside (l : List Int) (k : Int → Int) (m i : Int)
    (h : i < m ∨ m + (l.length : Int) ≤ i) : writeFrom k m l i = k i := by
  induction l generalizing k m with
  | nil => rfl
  | cons v l ih =>
    have hne : i ≠ m := by
      rcases h with h | h
      · omega
      · simp only [List.length_cons, Nat.cast_add, Nat.cast_one] at h; omega
    rw [writeFrom, ih, Function.update_noteq hne]
    rcases h with h | h
    · left; omega
    · right; simp only [List.length_cons, Nat.cast_add, Nat.cast_one] at h; omega

theorem writeFrom_entry (l : List Int) (k : Int → Int) (m : Int) (i : Nat) (v : Int)
    (h : l[i]? = some v) : writeFrom k m l (m + (i : Int)) = v := by
  induction l generalizing k m i with
  | nil => simp at h
  | cons w l ih =>
    cases i with
    | zero =>
      simp only [List.getElem?_cons_zero, Option.some.injEq] at h
      subst h
      rw [writeFrom, writeFrom_outside _ _ _ _ (Or.inl (by omega)), Nat.cast_zero, add_zero]
      exact Function.update_same _ _ _
    | succ i =>
      simp only [List.getElem?_cons_succ] at h
      rw [writeFrom]
      have := ih (Function.update k m w) (m + 1) i h
      rw [← this]
      congr 1
      push_cast
      ring

theorem loopRange_eq (lo hi : Int) :
    loopRange lo hi = (List.range (hi + 1 - lo).toNat).map (fun i : Nat => lo + (i : Int)) := by
  unfold loopRange
  induction List.range (hi + 1 - lo).toNat with
  | nil => rfl
  | cons a l ih =>
    simp only [List.map_cons]
    rw [← ih]
    rfl

theorem mem_loopRange (lo hi v : Int) : v ∈ loopRange lo hi ↔ lo ≤ v ∧ v ≤ hi := by
  rw [loopRange_eq, List.mem_map]
  constructor
  · rintro ⟨i, hi', rfl⟩
    rw [List.mem_range] at hi'
    omega
  · rintro ⟨h1, h2⟩
    exact ⟨(v - lo).toNat, List.mem_range.mpr (by omega), by omega⟩

theorem loopRange_increasing (lo hi : Int) : List.Pairwise (fun a b => a < b) (loopRange lo hi) := by
  rw [loopRange_eq]
  refine List.Pairwise.map _ (fun a b h => ?_) (List.pairwise_lt_range _)
  have h' : a < b := h
  omega

/-- Exchanging the two counters of a pair of nested loops permutes the pairs
visited. -/
theorem flatMap_map_swap_perm {α β γ : Type} (f : α → β → γ) (xs : List α) (ys : List β) :
    List.Perm (xs.flatMap (fun x => ys.map (fun y => f x y)))
      (ys.flatMap (fun y => xs.map (fun x => f x y))) := by
  induction xs with
  | nil => simp
  | cons x xs ih =>
    simp only [List.flatMap_cons, List.map_cons]
    exact (List.Perm.append_left _ ih).trans
      (List.map_append_flatMap_perm ys (fun y => f x y) (fun y => xs.map (fun x => f x y)))

/-- The pixels visited column by column are those visited row by row. -/
theorem columnPixels_perm {F : Type} [LinearOrderedField F] (ops : MathOps F)
    (s : OrganizedRadiusSearch F) (q : float3 F) :
    List.Perm (columnPixels ops s q) (windowPixels ops s q) :=
  flatMap_map_swap_perm (fun (x y : Int) => (y, x)) _ _

theorem mem_columnPixels {F : Type} [LinearOrderedField F] (ops : MathOps F)
    (s : OrganizedRadiusSearch F) (q : float3 F) (yx : Int × Int) :
    yx ∈ columnPixels ops s q
      ↔ ((getProjectedRadiusSearchBox ops s q).x ≤ yx.2
          ∧ yx.2 ≤ (getProjectedRadiusSearchBox ops s q).y)
        ∧ ((getProjectedRadiusSearchBox ops s q).z ≤ yx.1
          ∧ yx.1 ≤ (getProjectedRadiusSearchBox ops s q).w) := by
  obtain ⟨y, x⟩ := yx
  simp only [columnPixels, List.mem_flatMap, List.mem_map, mem_loopRange, Prod.mk.injEq]
  constructor
  · rintro ⟨a, ha, b, hb, rfl, rfl⟩
    exact ⟨ha, hb⟩
  · rintro ⟨ha, hb⟩
    exact ⟨x, ha, y, hb, rfl, rfl⟩

/-- The pixels of `columnPixels` come by increasing column and, in a column,
by increasing row. -/
theorem columnPixels_increasing {F : Type} [LinearOrderedField F] (ops : MathOps F)
    (s : OrganizedRadiusSearch F) (q : float3 F) :
    List.Pairwise (fun a b : Int × Int => a.2 < b.2 ∨ (a.2 = b.2 ∧ a.1 < b.1))
      (columnPixels ops s q) := by
  unfold columnPixels
  dsimp only
  rw [List.pairwise_flatMap]
  constructor
  · intro x _
    exact List.Pairwise.map _ (fun a b h => Or.inr ⟨rfl, h⟩) (loopRange_increasing _ _)
  · refine List.Pairwise.imp ?_ (loopRange_increasing _ _)
    intro a b hab p hp r hr
    obtain ⟨_, _, rfl⟩ := List.mem_map.mp hp
    obtain ⟨_, _, rfl⟩ := List.mem_map.mp hr
    exact Or.inl hab

/-- In a cloud of width at least `1` different pixels of the search window
have different buffer indices. -/
theorem pixelIndex_injOn {F : Type} [LinearOrderedField F] (ops : MathOps F)
    (s : OrganizedRadiusSearch F) (q : float3 F) (hw : 1 ≤ s.width_) (a b : Int × Int)
    (ha : a ∈ columnPixels ops s q) (hb : b ∈ columnPixels ops s q)
    (h : pixelIndex s a = pixelIndex s b) : a = b := by
  have hw' : (0 : Int) ≤ s.width_ - 1 := by omega
  have bx := clamp_mem (ops.floor (projectedBounds ops s q).x) 0 (s.width_ - 1) hw'
  have bY := clamp_mem (ops.ceil (projectedBounds ops s q).y) 0 (s.width_ - 1) hw'
  obtain ⟨⟨a1, a2⟩, _⟩ := (mem_columnPixels ops s q a).mp ha
  obtain ⟨⟨b1, b2⟩, _⟩ := (mem_columnPixels ops s q b).mp hb
  simp only [getProjectedRadiusSearchBox] at a1 a2 b1 b2
  obtain ⟨ay, ax⟩ := a
  obtain ⟨by', bx'⟩ := b
  simp only [pixelIndex] at h a1 a2 b1 b2 ⊢
  have hax : (ay * s.width_ + ax) % s.width_ = ax := by
    rw [add_comm, Int.add_mul_emod_self]
    exact Int.emod_eq_of_lt (by omega) (by omega)
  have hbx : (by' * s.width_ + bx') % s.width_ = bx' := by
    rw [add_comm, Int.add_mul_emod_self]
    exact Int.emod_eq_of_lt (by omega) (by omega)
  have hx : ax = bx' := by rw [← hax, ← hbx, h]
  subst hx
  have hy : ay * s.width_ = by' * s.width_ := by omega
  have hy' : ay = by' := Int.eq_of_mul_eq_mul_right (by omega) hy
  rw [hy']

theorem acceptedIndices_nodup {F : Type} [LinearOrderedField F] (ops : MathOps F)
    (s : OrganizedRadiusSearch F) (q : float3 F) (hw : 1 ≤ s.width_) :
    ((acceptedColumnPixels ops s q).map (pixelIndex s)).Nodup := by
  have hnd : (columnPixels ops s q).Nodup :=
    List.Pairwise.imp (fun {a b} h => by
      intro hab
      subst hab
      rcases h with h | ⟨_, h⟩ <;> exact lt_irrefl _ h) (columnPixels_increasing ops s q)
  refine List.Nodup.map_on ?_ (hnd.filter _)
  intro a ha b hb h
  exact pixelIndex_injOn ops s q hw a b (List.mem_filter.mp ha).1 (List.mem_filter.mp hb).1 h

/-- The accepted pixels are as many as the accepted points of the row-wise
scan. -/
theorem acceptedColumnPixels_length {F : Type} [LinearOrderedField F] (ops : MathOps F)
    (s : OrganizedRadiusSearch F) (q : float3 F) :
    (acceptedColumnPixels ops s q).length = (acceptedPoints ops s q).length := by
  unfold acceptedColumnPixels acceptedPoints
  rw [List.length_filterMap_eq_countP, List.countP_eq_length_filter]
  exact ((columnPixels_perm ops s q).filter _).length_eq

/-! ### The four-pixel cloud and the cloud of width zero -/

theorem fourPixelCloud_box :
    getProjectedRadiusSearchBox realOps (fourPixelCloud : OrganizedRadiusSearch ℝ) ⟨0, 0, 1⟩
      = ⟨0, 1, 0, 1⟩ := by
  have hs : Real.sqrt (0 * 0 * (1 / 2) + 1 * 1 * (1 / 2) - 1 / 2 * (1 / 2)) = 1 / 2 := by
    rw [show (0 * 0 * (1 / 2) + 1 * 1 * (1 / 2) - 1 / 2 * (1 / 2) : ℝ) = (1 / 2) ^ 2 by norm_num]
    exact Real.sqrt_sq (by norm_num)
  have hb : projectedBounds realOps (fourPixelCloud : OrganizedRadiusSearch ℝ) ⟨0, 0, 1⟩
      = ⟨0, 2, 0, 2⟩ := by
    simp only [projectedBounds, fourPixelCloud, realOps_sqrt, hs]
    norm_num
  have f0 : ⌊(0 : ℝ)⌋ = 0 := Int.floor_zero
  have c2 : ⌈(2 : ℝ)⌉ = 2 := by
    rw [Int.ceil_eq_iff]; norm_num
  unfold getProjectedRadiusSearchBox
  rw [hb]
  simp only [realOps, f0, c2, fourPixelCloud, clamp]
  decide

/-- All four pixels are accepted; column by column they are
`(0,0), (1,0), (0,1), (1,1)` in `(y, x)` notation. -/
theorem fourPixelCloud_acceptedColumnPixels :
    acceptedColumnPixels realOps (fourPixelCloud : OrganizedRadiusSearch ℝ) ⟨0, 0, 1⟩
      = [(0, 0), (1, 0), (0, 1), (1, 1)] := by
  have hr1 : loopRange 0 1 = [0, 1] := by decide
  have a0 : (acceptedPoint (fourPixelCloud : OrganizedRadiusSearch ℝ) ⟨0, 0, 1⟩ (0, 0)).isSome
      = true := by
    simp [acceptedPoint, fourPixelCloud, dot, float3.sub]
  have a1 : (acceptedPoint (fourPixelCloud : OrganizedRadiusSearch ℝ) ⟨0, 0, 1⟩ (0, 1)).isSome
      = true := by
    simp [acceptedPoint, fourPixelCloud, dot, float3.sub]
    norm_num
  have a2 : (acceptedPoint (fourPixelCloud : OrganizedRadiusSearch ℝ) ⟨0, 0, 1⟩ (1, 0)).isSome
      = true := by
    simp [acceptedPoint, fourPixelCloud, dot, float3.sub]
    norm_num
  have a3 : (acceptedPoint (fourPixelCloud : OrganizedRadiusSearch ℝ) ⟨0, 0, 1⟩ (1, 1)).isSome
      = true := by
    simp [acceptedPoint, fourPixelCloud, dot, float3.sub]
    norm_num
  simp only [acceptedColumnPixels, columnPixels, fourPixelCloud_box, hr1, List.flatMap_cons,
    List.flatMap_nil, List.map_cons, List.map_nil, List.append_nil, List.cons_append,
    List.nil_append, List.filter_cons, a0, a1, a2, a3, if_true, List.filter_nil]

theorem zeroWidthCloud_box :
    getProjectedRadiusSearchBox realOps (zeroWidthCloud : OrganizedRadiusSearch ℝ) ⟨0, 0, 1⟩
      = ⟨0, 0, 0, 1⟩ := by
  have hs : Real.sqrt (0 * 0 * (1 / 2) + 1 * 1 * (1 / 2) - 1 / 2 * (1 / 2)) = 1 / 2 := by
    rw [show (0 * 0 * (1 / 2) + 1 * 1 * (1 / 2) - 1 / 2 * (1 / 2) : ℝ) = (1 / 2) ^ 2 by norm_num]
    exact Real.sqrt_sq (by norm_num)
  have hb : projectedBounds realOps (zeroWidthCloud : OrganizedRadiusSearch ℝ) ⟨0, 0, 1⟩
      = ⟨-1, 1, 0, 2⟩ := by
    simp only [projectedBounds, zeroWidthCloud, realOps_sqrt, hs]
    norm_num
  have f0 : ⌊(0 : ℝ)⌋ = 0 := Int.floor_zero
  have f1 : ⌊(-1 : ℝ)⌋ = -1 := by
    rw [Int.floor_eq_iff]; norm_num
  have c1 : ⌈(1 : ℝ)⌉ = 1 := Int.ceil_one
  have c2 : ⌈(2 : ℝ)⌉ = 2 := by
    rw [Int.ceil_eq_iff]; norm_num
  unfold getProjectedRadiusSearchBox
  rw [hb]
  simp only [realOps, f0, f1, c1, c2, zeroWidthCloud, clamp]
  decide

/-- With `width_ = 0` the two pixels of the window have the buffer index
`0`; both are accepted. -/
theorem zeroWidthCloud_acceptedColumnPixels :
    acceptedColumnPixels realOps (zeroWidthCloud : OrganizedRadiusSearch ℝ) ⟨0, 0, 1⟩
      = [(0, 0), (1, 0)] := by
  have hr0 : loopRange 0 0 = [0] := by decide
  have hr1 : loopRange 0 1 = [0, 1] := by decide
  have a0 : (acceptedPoint (zeroWidthCloud : OrganizedRadiusSearch ℝ) ⟨0, 0, 1⟩ (0, 0)).isSome
      = true := by
    simp [acceptedPoint, zeroWidthCloud, dot, float3.sub]
  have a1 : (acceptedPoint (zeroWidthCloud : OrganizedRadiusSearch ℝ) ⟨0, 0, 1⟩ (1, 0)).isSome
      = true := by
    simp [acceptedPoint, zeroWidthCloud, dot, float3.sub]
  simp only [acceptedColumnPixels, columnPixels, zeroWidthCloud_box, hr0, hr1, List.flatMap_cons,
    List.flatMap_nil, List.map_cons, List.map_nil, List.append_nil, List.cons_append,
    List.nil_append, List.filter_cons, a0, a1, if_true, List.filter_nil]

/-! ### Cross products of the rows of a singular matrix -/

/-- A matrix maps the cross product of two of its rows to a vector whose
only entry that can differ from zero is the determinant, up to sign. -/
theorem mulVec_cross_rows {F : Type} [LinearOrderedField F] (A : CovarianceMatrix F) :
    mulVec A (cross A.data0 A.data1) = ⟨0, 0, det3 A⟩
      ∧ mulVec A (cross A.data0 A.data2) = ⟨0, -det3 A, 0⟩
      ∧ mulVec A (cross A.data1 A.data2) = ⟨det3 A, 0, 0⟩ := by
  obtain ⟨⟨a, b, c⟩, ⟨d, e, f⟩, ⟨g, h, i⟩⟩ := A
  refine ⟨?_, ?_, ?_⟩ <;> simp only [mulVec, dot, cross, det3, float3.mk.injEq] <;>
    refine ⟨?_, ?_, ?_⟩ <;> ring

/-- The vector selected by `selectCross` is one of the three cross products
of the rows. -/
theorem selectCross_vec_cases {F : Type} [LinearOrderedField F] (A : CovarianceMatrix F) :
    (selectCross A).vec = cross A.data0 A.data1 ∨ (selectCross A).vec = cross A.data0 A.data2
      ∨ (selectCross A).vec = cross A.data1 A.data2 := by
  unfold selectCross
  dsimp only
  split_ifs
  · exact Or.inl rfl
  · exact Or.inr (Or.inl rfl)
  · exact Or.inr (Or.inr rfl)

/-- The squared length selected by `selectCross` is the largest of the
three. -/
theorem selectCross_len_max {F : Type} [LinearOrderedField F] (A : CovarianceMatrix F) :
    dot (cross A.data0 A.data1) (cross A.data0 A.data1) ≤ (selectCross A).len
      ∧ dot (cross A.data0 A.data2) (cross A.data0 A.data2) ≤ (selectCross A).len
      ∧ dot (cross A.data1 A.data2) (cross A.data1 A.data2) ≤ (selectCross A).len := by
  unfold selectCross
  dsimp only
  split_ifs with h1 h2
  · exact ⟨le_rfl, h1.1, h1.2⟩
  · exact ⟨h2.1, le_rfl, h2.2⟩
  · simp only [ge_iff_le, not_and, not_le] at h1 h2
    refine ⟨?_, ?_, le_rfl⟩
    · by_contra hc
      have h3 := not_le.mp hc
      by_cases h4 : dot (cross A.data0 A.data2) (cross A.data0 A.data2)
          ≤ dot (cross A.data0 A.data1) (cross A.data0 A.data1)
      · exact absurd (h1 h4) (not_lt.mpr h3.le)
      · have h5 := h2 (not_le.mp h4).le
        exact absurd (h3.trans (not_le.mp h4)) (not_lt.mpr h5.le)
    · by_contra hc
      have h3 := not_le.mp hc
      by_cases h4 : dot (cross A.data0 A.data1) (cross A.data0 A.data1)
          ≤ dot (cross A.data0 A.data2) (cross A.data0 A.data2)
      · exact absurd (h2 h4) (not_lt.mpr h3.le)
      · have h5 := h1 (not_le.mp h4).le
        exact absurd (h3.trans (not_le.mp h4)) (not_lt.mpr h5.le)

theorem mulVec_sdiv {F : Type} [LinearOrderedField F] (A : CovarianceMatrix F) (v : float3 F)
    (a : F) : mulVec A (v.sdiv a) = (mulVec A v).sdiv a := by
  simp only [mulVec, dot, float3.sdiv, float3.mk.injEq]
  refine ⟨?_, ?_, ?_⟩ <;> ring

theorem mulVec_shiftDiag {F : Type} [LinearOrderedField F] (M : CovarianceMatrix F) (lam : F)
    (v : float3 F) : mulVec M v = (mulVec (shiftDiag M lam) v).add (v.smul lam) := by
  simp only [mulVec, shiftDiag, dot, float3.add, float3.smul, float3.mk.injEq]
  refine ⟨?_, ?_, ?_⟩ <;> ring


/-! ### The buffer indices that are read -/

theorem foldl_record {α β : Type} (f : α → List β) (l : List α) (log : List β) :
    l.foldl (fun log v => log ++ f v) log = log ++ l.flatMap f := by
  induction l generalizing log with
  | nil => simp
  | cons v l ih => simp only [List.foldl_cons, ih, List.flatMap_cons, List.append_assoc]

/-- The indices recorded by the row-wise loops are those of the pixels of
the window, row by row. -/
theorem scanIndices_eq {F : Type} [LinearOrderedField F] (ops : MathOps F)
    (s : OrganizedRadiusSearch F) (q : float3 F) :
    scanIndices ops s q = (windowPixels ops s q).map (pixelIndex s) := by
  have inner : ∀ (y : Int) (xs : List Int) (log : List Int),
      xs.foldl (fun log x => log ++ [y * s.width_ + x]) log
        = log ++ xs.map (fun x => y * s.width_ + x) := by
    intro y xs log
    induction xs generalizing log with
    | nil => simp
    | cons x xs ih => simp only [List.foldl_cons, ih, List.map_cons, List.append_assoc,
        List.singleton_append]
  unfold scanIndices windowPixels
  simp only [searchWindow_eq, inner]
  rw [foldl_record (fun y => (loopRange (getProjectedRadiusSearchBox ops s q).x
    (getProjectedRadiusSearchBox ops s q).y).map (fun x => y * s.width_ + x)), List.nil_append,
    List.map_flatMap]
  simp only [List.map_map]
  rfl

theorem cappedRuns_sublist {α : Type} (max_nnn : Int) (body : SearchState → α → SearchState)
    (l : List α) (st : SearchState) :
    List.Sublist ((cappedRuns max_nnn body l st).map Prod.fst) l := by
  induction l generalizing st with
  | nil => exact List.Sublist.refl _
  | cons v l ih =>
    by_cases h : st.nnn < max_nnn
    · simp only [cappedRuns, h, if_true, List.map_cons]
      exact (ih _).cons₂ _
    · simp only [cappedRuns, h, if_false, List.map_nil]
      exact List.nil_sublist _

/-- The indices recorded by `radiusSearch` are among those of the pixels of
the window, in the order of the column-wise scan. -/
theorem radiusSearchIndices_sublist {F : Type} [LinearOrderedField F] (ops : MathOps F)
    (s : OrganizedRadiusSearch F) (q : float3 F) (k_indices : Int → Int) (max_nnn : Int) :
    List.Sublist (radiusSearchIndices ops s q k_indices max_nnn)
      ((columnPixels ops s q).map (pixelIndex s)) := by
  have hinner : ∀ (x : Int) (ys : List Int) (st : SearchState),
      List.Sublist
        ((cappedRuns max_nnn (fun st y => radiusBody s q st x y) ys st).map
          (fun yst => yst.1 * s.width_ + x))
        (ys.map (fun y => y * s.width_ + x)) := by
    intro x ys st
    have := (cappedRuns_sublist max_nnn (fun st y => radiusBody s q st x y) ys st).map
      (fun y => y * s.width_ + x)
    rwa [List.map_map] at this
  have houter : ∀ (body : SearchState → Int → SearchState) (ys xs : List Int) (st : SearchState),
      List.Sublist
        ((cappedRuns max_nnn body xs st).flatMap
          (fun xst => (cappedRuns max_nnn (fun st y => radiusBody s q st xst.1 y) ys xst.2).map
            (fun yst => yst.1 * s.width_ + xst.1)))
        (xs.flatMap (fun x => ys.map (fun y => y * s.width_ + x))) := by
    intro body ys xs
    induction xs with
    | nil => intro st; exact List.Sublist.refl _
    | cons x xs ih =>
      intro st
      by_cases h : st.nnn < max_nnn
      · simp only [cappedRuns, h, if_true, List.flatMap_cons]
        exact (hinner x ys st).append (ih _)
      · simp only [cappedRuns, h, if_false, List.flatMap_nil]
        exact List.nil_sublist _
  unfold radiusSearchIndices columnPixels
  dsimp only
  rw [List.map_flatMap]
  simp only [List.map_map]
  exact houter _ _ _ _

/-- In a cloud with `width_ ≥ 1` and `height_ ≥ 1` every pixel of the window
has its buffer index in `0 .. width_ * height_ - 1`. -/
theorem pixelIndex_in_buffer {F : Type} [LinearOrderedField F] (ops : MathOps F)
    (s : OrganizedRadiusSearch F) (q : float3 F) (hw : 1 ≤ s.width_) (hh : 1 ≤ s.height_)
    (yx : Int × Int) (h : yx ∈ columnPixels ops s q) :
    0 ≤ pixelIndex s yx ∧ pixelIndex s yx < s.width_ * s.height_ := by
  have hw' : (0 : Int) ≤ s.width_ - 1 := by omega
  have hh' : (0 : Int) ≤ s.height_ - 1 := by omega
  have bx := clamp_mem (ops.floor (projectedBounds ops s q).x) 0 (s.width_ - 1) hw'
  have bY := clamp_mem (ops.ceil (projectedBounds ops s q).y) 0 (s.width_ - 1) hw'
  have bz := clamp_mem (ops.floor (projectedBounds ops s q).z) 0 (s.height_ - 1) hh'
  have bw := clamp_mem (ops.ceil (projectedBounds ops s q).w) 0 (s.height_ - 1) hh'
  obtain ⟨⟨a1, a2⟩, ⟨a3, a4⟩⟩ := (mem_columnPixels ops s q yx).mp h
  simp only [getProjectedRadiusSearchBox] at a1 a2 a3 a4
  obtain ⟨y, x⟩ := yx
  simp only [pixelIndex] at a1 a2 a3 a4 ⊢
  have hx0 : 0 ≤ x := bx.1.trans a1
  have hx1 : x ≤ s.width_ - 1 := a2.trans bY.2
  have hy0 : 0 ≤ y := bz.1.trans a3
  have hy1 : y ≤ s.height_ - 1 := a4.trans bw.2
  constructor
  · nlinarith
  · nlinarith

theorem columnIndices_nodup {F : Type} [LinearOrderedField F] (ops : MathOps F)
    (s : OrganizedRadiusSearch F) (q : float3 F) (hw : 1 ≤ s.width_) :
    ((columnPixels ops s q).map (pixelIndex s)).Nodup := by
  have hnd : (columnPixels ops s q).Nodup :=
    List.Pairwise.imp (fun {a b} h => by
      intro hab
      subst hab
      rcases h with h | ⟨_, h⟩ <;> exact lt_irrefl _ h) (columnPixels_increasing ops s q)
  exact List.Nodup.map_on (fun a ha b hb h => pixelIndex_injOn ops s q hw a b ha hb h) hnd

/-- A list of different integers of `0 .. N - 1` has at most `N` entries. -/
theorem length_le_of_nodup_range (l : List Int) (N : Int) (hN : 0 ≤ N) (hnd : l.Nodup)
    (h : ∀ i ∈ l, 0 ≤ i ∧ i < N) : (l.length : Int) ≤ N := by
  have hsub : l.toFinset ⊆ Finset.Ico 0 N := by
    intro i hi
    rw [List.mem_toFinset] at hi
    exact Finset.mem_Ico.mpr (h i hi)
  have hcard := Finset.card_le_card hsub
  rw [List.toFinset_card_of_nodup hnd, Int.card_Ico] at hcard
  omega

/-- Two clouds with the same geometry whose buffers agree on the indices
`0 .. width_ * height_ - 1` accept the same points at the pixels of the
window. -/
theorem acceptedPoint_congr {F : Type} [LinearOrderedField F] (ops : MathOps F)
    (s t : OrganizedRadiusSearch F) (q : float3 F) (hw : 1 ≤ s.width_) (hh : 1 ≤ s.height_)
    (hwt : t.width_ = s.width_) (hr : t.sqr_radius_ = s.sqr_radius_)
    (hpts : ∀ idx : Int, 0 ≤ idx → idx < s.width_ * s.height_ → t.points_ idx = s.points_ idx)
    (yx : Int × Int) (h : yx ∈ columnPixels ops s q) :
    acceptedPoint t q yx = acceptedPoint s q yx := by
  obtain ⟨h0, h1⟩ := pixelIndex_in_buffer ops s q hw hh yx h
  rw [acceptedPoint_eq_acceptedOf, acceptedPoint_eq_acceptedOf, hwt, hr]
  simp only [pixelIndex] at h0 h1
  rw [hpts _ h0 h1]

theorem box_congr {F : Type} [LinearOrderedField F] (ops : MathOps F)
    (s t : OrganizedRadiusSearch F) (q : float3 F) (hf : t.focalLength_ = s.focalLength_)
    (hwt : t.width_ = s.width_) (hht : t.height_ = s.height_)
    (hr : t.sqr_radius_ = s.sqr_radius_) :
    getProjectedRadiusSearchBox ops t q = getProjectedRadiusSearchBox ops s q := by
  simp only [getProjectedRadiusSearchBox, projectedBounds, hf, hwt, hht, hr]

/-! ### Binary32 loop counters -/

/-- Integers up to `2^24` are binary32 numbers. -/
theorem roundToFloat_of_le (n : Int) (h0 : 0 ≤ n) (h1 : n ≤ 16777216) : roundToFloat n = n := by
  obtain ⟨a, rfl⟩ := Int.eq_ofNat_of_zero_le h0
  have ha : a ≤ 16777216 := by exact_mod_cast h1
  unfold roundToFloat
  simp only [Int.natAbs_ofNat]
  rcases Nat.eq_zero_or_pos a with rfl | hpos
  · simp
  have hsign : Int.sign (a : Int) = 1 := Int.sign_eq_one_of_pos (by exact_mod_cast hpos)
  rw [hsign, one_mul]
  rcases Nat.lt_or_eq_of_le ha with hlt | heq
  · have hlog : Nat.log 2 a < 24 := Nat.log_lt_of_lt_pow hpos.ne.symm (by norm_num; exact hlt)
    have hu : Nat.log 2 a - 23 = 0 := by omega
    simp [hu, Nat.mod_one]
  · subst heq
    have hlog : Nat.log 2 16777216 = 24 :=
      Nat.log_eq_of_pow_le_of_lt_pow (by norm_num) (by norm_num)
    simp [hlog]

/-- The sum `2^24 + 1` is rounded to `2^24`. -/
theorem roundToFloat_stall : roundToFloat 16777217 = 16777216 := by
  have hlog : Nat.log 2 16777217 = 24 :=
    Nat.log_eq_of_pow_le_of_lt_pow (by norm_num) (by norm_num)
  unfold roundToFloat
  have ha : (16777217 : Int).natAbs = 16777217 := rfl
  have hs : Int.sign 16777217 = 1 := Int.sign_eq_one_of_pos (by norm_num)
  simp only [ha, hlog, hs]
  norm_num

theorem roundToFloat_tall : roundToFloat 33554431 = 33554432 := by
  have hlog : Nat.log 2 33554431 = 24 :=
    Nat.log_eq_of_pow_le_of_lt_pow (by norm_num) (by norm_num)
  unfold roundToFloat
  have ha : (33554431 : Int).natAbs = 33554431 := rfl
  have hs : Int.sign 33554431 = 1 := Int.sign_eq_one_of_pos (by norm_num)
  simp only [ha, hlog, hs]
  norm_num

theorem roundToFloat_neg_one : roundToFloat (-1) = -1 := by
  have hlog : Nat.log 2 1 = 0 := Nat.log_of_lt (by norm_num)
  unfold roundToFloat
  have ha : (-1 : Int).natAbs = 1 := rfl
  have hs : Int.sign (-1) = -1 := rfl
  simp only [ha, hlog, hs]
  norm_num

theorem loopRange_cons (lo hi : Int) (h : lo ≤ hi) :
    loopRange lo hi = lo :: loopRange (lo + 1) hi := by
  rw [loopRange_eq, loopRange_eq]
  have e : (hi + 1 - lo).toNat = (hi + 1 - (lo + 1)).toNat + 1 := by omega
  rw [e, List.range_succ_eq_map, List.map_cons, List.map_map]
  simp only [Nat.cast_zero, add_zero, List.cons.injEq, true_and]
  apply List.map_congr_left
  intro i _
  simp only [Function.comp, Nat.succ_eq_add_one, Nat.cast_add, Nat.cast_one]
  ring

theorem loopRange_nil (lo hi : Int) (h : hi < lo) : loopRange lo hi = [] := by
  rw [loopRange_eq]
  have e : (hi + 1 - lo).toNat = 0 := by omega
  rw [e]
  rfl

/-- A binary32 counter that stays below `2^24` takes the values of the exact
loop, and the loop is left after `hi + 2 - v` tests. -/
theorem floatCounterLoop_eq_foldl {σ : Type} (hi : Int) (b : σ → Int → σ)
    (body : σ → Int → Option σ) (hbody : ∀ st v, v ≤ hi → body st v = some (b st v))
    (hhi : hi < 16777216) (fuel : Nat) (v : Int) (st : σ) (h0 : 0 ≤ v) (h1 : v ≤ hi + 1)
    (hfuel : (hi + 1 - v).toNat < fuel) :
    floatCounterLoop hi body fuel v st = some ((loopRange v hi).foldl b st) := by
  induction fuel generalizing v st with
  | zero => omega
  | succ fuel ih =>
    have hrhi : roundToFloat hi = hi := by
      by_cases hneg : 0 ≤ hi
      · exact roundToFloat_of_le hi hneg (by omega)
      · have hm : hi = -1 := by omega
        rw [hm]
        exact roundToFloat_neg_one
    unfold floatCounterLoop
    rw [hrhi]
    by_cases hv : v ≤ hi
    · rw [if_pos hv, hbody st v hv]
      dsimp only
      rw [roundToFloat_of_le (v + 1) (by omega) (by omega), ih (v + 1) _ (by omega) (by omega)
        (by omega), loopRange_cons v hi hv, List.foldl_cons]
    · rw [if_neg hv, loopRange_nil v hi (by omega)]
      rfl

/-- A binary32 counter that has to pass `2^24` never does: from any value of
`0 .. 2^24` on, the loop is not left, whatever the fuel. -/
theorem floatCounterLoop_stall {σ : Type} (hi : Int) (body : σ → Int → Option σ)
    (hhi : 16777216 ≤ roundToFloat hi) (fuel : Nat) (v : Int) (st : σ) (h0 : 0 ≤ v)
    (h1 : v ≤ 16777216) : floatCounterLoop hi body fuel v st = none := by
  induction fuel generalizing v st with
  | zero => rfl
  | succ fuel ih =>
    unfold floatCounterLoop
    rw [if_pos (h1.trans hhi)]
    cases body st v with
    | none => rfl
    | some st' =>
      dsimp only
      by_cases hv : v < 16777216
      · rw [roundToFloat_of_le (v + 1) (by omega) (by omega)]
        exact ih _ _ (by omega) (by omega)
      · have hv' : v = 16777216 := by omega
        rw [hv', show (16777216 : Int) + 1 = 16777217 by norm_num, roundToFloat_stall]
        exact ih _ _ (by norm_num) le_rfl

/-- The loop `for (float v = (float) lo; v <= hi; v += 1)` with `lo` and
`hi` in `0 .. 2^24 - 1` is the exact loop over `lo, ..., hi`. -/
theorem floatCounterLoop_start {σ : Type} (lo hi : Int) (b : σ → Int → σ)
    (body : σ → Int → Option σ) (hbody : ∀ st v, v ≤ hi → body st v = some (b st v))
    (hlo : 0 ≤ lo) (hlo' : lo < 16777216) (hhi : 0 ≤ hi) (hhi' : hi < 16777216) (fuel : Nat)
    (st : σ) (hfuel : (hi + 1 - lo).toNat < fuel) :
    floatCounterLoop hi body fuel (roundToFloat lo) st = some ((loopRange lo hi).foldl b st) := by
  rw [roundToFloat_of_le lo hlo (by omega)]
  by_cases h : lo ≤ hi + 1
  · exact floatCounterLoop_eq_foldl hi b body hbody hhi' fuel lo st hlo h hfuel
  · obtain ⟨k, rfl⟩ : ∃ k, fuel = k + 1 := ⟨fuel - 1, by omega⟩
    unfold floatCounterLoop
    rw [roundToFloat_of_le hi hhi (by omega), if_neg (by omega), loopRange_nil lo hi (by omega)]
    rfl

/-- The loop nest with `float` counters is the exact loop nest when the
window lies in `0 .. 2^24 - 1` in both directions, and it is left when the
fuel exceeds the number of rows and of columns of the window. -/
theorem floatScan_eq_foldl {σ : Type} (fuel : Nat) (bounds : int4) (body : σ → Int → Int → σ)
    (init : σ) (hx : 0 ≤ bounds.x ∧ bounds.x < 16777216) (hy : 0 ≤ bounds.y ∧ bounds.y < 16777216)
    (hz : 0 ≤ bounds.z ∧ bounds.z < 16777216) (hw : 0 ≤ bounds.w ∧ bounds.w < 16777216)
    (hfx : (bounds.y + 1 - bounds.x).toNat < fuel)
    (hfy : (bounds.w + 1 - bounds.z).toNat < fuel) :
    floatScan fuel bounds body init
      = some ((loopRange bounds.z bounds.w).foldl
          (fun st y => (loopRange bounds.x bounds.y).foldl (fun st x => body st y x) st) init) := by
  unfold floatScan
  exact floatCounterLoop_start bounds.z bounds.w
    (fun st y => (loopRange bounds.x bounds.y).foldl (fun st x => body st y x) st) _
    (fun st y _ => floatCounterLoop_start bounds.x bounds.y (fun st x => body st y x) _
      (fun _ _ _ => rfl) hx.1 hx.2 hy.1 hy.2 fuel st hfx)
    hz.1 hz.2 hw.1 hw.2 fuel init hfy

/-- A value of `-2^31 .. 2^31 - 1` is not changed by 32-bit evaluation. -/
theorem wrapInt32_of_range (v : Int) (h0 : -2147483648 ≤ v) (h1 : v ≤ 2147483647) :
    wrapInt32 v = v := by
  unfold wrapInt32
  omega

/-- The window of a cloud with `width_ ≥ 1` and `height_ ≥ 1` lies in the
image. -/
theorem searchWindow_in_image {F : Type} [LinearOrderedField F] (ops : MathOps F)
    (s : OrganizedRadiusSearch F) (q : float3 F) (hw : 1 ≤ s.width_) (hh : 1 ≤ s.height_) :
    (0 ≤ (searchWindow ops s q).x ∧ (searchWindow ops s q).x ≤ s.width_ - 1)
      ∧ (0 ≤ (searchWindow ops s q).y ∧ (searchWindow ops s q).y ≤ s.width_ - 1)
      ∧ (0 ≤ (searchWindow ops s q).z ∧ (searchWindow ops s q).z ≤ s.height_ - 1)
      ∧ (0 ≤ (searchWindow ops s q).w ∧ (searchWindow ops s q).w ≤ s.height_ - 1) := by
  have hw' : (0 : Int) ≤ s.width_ - 1 := by omega
  have hh' : (0 : Int) ≤ s.height_ - 1 := by omega
  simp only [searchWindow]
  exact ⟨clamp_mem _ _ _ hw', clamp_mem _ _ _ hw', clamp_mem _ _ _ hh', clamp_mem _ _ _ hh'⟩

/-! ### The cloud of `2^25` rows -/

theorem tallCloud_window :
    searchWindow realOps (tallCloud : OrganizedRadiusSearch ℝ) ⟨0, 0, 1⟩
      = ⟨0, 0, 0, 33554431⟩ := by
  have hs : Real.sqrt (0 * 0 * (1 / 2) + 1 * 1 * (1 / 2) - 1 / 2 * (1 / 2)) = 1 / 2 := by
    rw [show (0 * 0 * (1 / 2) + 1 * 1 * (1 / 2) - 1 / 2 * (1 / 2) : ℝ) = (1 / 2) ^ 2 by norm_num]
    exact Real.sqrt_sq (by norm_num)
  have hb : projectedBounds realOps (tallCloud : OrganizedRadiusSearch ℝ) ⟨0, 0, 1⟩
      = ⟨-(134217727 / 2), 134217729 / 2, -50331648, 83886080⟩ := by
    simp only [projectedBounds, tallCloud, realOps_sqrt, hs]
    norm_num
  have f1 : ⌊(-(134217727 / 2) : ℝ)⌋ = -67108864 := by
    rw [Int.floor_eq_iff]; norm_num
  have c1 : ⌈(134217729 / 2 : ℝ)⌉ = 67108865 := by
    rw [Int.ceil_eq_iff]; norm_num
  have f2 : ⌊(-50331648 : ℝ)⌋ = -50331648 := by
    rw [Int.floor_eq_iff]; norm_num
  have c2 : ⌈(83886080 : ℝ)⌉ = 83886080 := by
    rw [Int.ceil_eq_iff]; norm_num
  rw [searchWindow_eq]
  unfold getProjectedRadiusSearchBox
  rw [hb]
  simp only [realOps, f1, c1, f2, c2, tallCloud, clamp]
  decide

/-! ### The rows of `eigen33` away from a zero divisor -/

/-- The all-distinct branch is the re-orthogonalisation of the selected rows
with the indices of `distinctMinMax`. -/
theorem eigen33Distinct_eq_reorthogonalise {F : Type} [LinearOrderedField F] (ops : MathOps F)
    (scaledMat : CovarianceMatrix F) (evals : float3 F) :
    eigen33Distinct ops scaledMat evals
      = reorthogonalise ops (distinctSelected ops scaledMat evals)
          (distinctMinMax scaledMat evals).1 (distinctMinMax scaledMat evals).2 := rfl

/-- Whenever `eigen33`, as it stands, divides by no zero length, the three
rows it returns are orthonormal, in all four branches: a zero divisor is the
only way in which the rows can fail to be orthonormal. -/
theorem eigen33_orthonormal_of_noZeroDivisor (M : CovarianceMatrix ℝ)
    (hnz : eigen33NoZeroDivisor realOps M) :
    Orthonormal (eigen33 realOps M).evecs := by
  rw [eigen33_evecs_eq]
  unfold eigen33NoZeroDivisor at hnz
  unfold eigen33Vectors
  dsimp only at hnz ⊢
  generalize eigen33ScaledMat M = A at hnz ⊢
  generalize computeRoots realOps A = ev at hnz ⊢
  by_cases h1 : ev.z - ev.x ≤ FLT_EPSILON
  · rw [if_pos h1]
    simp [Orthonormal, make_float3, dot]
  · rw [if_neg h1] at hnz ⊢
    by_cases h2 : ev.y - ev.x ≤ FLT_EPSILON
    · rw [if_pos h2] at hnz ⊢
      have hu := sdiv_sqrt_unit _ _ (selectCross_len (shiftDiag A ev.z)) hnz
      obtain ⟨p1, p2⟩ := unitOrthogonal_of_unit _ hu
      obtain ⟨c1, c2, c3⟩ := cross_unit _ _ p1 hu p2
      exact ⟨c2, c3, p2, c1, p1, hu⟩
    · rw [if_neg h2] at hnz ⊢
      by_cases h3 : ev.z - ev.y ≤ FLT_EPSILON
      · rw [if_pos h3] at hnz ⊢
        have hu := sdiv_sqrt_unit _ _ (selectCross_len (shiftDiag A ev.x)) hnz
        obtain ⟨p1, p2⟩ := unitOrthogonal_of_unit _ hu
        obtain ⟨c1, c2, c3⟩ := cross_unit _ _ hu p1 ((dot_comm _ _).trans p2)
        exact ⟨(dot_comm _ _).trans p2, (dot_comm _ _).trans c2, (dot_comm _ _).trans c3,
          hu, p1, c1⟩
      · rw [if_neg h3] at hnz ⊢
        obtain ⟨n2, n1, n0, hc⟩ := hnz
        have u0 : dot (distinctSelected realOps A ev).data0 (distinctSelected realOps A ev).data0
            = 1 := sdiv_sqrt_unit _ _ (selectCross_len (shiftDiag A ev.x)) n0
        have u1 : dot (distinctSelected realOps A ev).data1 (distinctSelected realOps A ev).data1
            = 1 := sdiv_sqrt_unit _ _ (selectCross_len (shiftDiag A ev.y)) n1
        have u2 : dot (distinctSelected realOps A ev).data2 (distinctSelected realOps A ev).data2
            = 1 := sdiv_sqrt_unit _ _ (selectCross_len (shiftDiag A ev.z)) n2
        have hcases := minMaxEl_cases (selectCross (shiftDiag A ev.z)).len
          (selectCross (shiftDiag A ev.y)).len (selectCross (shiftDiag A ev.x)).len
          (selectCross (shiftDiag A ev.x)).len3
        exact reorth_orthonormal _ u0 u1 u2 _ _ hcases hc

/-- An input without a zero divisor: the matrix `diag (0, 1/2, 1)` takes the
all-distinct branch with the eigenvalues `(0, 1/2, 1)`, selects the three
axes and re-orthogonalises with `min_el = 1`, `max_el = 2`. -/
theorem eigen33_orthonormal_diag_example :
    IsSymmetric (diag (0 : ℝ) (1 / 2) 1)
      ∧ eigen33NoZeroDivisor realOps (diag (0 : ℝ) (1 / 2) 1)
      ∧ Orthonormal (eigen33 realOps (diag (0 : ℝ) (1 / 2) 1)).evecs := by
  have hscale : eigen33Scale (diag (0 : ℝ) (1 / 2) 1) = 1 := by
    rw [eigen33Scale_diag]
    have hm : max (max |(0 : ℝ)| |(1 / 2 : ℝ)|) |(1 : ℝ)| = 1 := by
      rw [abs_zero, abs_one, abs_of_pos (by norm_num : (0 : ℝ) < 1 / 2)]
      norm_num
    rw [hm, if_neg]
    unfold FLT_MIN; norm_num
  have hmat : eigen33ScaledMat (diag (0 : ℝ) (1 / 2) 1) = diag 0 (1 / 2) 1 := by
    rw [eigen33ScaledMat_diag, hscale]; simp
  have hroots : computeRoots realOps (diag (0 : ℝ) (1 / 2) 1) = ⟨0, 1 / 2, 1⟩ := by
    have h0 : charC0 (diag (0 : ℝ) (1 / 2) 1) = 0 := by simp [charC0, diag]
    have h1 : charC1 (diag (0 : ℝ) (1 / 2) 1) = 1 / 2 := by simp [charC1, diag]
    have h2 : charC2 (diag (0 : ℝ) (1 / 2) 1) = 3 / 2 := by simp [charC2, diag]; norm_num
    have hd : max ((3 / 2 : ℝ) * (3 / 2) - 4 * (1 / 2)) 0 = (1 / 2) ^ 2 := by norm_num
    unfold computeRoots
    simp only [h0, h1, h2, abs_zero, FLT_EPSILON_pos, if_true]
    rw [computeRoots2_eq, hd, Real.sqrt_sq (by norm_num)]
    norm_num
  have sz : selectCross (shiftDiag (diag (0 : ℝ) (1 / 2) 1) 1) = ⟨⟨0, 0, 1 / 2⟩, 1 / 4, 0⟩ := by
    simp only [selectCross, shiftDiag, diag, cross, dot]; norm_num
  have sy : selectCross (shiftDiag (diag (0 : ℝ) (1 / 2) 1) (1 / 2))
      = ⟨⟨0, 1 / 4, 0⟩, 1 / 16, 0⟩ := by
    simp only [selectCross, shiftDiag, diag, cross, dot]; norm_num
  have sx : selectCross (shiftDiag (diag (0 : ℝ) (1 / 2) 1) 0)
      = ⟨⟨1 / 2, 0, 0⟩, 1 / 4, 1 / 4⟩ := by
    simp only [selectCross, shiftDiag, diag, cross, dot]; norm_num
  have h4 : Real.sqrt (1 / 4) = 1 / 2 := by
    rw [show (1 / 4 : ℝ) = (1 / 2) ^ 2 by norm_num]
    exact Real.sqrt_sq (by norm_num)
  have h16 : Real.sqrt (1 / 16) = 1 / 4 := by
    rw [show (1 / 16 : ℝ) = (1 / 4) ^ 2 by norm_num]
    exact Real.sqrt_sq (by norm_num)
  have hsel : distinctSelected realOps (diag (0 : ℝ) (1 / 2) 1) ⟨0, 1 / 2, 1⟩
      = ⟨⟨1, 0, 0⟩, ⟨0, 1, 0⟩, ⟨0, 0, 1⟩⟩ := by
    simp only [distinctSelected, sz, sy, sx, realOps_sqrt, h4, h16, float3.sdiv]
    norm_num
  have hmm : distinctMinMax (diag (0 : ℝ) (1 / 2) 1) ⟨0, 1 / 2, 1⟩ = (1, 2) := by
    simp only [distinctMinMax, sz, sy, sx, minMaxEl, mmaxGet]
    norm_num
  have b1 : ¬ ((1 : ℝ) - 0 ≤ FLT_EPSILON) := FLT_EPSILON_lt_of_le _ (by norm_num)
  have b2 : ¬ ((1 / 2 : ℝ) - 0 ≤ FLT_EPSILON) := FLT_EPSILON_lt_of_le _ (by norm_num)
  have b3 : ¬ ((1 : ℝ) - 1 / 2 ≤ FLT_EPSILON) := FLT_EPSILON_lt_of_le _ (by norm_num)
  have hnz : eigen33NoZeroDivisor realOps (diag (0 : ℝ) (1 / 2) 1) := by
    unfold eigen33NoZeroDivisor
    rw [hmat]
    dsimp only
    rw [hroots]
    simp only [if_neg b1, if_neg b2, if_neg b3, sz, sy, sx, hsel, hmm, CovarianceMatrix.get,
      Nat.reduceAdd, Nat.reduceMod, Nat.reduceEqDiff, OfNat.ofNat_ne_zero, OfNat.ofNat_ne_one,
      OfNat.zero_ne_ofNat, OfNat.one_ne_ofNat, zero_ne_one, one_ne_zero, if_true, if_false]
    simp [cross, dot]
  exact ⟨isSymmetric_diag _ _ _, hnz,
    eigen33_orthonormal_of_noZeroDivisor _ hnz⟩

end Lemmas

/-! ## Theorems -/

/-- C1 (as stated, refuted): for the symmetric matrix `diag (-1, 0, 0)`
`eigen33` returns the eigenvalues `(0, -1, 0)`, which are not ascending. -/
theorem eigen33_evals_ascending_counterexample :
    IsSymmetric (diag (-1 : ℝ) 0 0)
      ∧ (eigen33 realOps (diag (-1 : ℝ) 0 0)).evals = ⟨0, -1, 0⟩
      ∧ ¬ ((eigen33 realOps (diag (-1 : ℝ) 0 0)).evals.x
              ≤ (eigen33 realOps (diag (-1 : ℝ) 0 0)).evals.y
            ∧ (eigen33 realOps (diag (-1 : ℝ) 0 0)).evals.y
              ≤ (eigen33 realOps (diag (-1 : ℝ) 0 0)).evals.z) := by
  have hscale : eigen33Scale (diag (-1 : ℝ) 0 0) = 1 := by
    simp [eigen33Scale, diag, float3.fmaxf, float3.fabs, FLT_MIN]
  have hmat : eigen33ScaledMat (diag (-1 : ℝ) 0 0) = diag (-1) 0 0 := by
    unfold eigen33ScaledMat
    rw [hscale]
    simp [diag, float3.sdiv]
  have hroots : computeRoots realOps (diag (-1 : ℝ) 0 0) = ⟨0, -1, 0⟩ := by
    have h0 : charC0 (diag (-1 : ℝ) 0 0) = 0 := by simp [charC0, diag]
    have h1 : charC1 (diag (-1 : ℝ) 0 0) = 0 := by simp [charC1, diag]
    have h2 : charC2 (diag (-1 : ℝ) 0 0) = -1 := by simp [charC2, diag]
    unfold computeRoots
    simp only [h0, h1, h2, abs_zero, FLT_EPSILON_pos, if_true]
    rw [computeRoots2_eq]
    norm_num
  have hev : (eigen33 realOps (diag (-1 : ℝ) 0 0)).evals = ⟨0, -1, 0⟩ := by
    rw [eigen33_evals_eq, hmat, hroots, hscale]
    simp [float3.smul]
  refine ⟨by simp [IsSymmetric, diag], hev, ?_⟩
  rw [hev]
  norm_num

/-- C1 (amended): for every symmetric positive-semidefinite 3x3 matrix `M`,
the eigenvalues returned by `eigen33 (M)` are ascending:
`evals.x ≤ evals.y ≤ evals.z`. -/
theorem eigen33_evals_ascending_of_psd (M : CovarianceMatrix ℝ)
    (hsym : IsSymmetric M) (hpsd : IsPSD M) :
    (eigen33 realOps M).evals.x ≤ (eigen33 realOps M).evals.y
      ∧ (eigen33 realOps M).evals.y ≤ (eigen33 realOps M).evals.z := by
  obtain ⟨h1, h2⟩ := psd_coeffs_nonneg _ (isSymmetric_scaled M hsym) (isPSD_scaled M hpsd)
  obtain ⟨-, hxy, hyz⟩ := computeRoots_nonneg_sorted _ h1 h2
  have hs := (eigen33Scale_pos M).le
  rw [eigen33_evals_eq]
  simp only [float3.smul]
  exact ⟨mul_le_mul_of_nonneg_right hxy hs, mul_le_mul_of_nonneg_right hyz hs⟩

/-- C1, witness of the amended statement: the positive-semidefinite matrix
`diag (1, 2, 3)`. -/
theorem eigen33_evals_ascending_of_psd_witness :
    IsSymmetric (diag (1 : ℝ) 2 3) ∧ IsPSD (diag (1 : ℝ) 2 3)
      ∧ ((eigen33 realOps (diag (1 : ℝ) 2 3)).evals.x ≤ (eigen33 realOps (diag (1 : ℝ) 2 3)).evals.y
        ∧ (eigen33 realOps (diag (1 : ℝ) 2 3)).evals.y
            ≤ (eigen33 realOps (diag (1 : ℝ) 2 3)).evals.z) :=
  ⟨isSymmetric_diag 1 2 3,
   isPSD_diag 1 2 3 (by norm_num) (by norm_num) (by norm_num),
   eigen33_evals_ascending_of_psd (diag 1 2 3) (isSymmetric_diag 1 2 3)
     (isPSD_diag 1 2 3 (by norm_num) (by norm_num) (by norm_num))⟩

/-- C2 (the code departs from the claim): on the symmetric matrix
`diag (1, 1, -1/6)` the scale is `1`, the fallback of `computeRoots` returns
`(0, 1/2, 4/3)` and `eigen33` takes the all-distinct branch. The rows
selected are `(0, 0, 1)`, `(0, 1, 0)`, `(0, -1, 0)`, with the squared lengths
`mmax[0] = 1`, `mmax[1] = 1/9`, `mmax[2] = 1/4`. Lines 407-408 compare
`len3 = 1/36` instead of the selected `len1 = 1`, so the code ends with
`min_el = 0`, `max_el = 2`, and line 426 normalizes the cross product of rows
`1` and `2`, the zero vector: the divisor is zero. With `0/0` read as `0` the
rows returned are `(0,0,0)`, `(0,0,0)`, `(0,-1,0)`, and the length of
`evecs.data[0]` is not within `1e-5` of `1`. With the selected length
compared, as lines 371-372 do, the indices are `min_el = 1`, `max_el = 0`,
and lines 425-427 turn the same selected rows into `(0,0,1)`, `(-1,0,0)`,
`(0,-1,0)`, which are orthonormal, as the claim says. -/
theorem eigen33_evecs_zero_divisor :
    IsSymmetric (diag (1 : ℝ) 1 (-(1 / 6)))
      ∧ eigen33ScaledMat (diag (1 : ℝ) 1 (-(1 / 6))) = diag 1 1 (-(1 / 6))
      ∧ computeRoots realOps (eigen33ScaledMat (diag (1 : ℝ) 1 (-(1 / 6)))) = ⟨0, 1 / 2, 4 / 3⟩
      ∧ ¬ ((4 / 3 : ℝ) - 0 ≤ FLT_EPSILON) ∧ ¬ ((1 / 2 : ℝ) - 0 ≤ FLT_EPSILON)
      ∧ ¬ ((4 / 3 : ℝ) - 1 / 2 ≤ FLT_EPSILON)
      ∧ distinctSelected realOps (diag (1 : ℝ) 1 (-(1 / 6))) ⟨0, 1 / 2, 4 / 3⟩
          = ⟨⟨0, 0, 1⟩, ⟨0, 1, 0⟩, ⟨0, -1, 0⟩⟩
      ∧ (selectCross (shiftDiag (diag (1 : ℝ) 1 (-(1 / 6))) 0)).len = 1
      ∧ (selectCross (shiftDiag (diag (1 : ℝ) 1 (-(1 / 6))) (1 / 2))).len = 1 / 9
      ∧ (selectCross (shiftDiag (diag (1 : ℝ) 1 (-(1 / 6))) (4 / 3))).len = 1 / 4
      ∧ (selectCross (shiftDiag (diag (1 : ℝ) 1 (-(1 / 6))) 0)).len3 = 1 / 36
      ∧ distinctMinMax (diag (1 : ℝ) 1 (-(1 / 6))) ⟨0, 1 / 2, 4 / 3⟩ = (0, 2)
      ∧ cross
          ((distinctSelected realOps (diag (1 : ℝ) 1 (-(1 / 6))) ⟨0, 1 / 2, 4 / 3⟩).get
            (((distinctMinMax (diag (1 : ℝ) 1 (-(1 / 6))) ⟨0, 1 / 2, 4 / 3⟩).1 + 1) % 3))
          ((distinctSelected realOps (diag (1 : ℝ) 1 (-(1 / 6))) ⟨0, 1 / 2, 4 / 3⟩).get
            (((distinctMinMax (diag (1 : ℝ) 1 (-(1 / 6))) ⟨0, 1 / 2, 4 / 3⟩).1 + 2) % 3))
          = ⟨0, 0, 0⟩
      ∧ ¬ eigen33NoZeroDivisor realOps (diag (1 : ℝ) 1 (-(1 / 6)))
      ∧ (eigen33 realOps (diag (1 : ℝ) 1 (-(1 / 6)))).evecs
          = ⟨⟨0, 0, 0⟩, ⟨0, 0, 0⟩, ⟨0, -1, 0⟩⟩
      ∧ ¬ (|Real.sqrt (dot (eigen33 realOps (diag (1 : ℝ) 1 (-(1 / 6)))).evecs.data0
              (eigen33 realOps (diag (1 : ℝ) 1 (-(1 / 6)))).evecs.data0) - 1|
            ≤ 1 / 100000)
      ∧ minMaxEl (selectCross (shiftDiag (diag (1 : ℝ) 1 (-(1 / 6))) (4 / 3))).len
          (selectCross (shiftDiag (diag (1 : ℝ) 1 (-(1 / 6))) (1 / 2))).len
          (selectCross (shiftDiag (diag (1 : ℝ) 1 (-(1 / 6))) 0)).len
          (selectCross (shiftDiag (diag (1 : ℝ) 1 (-(1 / 6))) 0)).len = (1, 0)
      ∧ reorthogonalise realOps
          (distinctSelected realOps (diag (1 : ℝ) 1 (-(1 / 6))) ⟨0, 1 / 2, 4 / 3⟩) 1 0
          = ⟨⟨0, 0, 1⟩, ⟨-1, 0, 0⟩, ⟨0, -1, 0⟩⟩
      ∧ Orthonormal (reorthogonalise realOps
          (distinctSelected realOps (diag (1 : ℝ) 1 (-(1 / 6))) ⟨0, 1 / 2, 4 / 3⟩) 1 0) := by
  have b1 : ¬ ((4 / 3 : ℝ) - 0 ≤ FLT_EPSILON) := FLT_EPSILON_lt_of_le _ (by norm_num)
  have b2 : ¬ ((1 / 2 : ℝ) - 0 ≤ FLT_EPSILON) := FLT_EPSILON_lt_of_le _ (by norm_num)
  have b3 : ¬ ((4 / 3 : ℝ) - 1 / 2 ≤ FLT_EPSILON) := FLT_EPSILON_lt_of_le _ (by norm_num)
  have hcross : cross (⟨0, 1, 0⟩ : float3 ℝ) ⟨0, -1, 0⟩ = ⟨0, 0, 0⟩ := by
    simp [cross]
  have hevec : (eigen33 realOps (diag (1 : ℝ) 1 (-(1 / 6)))).evecs
      = ⟨⟨0, 0, 0⟩, ⟨0, 0, 0⟩, ⟨0, -1, 0⟩⟩ := by
    rw [eigen33_evecs_eq, eigen33ScaledMat_sixth, computeRoots_sixth]
    unfold eigen33Vectors
    rw [if_neg b1, if_neg b2, if_neg b3]
    unfold eigen33Distinct
    simp only [distinctSelected_sixth, distinctMinMax_sixth, midEl, CovarianceMatrix.get,
      CovarianceMatrix.set, Nat.reduceAdd, Nat.reduceMod, Nat.reduceSub, Nat.reduceEqDiff,
      OfNat.ofNat_ne_zero, OfNat.ofNat_ne_one, OfNat.zero_ne_ofNat, OfNat.one_ne_ofNat,
      zero_ne_one, one_ne_zero, if_true, if_false, hcross]
    simp [normalize, cross, dot, float3.sdiv]
  have hnz : ¬ eigen33NoZeroDivisor realOps (diag (1 : ℝ) 1 (-(1 / 6))) := by
    unfold eigen33NoZeroDivisor
    rw [eigen33ScaledMat_sixth]
    dsimp only
    rw [computeRoots_sixth]
    simp only [if_neg b1, if_neg b2, if_neg b3, distinctSelected_sixth, distinctMinMax_sixth,
      CovarianceMatrix.get, Nat.reduceAdd, Nat.reduceMod, Nat.reduceEqDiff,
      OfNat.ofNat_ne_zero, OfNat.ofNat_ne_one, OfNat.zero_ne_ofNat, OfNat.one_ne_ofNat,
      zero_ne_one, one_ne_zero, if_true, if_false, hcross]
    simp [dot]
  have hre : reorthogonalise realOps
      (distinctSelected realOps (diag (1 : ℝ) 1 (-(1 / 6))) ⟨0, 1 / 2, 4 / 3⟩) 1 0
      = ⟨⟨0, 0, 1⟩, ⟨-1, 0, 0⟩, ⟨0, -1, 0⟩⟩ := by
    rw [distinctSelected_sixth]
    simp only [reorthogonalise, midEl, CovarianceMatrix.get, CovarianceMatrix.set,
      Nat.reduceAdd, Nat.reduceMod, Nat.reduceSub, Nat.reduceEqDiff, OfNat.ofNat_ne_zero,
      OfNat.ofNat_ne_one, OfNat.zero_ne_ofNat, OfNat.one_ne_ofNat, zero_ne_one, one_ne_zero,
      if_true, if_false]
    simp [normalize, cross, dot, float3.sdiv]
  refine ⟨isSymmetric_diag _ _ _, eigen33ScaledMat_sixth, ?_, b1, b2, b3, distinctSelected_sixth,
    ?_, ?_, ?_, ?_, distinctMinMax_sixth, ?_, hnz, hevec, ?_, ?_, hre, ?_⟩
  · rw [eigen33ScaledMat_sixth, computeRoots_sixth]
  · rw [selectCross_sixth_x]
  · rw [selectCross_sixth_y]
  · rw [selectCross_sixth_z]
  · rw [selectCross_sixth_x]
  · rw [distinctSelected_sixth, distinctMinMax_sixth]
    exact hcross
  · rw [hevec]
    simp only [dot, mul_zero, add_zero, Real.sqrt_zero, zero_sub, abs_neg, abs_one]
    norm_num
  · rw [selectCross_sixth_x, selectCross_sixth_y, selectCross_sixth_z]
    simp only [minMaxEl, mmaxGet]
    norm_num
  · rw [hre]
    simp [Orthonormal, dot]

/-- C3: for every symmetric positive-semidefinite 3x3 matrix `M`, the three
eigenvalues returned by `eigen33 (M)` are non-negative, hence at least
`-FLT_EPSILON`, on the quadratic path and on the trigonometric path with its
fallback alike. -/
theorem eigen33_evals_nonneg_of_psd (M : CovarianceMatrix ℝ)
    (hsym : IsSymmetric M) (hpsd : IsPSD M) :
    (0 ≤ (eigen33 realOps M).evals.x ∧ 0 ≤ (eigen33 realOps M).evals.y
        ∧ 0 ≤ (eigen33 realOps M).evals.z)
      ∧ (-FLT_EPSILON ≤ (eigen33 realOps M).evals.x
        ∧ -FLT_EPSILON ≤ (eigen33 realOps M).evals.y
        ∧ -FLT_EPSILON ≤ (eigen33 realOps M).evals.z) := by
  obtain ⟨h1, h2⟩ := psd_coeffs_nonneg _ (isSymmetric_scaled M hsym) (isPSD_scaled M hpsd)
  obtain ⟨hx, hxy, hyz⟩ := computeRoots_nonneg_sorted _ h1 h2
  have hs := (eigen33Scale_pos M).le
  have he : (0 : ℝ) < FLT_EPSILON := FLT_EPSILON_pos
  rw [eigen33_evals_eq]
  simp only [float3.smul]
  have a := mul_nonneg hx hs
  have b := mul_nonneg (hx.trans hxy) hs
  have c := mul_nonneg ((hx.trans hxy).trans hyz) hs
  exact ⟨⟨a, b, c⟩, by linarith, by linarith, by linarith⟩

/-- C3, witness: the positive-semidefinite matrix `diag (0, 1, 2)`. -/
theorem eigen33_evals_nonneg_of_psd_witness :
    IsSymmetric (diag (0 : ℝ) 1 2) ∧ IsPSD (diag (0 : ℝ) 1 2)
      ∧ ((0 ≤ (eigen33 realOps (diag (0 : ℝ) 1 2)).evals.x
          ∧ 0 ≤ (eigen33 realOps (diag (0 : ℝ) 1 2)).evals.y
          ∧ 0 ≤ (eigen33 realOps (diag (0 : ℝ) 1 2)).evals.z)
        ∧ (-FLT_EPSILON ≤ (eigen33 realOps (diag (0 : ℝ) 1 2)).evals.x
          ∧ -FLT_EPSILON ≤ (eigen33 realOps (diag (0 : ℝ) 1 2)).evals.y
          ∧ -FLT_EPSILON ≤ (eigen33 realOps (diag (0 : ℝ) 1 2)).evals.z)) :=
  ⟨isSymmetric_diag 0 1 2,
   isPSD_diag 0 1 2 le_rfl (by norm_num) (by norm_num),
   eigen33_evals_nonneg_of_psd (diag 0 1 2) (isSymmetric_diag 0 1 2)
     (isPSD_diag 0 1 2 le_rfl (by norm_num) (by norm_num))⟩

/-- C4: for every `a > FLT_MIN`, `eigen33 (diag (a, a, a))` returns the
eigenvalues `(a, a, a)` and the standard basis as eigenvectors. -/
theorem eigen33_diag_equal (a : ℝ) (ha : FLT_MIN < a) :
    (eigen33 realOps (diag a a a)).evals = ⟨a, a, a⟩
      ∧ (eigen33 realOps (diag a a a)).evecs = ⟨⟨1, 0, 0⟩, ⟨0, 1, 0⟩, ⟨0, 0, 1⟩⟩ := by
  have hpos : (0 : ℝ) < a := lt_trans FLT_MIN_pos ha
  have hscale : eigen33Scale (diag a a a) = a := by
    rw [eigen33Scale_diag, max_self, max_self, abs_of_pos hpos, if_neg (not_le.mpr ha)]
  have hmat : eigen33ScaledMat (diag a a a) = diag 1 1 1 := by
    rw [eigen33ScaledMat_diag, hscale, div_self hpos.ne']
  have h0 : charC0 (diag (1 : ℝ) 1 1) = 1 := by simp [charC0, diag]
  have h1 : charC1 (diag (1 : ℝ) 1 1) = 3 := by simp [charC1, diag]; norm_num
  have h2 : charC2 (diag (1 : ℝ) 1 1) = 3 := by simp [charC2, diag]; norm_num
  have htrig : trigRoots realOps (1 : ℝ) 3 3 = ⟨1, 1, 1⟩ := by
    have ha3 : aOver3Unclamped (3 : ℝ) 3 = 0 := by simp [aOver3Unclamped]
    simp only [trigRoots, ha3, lt_irrefl, if_false, gt_iff_lt, neg_zero, realOps_sqrt,
      Real.sqrt_zero, mul_zero, zero_mul, add_zero, sub_zero]
    norm_num
  have hsort : sortRoots (⟨1, 1, 1⟩ : float3 ℝ) = ⟨1, 1, 1⟩ := by
    simp [sortRoots, swap]
  have hroots : computeRoots realOps (diag (1 : ℝ) 1 1) = ⟨1, 1, 1⟩ := by
    unfold computeRoots
    simp only [h0, h1, h2, htrig, hsort]
    rw [if_neg, if_neg]
    · norm_num
    · rw [abs_one]; exact not_lt.mpr (le_of_lt (by unfold FLT_EPSILON; norm_num))
  constructor
  · rw [eigen33_evals_eq, hmat, hroots, hscale]
    simp [float3.smul]
  · rw [eigen33_evecs_eq, hmat, hroots]
    unfold eigen33Vectors
    rw [if_pos]
    · rfl
    · simp only [sub_self]; exact FLT_EPSILON_pos.le

/-- C4, witness: `eigen33 (diag (5, 5, 5))` returns the eigenvalues
`(5, 5, 5)` and the standard basis. -/
theorem eigen33_diag_five :
    (FLT_MIN : ℝ) < 5
      ∧ ((eigen33 realOps (diag (5 : ℝ) 5 5)).evals = ⟨5, 5, 5⟩
        ∧ (eigen33 realOps (diag (5 : ℝ) 5 5)).evecs = ⟨⟨1, 0, 0⟩, ⟨0, 1, 0⟩, ⟨0, 0, 1⟩⟩) :=
  ⟨by unfold FLT_MIN; norm_num, eigen33_diag_equal 5 (by unfold FLT_MIN; norm_num)⟩

/-- C5: `eigen33 (diag (1, 1, 4))` returns the eigenvalues `(1, 1, 4)`; the
eigenvector for `4` is `(0, 0, 1)` (so `(0, 0, 1)` up to sign); the other two,
`(-1, 0, 0)` and `(0, -1, 0)`, have zero `z` component and are linearly
independent, so they span the `x,y` plane. -/
theorem eigen33_diag_one_one_four :
    (eigen33 realOps (diag (1 : ℝ) 1 4)).evals = ⟨1, 1, 4⟩
      ∧ (eigen33 realOps (diag (1 : ℝ) 1 4)).evecs = ⟨⟨-1, 0, 0⟩, ⟨0, -1, 0⟩, ⟨0, 0, 1⟩⟩
      ∧ ((eigen33 realOps (diag (1 : ℝ) 1 4)).evecs.data2 = ⟨0, 0, 1⟩
          ∨ (eigen33 realOps (diag (1 : ℝ) 1 4)).evecs.data2 = ⟨0, 0, -1⟩)
      ∧ (eigen33 realOps (diag (1 : ℝ) 1 4)).evecs.data0.z = 0
      ∧ (eigen33 realOps (diag (1 : ℝ) 1 4)).evecs.data1.z = 0
      ∧ (eigen33 realOps (diag (1 : ℝ) 1 4)).evecs.data0.x
            * (eigen33 realOps (diag (1 : ℝ) 1 4)).evecs.data1.y
          - (eigen33 realOps (diag (1 : ℝ) 1 4)).evecs.data0.y
            * (eigen33 realOps (diag (1 : ℝ) 1 4)).evecs.data1.x ≠ 0 := by
  have hscale : eigen33Scale (diag (1 : ℝ) 1 4) = 4 := by
    rw [eigen33Scale_diag]
    have hm : max (max |(1 : ℝ)| |(1 : ℝ)|) |(4 : ℝ)| = 4 := by norm_num
    rw [hm, if_neg]
    unfold FLT_MIN; norm_num
  have hmat : eigen33ScaledMat (diag (1 : ℝ) 1 4) = diag (1 / 4) (1 / 4) 1 := by
    rw [eigen33ScaledMat_diag, hscale]; norm_num
  have hroots := computeRoots_quarter
  have hsel : selectCross (shiftDiag (diag (1 / 4 : ℝ) (1 / 4) 1) 1)
      = ⟨⟨0, 0, 9 / 16⟩, 81 / 256, 0⟩ := by
    simp only [selectCross, shiftDiag, diag, cross, dot]; norm_num
  have hlen : Real.sqrt (81 / 256) = 9 / 16 := by
    rw [show (81 / 256 : ℝ) = (9 / 16) ^ 2 by norm_num]
    exact Real.sqrt_sq (by norm_num)
  have horth : unitOrthogonal realOps (⟨0, 0, 1⟩ : float3 ℝ) = ⟨0, -1, 0⟩ := by
    have hsm : isMuchSmallerThan (0 : ℝ) 1 = true := by
      simp only [isMuchSmallerThan, decide_eq_true_eq]
      have := (FLT_EPSILON_pos : (0 : ℝ) < FLT_EPSILON)
      nlinarith
    simp [unitOrthogonal, hsm]
  have hvec : eigen33Vectors realOps (diag (1 / 4 : ℝ) (1 / 4) 1) ⟨1 / 4, 1 / 4, 1⟩
      = ⟨⟨-1, 0, 0⟩, ⟨0, -1, 0⟩, ⟨0, 0, 1⟩⟩ := by
    unfold eigen33Vectors
    rw [if_neg (FLT_EPSILON_lt_of_le _ (by norm_num)), if_pos]
    · have he2 : float3.sdiv (⟨0, 0, 9 / 16⟩ : float3 ℝ) (9 / 16) = ⟨0, 0, 1⟩ := by
        simp [float3.sdiv]
      simp only [hsel, realOps_sqrt, hlen, he2, horth]
      simp [cross]
    · simp only [sub_self]; exact FLT_EPSILON_pos.le
  have hev : (eigen33 realOps (diag (1 : ℝ) 1 4)).evals = ⟨1, 1, 4⟩ := by
    rw [eigen33_evals_eq, hmat, hroots, hscale]
    simp [float3.smul]
  have hevec : (eigen33 realOps (diag (1 : ℝ) 1 4)).evecs
      = ⟨⟨-1, 0, 0⟩, ⟨0, -1, 0⟩, ⟨0, 0, 1⟩⟩ := by
    rw [eigen33_evecs_eq, hmat, hroots, hvec]
  refine ⟨hev, hevec, ?_, ?_, ?_, ?_⟩
  · left; rw [hevec]
  · rw [hevec]
  · rw [hevec]
  · rw [hevec]; norm_num

/-- C6: for every symmetric 3x3 matrix `m` with `|c0| ≥ FLT_EPSILON`, with
`a_over_3 ≤ 0` and `q ≤ 0` before their clamps, and with smallest sorted
trigonometric root `> 0`, `computeRoots (m)` returns the sorted values of the
closed form, and each of the three is a root of the characteristic polynomial
`x^3 - c2*x^2 + c1*x - c0` with `c0 = det m`, `c1` the sum of the principal
2x2 minors and `c2 = trace m`. -/
theorem computeRoots_trig_are_roots (m : CovarianceMatrix ℝ) (hsym : IsSymmetric m)
    (hc0 : FLT_EPSILON ≤ |charC0 m|)
    (ha : aOver3Unclamped (charC1 m) (charC2 m) ≤ 0)
    (hq : qUnclamped (charC0 m) (charC1 m) (charC2 m) ≤ 0)
    (hpos : 0 < (sortRoots (trigRoots realOps (charC0 m) (charC1 m) (charC2 m))).x) :
    computeRoots realOps m = sortRoots (trigRoots realOps (charC0 m) (charC1 m) (charC2 m))
      ∧ charPoly m (computeRoots realOps m).x = 0
      ∧ charPoly m (computeRoots realOps m).y = 0
      ∧ charPoly m (computeRoots realOps m).z = 0 := by
  have hval : computeRoots realOps m
      = sortRoots (trigRoots realOps (charC0 m) (charC1 m) (charC2 m)) := by
    unfold computeRoots
    simp only [if_neg (not_lt.mpr hc0), if_neg (not_le.mpr hpos)]
  have hP : ∀ x : ℝ, charPoly m x = x ^ 3 - charC2 m * x ^ 2 + charC1 m * x - charC0 m := by
    intro x
    rw [charC0_eq_det3 m hsym, charC1_eq_principalMinorSum m hsym]
    rfl
  obtain ⟨r1, r2, r3⟩ := trigRoots_cubic (charC0 m) (charC1 m) (charC2 m) ha hq
  have := sortRoots_mem (fun x => charPoly m x = 0)
    (trigRoots realOps (charC0 m) (charC1 m) (charC2 m))
    ((hP _).trans r1) ((hP _).trans r2) ((hP _).trans r3)
  rw [hval]
  exact ⟨rfl, this⟩

/-- C6, witness: the matrix `diag (1/4, 1/4, 1)`, whose closed-form roots are
`(1, 1/4, 1/4)`. -/
theorem computeRoots_trig_are_roots_witness :
    IsSymmetric (diag (1 / 4 : ℝ) (1 / 4) 1)
      ∧ FLT_EPSILON ≤ |charC0 (diag (1 / 4 : ℝ) (1 / 4) 1)|
      ∧ (computeRoots realOps (diag (1 / 4 : ℝ) (1 / 4) 1)
          = sortRoots (trigRoots realOps (charC0 (diag (1 / 4 : ℝ) (1 / 4) 1))
              (charC1 (diag (1 / 4 : ℝ) (1 / 4) 1)) (charC2 (diag (1 / 4 : ℝ) (1 / 4) 1)))
        ∧ charPoly (diag (1 / 4 : ℝ) (1 / 4) 1)
            (computeRoots realOps (diag (1 / 4 : ℝ) (1 / 4) 1)).x = 0
        ∧ charPoly (diag (1 / 4 : ℝ) (1 / 4) 1)
            (computeRoots realOps (diag (1 / 4 : ℝ) (1 / 4) 1)).y = 0
        ∧ charPoly (diag (1 / 4 : ℝ) (1 / 4) 1)
            (computeRoots realOps (diag (1 / 4 : ℝ) (1 / 4) 1)).z = 0) := by
  have hc0 : FLT_EPSILON ≤ |charC0 (diag (1 / 4 : ℝ) (1 / 4) 1)| := by
    rw [charC0_quarter, abs_of_pos (by norm_num : (0 : ℝ) < 1 / 16)]
    unfold FLT_EPSILON; norm_num
  refine ⟨isSymmetric_diag _ _ _, hc0,
    computeRoots_trig_are_roots _ (isSymmetric_diag _ _ _) hc0 ?_ ?_ ?_⟩
  · rw [charC1_quarter, charC2_quarter, aOver3_quarter]; norm_num
  · rw [charC0_quarter, charC1_quarter, charC2_quarter, qUnclamped_quarter]
  · rw [charC0_quarter, charC1_quarter, charC2_quarter, trigRoots_quarter, sortRoots_quarter]
    norm_num

/-- C7: for every `b` and `c`, `computeRoots2 (b, c)` returns
`(0, (b - sqrt d)/2, (b + sqrt d)/2)` with `d = max (b*b - 4*c, 0)`; so
`roots.y ≤ roots.z` and `roots.y + roots.z = b` always, and when
`b*b ≥ 4*c` the two roots have product `c` and both solve
`x^2 - b*x + c = 0`. -/
theorem computeRoots2_spec (b c : ℝ) :
    computeRoots2 realOps b c
        = ⟨0, (b - Real.sqrt (max (b * b - 4 * c) 0)) / 2,
              (b + Real.sqrt (max (b * b - 4 * c) 0)) / 2⟩
      ∧ (computeRoots2 realOps b c).y ≤ (computeRoots2 realOps b c).z
      ∧ (computeRoots2 realOps b c).y + (computeRoots2 realOps b c).z = b
      ∧ (b * b ≥ 4 * c →
          (computeRoots2 realOps b c).y * (computeRoots2 realOps b c).z = c
          ∧ (computeRoots2 realOps b c).y ^ 2 - b * (computeRoots2 realOps b c).y + c = 0
          ∧ (computeRoots2 realOps b c).z ^ 2 - b * (computeRoots2 realOps b c).z + c = 0) := by
  have hd : (if b * b - 4 * c < 0 then (0 : ℝ) else b * b - 4 * c) = max (b * b - 4 * c) 0 := by
    split_ifs with h
    · exact (max_eq_right h.le).symm
    · exact (max_eq_left (not_lt.mp h)).symm
  have hs : 0 ≤ Real.sqrt (max (b * b - 4 * c) 0) := Real.sqrt_nonneg _
  have hval : computeRoots2 realOps b c
      = ⟨0, (b - Real.sqrt (max (b * b - 4 * c) 0)) / 2,
            (b + Real.sqrt (max (b * b - 4 * c) 0)) / 2⟩ := by
    simp only [computeRoots2, realOps, hd]
    congr 1 <;> ring
  refine ⟨hval, ?_, ?_, ?_⟩
  · rw [hval]; dsimp only; linarith
  · rw [hval]; dsimp only; ring
  · intro h
    have hmax : max (b * b - 4 * c) 0 = b * b - 4 * c := max_eq_left (by linarith)
    have hsq : Real.sqrt (b * b - 4 * c) * Real.sqrt (b * b - 4 * c) = b * b - 4 * c :=
      Real.mul_self_sqrt (by linarith)
    rw [hval, hmax]; dsimp only
    refine ⟨?_, ?_, ?_⟩ <;> nlinarith [hsq]

/-- C7, witness: `computeRoots2 (3, 2)` returns `(0, 1, 2)`, the roots of
`x^2 - 3*x + 2` after the leading `0`. -/
theorem computeRoots2_spec_witness :
    (3 : ℝ) * 3 ≥ 4 * 2
      ∧ computeRoots2 realOps (3 : ℝ) 2 = ⟨0, 1, 2⟩
      ∧ (computeRoots2 realOps (3 : ℝ) 2).y * (computeRoots2 realOps (3 : ℝ) 2).z = 2
      ∧ (computeRoots2 realOps (3 : ℝ) 2).y ^ 2 - 3 * (computeRoots2 realOps (3 : ℝ) 2).y + 2 = 0
      ∧ (computeRoots2 realOps (3 : ℝ) 2).z ^ 2 - 3 * (computeRoots2 realOps (3 : ℝ) 2).z + 2
          = 0 := by
  have h : (3 : ℝ) * 3 ≥ 4 * 2 := by norm_num
  have hd : max ((3 : ℝ) * 3 - 4 * 2) 0 = 1 := by norm_num
  refine ⟨h, ?_, (computeRoots2_spec 3 2).2.2.2 h⟩
  rw [(computeRoots2_spec 3 2).1, hd, Real.sqrt_one]
  norm_num

/-- C8: for every non-empty finite sequence of `n` points,
`compute3DCentroid` returns their arithmetic mean, and `computeCovariance`
called with that centroid returns the matrix with entries
`C[i][j] = (1/n) * sum_k (p_k - centroid)_i * (p_k - centroid)_j`, for all
`i, j` in `{0, 1, 2}`; the divisor `n` of both is not zero. -/
theorem batch_centroid_covariance {F : Type} [LinearOrderedField F]
    (indet : float3 F → CovarianceMatrix F) (pts : List (float3 F)) (hne : pts ≠ []) :
    (pts.length : F) ≠ 0
      ∧ (∀ i : Fin 3, (compute3DCentroid pts).get i
        = (pts.map (fun p => p.get i)).sum / (pts.length : F))
      ∧ ∀ i j : Fin 3,
        (computeCovariance indet pts (compute3DCentroid pts)).entry i j
          = 1 / (pts.length : F)
            * (pts.map (fun p => (p.sub (compute3DCentroid pts)).get i
                * (p.sub (compute3DCentroid pts)).get j)).sum := by
  refine ⟨?_, ?_, ?_⟩
  · exact Nat.cast_ne_zero.mpr (fun h => hne (List.length_eq_zero.mp h))
  · intro i
    rw [compute3DCentroid_eq]
    fin_cases i <;> rfl
  · intro i j
    rw [computeCovariance_eq]
    fin_cases i <;> fin_cases j <;>
      simp only [CovarianceMatrix.entry, float3.get, float3.sub, div_eq_inv_mul, mul_one]

/-- C8, witness: for the four points `(1,0,0)`, `(-1,0,0)`, `(0,1,0)`,
`(0,-1,0)` the centroid is `(0,0,0)` and the covariance is
`diag (0.5, 0.5, 0)`. -/
theorem batch_centroid_covariance_witness :
    ([⟨1, 0, 0⟩, ⟨-1, 0, 0⟩, ⟨0, 1, 0⟩, ⟨0, -1, 0⟩] : List (float3 ℚ)) ≠ []
      ∧ compute3DCentroid ([⟨1, 0, 0⟩, ⟨-1, 0, 0⟩, ⟨0, 1, 0⟩, ⟨0, -1, 0⟩] : List (float3 ℚ))
          = ⟨0, 0, 0⟩
      ∧ computeCovariance (fun _ => ⟨⟨7, 7, 7⟩, ⟨7, 7, 7⟩, ⟨7, 7, 7⟩⟩)
          ([⟨1, 0, 0⟩, ⟨-1, 0, 0⟩, ⟨0, 1, 0⟩, ⟨0, -1, 0⟩] : List (float3 ℚ))
          (compute3DCentroid ([⟨1, 0, 0⟩, ⟨-1, 0, 0⟩, ⟨0, 1, 0⟩, ⟨0, -1, 0⟩] : List (float3 ℚ)))
          = diag (1 / 2) (1 / 2) 0
      ∧ ((([⟨1, 0, 0⟩, ⟨-1, 0, 0⟩, ⟨0, 1, 0⟩, ⟨0, -1, 0⟩] : List (float3 ℚ)).length : ℚ) ≠ 0
        ∧ (∀ i : Fin 3,
            (compute3DCentroid
                ([⟨1, 0, 0⟩, ⟨-1, 0, 0⟩, ⟨0, 1, 0⟩, ⟨0, -1, 0⟩] : List (float3 ℚ))).get i
              = (([⟨1, 0, 0⟩, ⟨-1, 0, 0⟩, ⟨0, 1, 0⟩, ⟨0, -1, 0⟩] : List (float3 ℚ)).map
                  (fun p => p.get i)).sum
                / (([⟨1, 0, 0⟩, ⟨-1, 0, 0⟩, ⟨0, 1, 0⟩, ⟨0, -1, 0⟩] :
                    List (float3 ℚ)).length : ℚ))
        ∧ ∀ i j : Fin 3,
          (computeCovariance (fun _ => ⟨⟨7, 7, 7⟩, ⟨7, 7, 7⟩, ⟨7, 7, 7⟩⟩)
              ([⟨1, 0, 0⟩, ⟨-1, 0, 0⟩, ⟨0, 1, 0⟩, ⟨0, -1, 0⟩] : List (float3 ℚ))
              (compute3DCentroid
                ([⟨1, 0, 0⟩, ⟨-1, 0, 0⟩, ⟨0, 1, 0⟩, ⟨0, -1, 0⟩] : List (float3 ℚ)))).entry i j
            = 1 / (([⟨1, 0, 0⟩, ⟨-1, 0, 0⟩, ⟨0, 1, 0⟩, ⟨0, -1, 0⟩] :
                    List (float3 ℚ)).length : ℚ)
              * (([⟨1, 0, 0⟩, ⟨-1, 0, 0⟩, ⟨0, 1, 0⟩, ⟨0, -1, 0⟩] : List (float3 ℚ)).map
                  (fun p =>
                    (p.sub (compute3DCentroid
                      ([⟨1, 0, 0⟩, ⟨-1, 0, 0⟩, ⟨0, 1, 0⟩, ⟨0, -1, 0⟩] :
                        List (float3 ℚ)))).get i
                    * (p.sub (compute3DCentroid
                      ([⟨1, 0, 0⟩, ⟨-1, 0, 0⟩, ⟨0, 1, 0⟩, ⟨0, -1, 0⟩] :
                        List (float3 ℚ)))).get j)).sum) :=
  ⟨by simp,
   by
    simp only [compute3DCentroid, transform_reduce, List.foldl, AddPoints, float3.add,
      float3.sdiv, convert_point_to_float3, List.length]
    norm_num,
   by
    simp only [compute3DCentroid, computeCovariance, transform_reduce, List.foldl, AddPoints,
      AddCovariances, ComputeCovarianceForPoint, convert_point_to_float3, make_float3,
      float3.add, float3.sub, float3.smul, float3.sdiv, List.length, diag]
    norm_num,
   batch_centroid_covariance _ _ (by simp)⟩

/-- C9: for every organized cloud and query with at least one accepted pixel
in the search window, the matrix written by `computeCovarianceOnline` equals
the matrix `computeCovariance` produces on the accepted points with their
arithmetic mean as centroid, and the returned count is the number of accepted
points; the count, by which the sums are divided, is not zero. -/
theorem computeCovarianceOnline_eq_batch {F : Type} [LinearOrderedField F] (ops : MathOps F)
    (s : OrganizedRadiusSearch F) (query_pt : float3 F) (sqrt_desired_nr_neighbors : F)
    (indet : float3 F → CovarianceMatrix F) (hne : acceptedPoints ops s query_pt ≠ []) :
    computeCovarianceOnline ops s query_pt sqrt_desired_nr_neighbors
        = (computeCovariance indet (acceptedPoints ops s query_pt)
            (compute3DCentroid (acceptedPoints ops s query_pt)),
           ((acceptedPoints ops s query_pt).length : Int))
      ∧ (computeCovarianceOnline ops s query_pt sqrt_desired_nr_neighbors).2 ≠ 0 := by
  have inv := onlineInv_foldl (acceptedPoints ops s query_pt) []
    ⟨⟨make_float3 0 0 0, make_float3 0 0 0, make_float3 0 0 0⟩, make_float3 0 0 0, 0⟩
    onlineInv_init
  rw [List.nil_append] at inv
  rw [computeCovarianceOnline_state]
  generalize (acceptedPoints ops s query_pt).foldl onlineUpdate
    ⟨⟨make_float3 0 0 0, make_float3 0 0 0, make_float3 0 0 0⟩, make_float3 0 0 0, 0⟩ = st
    at inv ⊢
  generalize acceptedPoints ops s query_pt = acc at inv hne ⊢
  have hlen : acc.length ≠ 0 := fun h => hne (List.length_eq_zero.mp h)
  have hn : (acc.length : F) ≠ 0 := Nat.cast_ne_zero.mpr hlen
  obtain ⟨hcount, mx, my, mz, cxx, cxy, cxz, cyy, cyz, czz⟩ := inv
  have hcast : (st.nnn : F) = (acc.length : F) := by rw [hcount]; simp
  have hc : compute3DCentroid acc = st.centroid := by
    rw [compute3DCentroid_eq, ← mx, ← my, ← mz]
    simp only [mul_div_cancel_left₀ _ hn]
  refine ⟨?_, ?_⟩
  · rw [hc, computeCovariance_eq, hcast, hcount]
    have e (f g : float3 F → F) (a b : F) (hf : (acc.length : F) * a = (acc.map f).sum)
        (hg : (acc.length : F) * b = (acc.map g).sum) :
        (acc.map (fun p => (f p - a) * (g p - b))).sum
          = (acc.map (fun p => f p * g p)).sum - (acc.length : F) * a * b := by
      rw [sum_demean_mul, ← hf, ← hg]; ring
    have exx := e (fun p => p.x) (fun p => p.x) _ _ mx mx
    have exy := e (fun p => p.x) (fun p => p.y) _ _ mx my
    have exz := e (fun p => p.x) (fun p => p.z) _ _ mx mz
    have eyx := e (fun p => p.y) (fun p => p.x) _ _ my mx
    have eyy := e (fun p => p.y) (fun p => p.y) _ _ my my
    have eyz := e (fun p => p.y) (fun p => p.z) _ _ my mz
    have ezx := e (fun p => p.z) (fun p => p.x) _ _ mz mx
    have ezy := e (fun p => p.z) (fun p => p.y) _ _ mz my
    have ezz := e (fun p => p.z) (fun p => p.z) _ _ mz mz
    have syx : (acc.map (fun p => p.y * p.x)).sum = (acc.map (fun p => p.x * p.y)).sum := by
      congr 2; funext p; ring
    have szx : (acc.map (fun p => p.z * p.x)).sum = (acc.map (fun p => p.x * p.z)).sum := by
      congr 2; funext p; ring
    have szy : (acc.map (fun p => p.z * p.y)).sum = (acc.map (fun p => p.y * p.z)).sum := by
      congr 2; funext p; ring
    simp only [exx, exy, exz, eyx, eyy, eyz, ezx, ezy, ezz, syx, szx, szy, cxx, cxy, cxz, cyy,
      cyz, czz]
    have cyx : (acc.length : F) * st.centroid.y * st.centroid.x
        = (acc.length : F) * st.centroid.x * st.centroid.y := by ring
    have czx : (acc.length : F) * st.centroid.z * st.centroid.x
        = (acc.length : F) * st.centroid.x * st.centroid.z := by ring
    have czy : (acc.length : F) * st.centroid.z * st.centroid.y
        = (acc.length : F) * st.centroid.y * st.centroid.z := by ring
    rw [cyx, czx, czy]
  · show st.nnn ≠ 0
    rw [hcount]
    exact_mod_cast hlen

/-- C9, witness: on the two-pixel cloud with query `(0, 0, 1)` both pixels
are accepted; the one-pass result is the matrix with `C[0][0] = 1/16` and
zero elsewhere, and the count `2`. -/
theorem computeCovarianceOnline_eq_batch_witness :
    acceptedPoints realOps (twoPixelCloud : OrganizedRadiusSearch ℝ) ⟨0, 0, 1⟩ ≠ []
      ∧ computeCovarianceOnline realOps (twoPixelCloud : OrganizedRadiusSearch ℝ) ⟨0, 0, 1⟩ 1
          = (⟨⟨1 / 16, 0, 0⟩, ⟨0, 0, 0⟩, ⟨0, 0, 0⟩⟩, 2)
      ∧ (computeCovarianceOnline realOps (twoPixelCloud : OrganizedRadiusSearch ℝ) ⟨0, 0, 1⟩ 1
          = (computeCovariance (fun _ => ⟨⟨0, 0, 0⟩, ⟨0, 0, 0⟩, ⟨0, 0, 0⟩⟩)
              (acceptedPoints realOps (twoPixelCloud : OrganizedRadiusSearch ℝ) ⟨0, 0, 1⟩)
              (compute3DCentroid
                (acceptedPoints realOps (twoPixelCloud : OrganizedRadiusSearch ℝ) ⟨0, 0, 1⟩)),
             ((acceptedPoints realOps (twoPixelCloud : OrganizedRadiusSearch ℝ)
                ⟨0, 0, 1⟩).length : Int))
        ∧ (computeCovarianceOnline realOps (twoPixelCloud : OrganizedRadiusSearch ℝ)
            ⟨0, 0, 1⟩ 1).2 ≠ 0) := by
  have hne : acceptedPoints realOps (twoPixelCloud : OrganizedRadiusSearch ℝ) ⟨0, 0, 1⟩ ≠ [] := by
    rw [twoPixelCloud_accepted]; simp
  have main := computeCovarianceOnline_eq_batch realOps (twoPixelCloud : OrganizedRadiusSearch ℝ)
    ⟨0, 0, 1⟩ 1 (fun _ => ⟨⟨0, 0, 0⟩, ⟨0, 0, 0⟩, ⟨0, 0, 0⟩⟩) hne
  refine ⟨hne, ?_, main⟩
  rw [main.1, twoPixelCloud_accepted, compute3DCentroid_eq, computeCovariance_eq]
  simp only [List.map_cons, List.map_nil, List.sum_cons, List.sum_nil, List.length_cons,
    List.length_nil]
  norm_num

/-- C10: for every query point and every cloud with `width ≥ 1` and
`height ≥ 1`, the rectangle `(min_x, max_x, min_y, max_y)` returned by
`getProjectedRadiusSearchBox` has `0 ≤ min_x ≤ width-1`,
`0 ≤ max_x ≤ width-1`, `0 ≤ min_y ≤ height-1` and `0 ≤ max_y ≤ height-1`,
whatever the library functions return. -/
theorem getProjectedRadiusSearchBox_in_image {F : Type} [LinearOrderedField F]
    (ops : MathOps F) (s : OrganizedRadiusSearch F) (point_arg : float3 F)
    (hw : 1 ≤ s.width_) (hh : 1 ≤ s.height_) :
    (0 ≤ (getProjectedRadiusSearchBox ops s point_arg).x
        ∧ (getProjectedRadiusSearchBox ops s point_arg).x ≤ s.width_ - 1)
      ∧ (0 ≤ (getProjectedRadiusSearchBox ops s point_arg).y
        ∧ (getProjectedRadiusSearchBox ops s point_arg).y ≤ s.width_ - 1)
      ∧ (0 ≤ (getProjectedRadiusSearchBox ops s point_arg).z
        ∧ (getProjectedRadiusSearchBox ops s point_arg).z ≤ s.height_ - 1)
      ∧ (0 ≤ (getProjectedRadiusSearchBox ops s point_arg).w
        ∧ (getProjectedRadiusSearchBox ops s point_arg).w ≤ s.height_ - 1) := by
  have hw' : (0 : Int) ≤ s.width_ - 1 := by omega
  have hh' : (0 : Int) ≤ s.height_ - 1 := by omega
  simp only [getProjectedRadiusSearchBox]
  exact ⟨clamp_mem _ _ _ hw', clamp_mem _ _ _ hw', clamp_mem _ _ _ hh', clamp_mem _ _ _ hh'⟩

/-- C10, witness: a 640 x 480 cloud of invalid points, focal length `525`,
squared radius `1/100`, and the query `(0, 0, 2)`. -/
theorem getProjectedRadiusSearchBox_in_image_witness :
    (1 : Int) ≤ 640 ∧ (1 : Int) ≤ 480
      ∧ ((0 ≤ (getProjectedRadiusSearchBox realOps
              ⟨525, fun _ => ⟨none, none, none⟩, 640, 480, 1 / 100⟩ ⟨0, 0, 2⟩).x
          ∧ (getProjectedRadiusSearchBox realOps
              ⟨525, fun _ => ⟨none, none, none⟩, 640, 480, 1 / 100⟩ ⟨0, 0, 2⟩).x ≤ 640 - 1)
        ∧ (0 ≤ (getProjectedRadiusSearchBox realOps
              ⟨525, fun _ => ⟨none, none, none⟩, 640, 480, 1 / 100⟩ ⟨0, 0, 2⟩).y
          ∧ (getProjectedRadiusSearchBox realOps
              ⟨525, fun _ => ⟨none, none, none⟩, 640, 480, 1 / 100⟩ ⟨0, 0, 2⟩).y ≤ 640 - 1)
        ∧ (0 ≤ (getProjectedRadiusSearchBox realOps
              ⟨525, fun _ => ⟨none, none, none⟩, 640, 480, 1 / 100⟩ ⟨0, 0, 2⟩).z
          ∧ (getProjectedRadiusSearchBox realOps
              ⟨525, fun _ => ⟨none, none, none⟩, 640, 480, 1 / 100⟩ ⟨0, 0, 2⟩).z ≤ 480 - 1)
        ∧ (0 ≤ (getProjectedRadiusSearchBox realOps
              ⟨525, fun _ => ⟨none, none, none⟩, 640, 480, 1 / 100⟩ ⟨0, 0, 2⟩).w
          ∧ (getProjectedRadiusSearchBox realOps
              ⟨525, fun _ => ⟨none, none, none⟩, 640, 480, 1 / 100⟩ ⟨0, 0, 2⟩).w ≤ 480 - 1)) :=
  ⟨by decide, by decide,
   getProjectedRadiusSearchBox_in_image realOps
     ⟨525, fun _ => ⟨none, none, none⟩, 640, 480, 1 / 100⟩ ⟨0, 0, 2⟩ (by decide) (by decide)⟩

/-- C11: search window soundness. For every focal length `f > 0`, every
query point `q` and radius `r` with `q.z > r > 0` and `sqr_radius_ = r²`, and
every point `p` with `p.z > 0` and `|p - q|² ≤ r²`, the pinhole projection
`(f p.x / p.z + width / 2, f p.y / p.z + height / 2)` of `p` lies in the
rectangle of `getProjectedRadiusSearchBox` before the clamp:
`floor bounds.x ≤ f p.x / p.z + width / 2 ≤ ceil bounds.y` and
`floor bounds.z ≤ f p.y / p.z + height / 2 ≤ ceil bounds.w`. -/
theorem searchWindow_sound (s : OrganizedRadiusSearch ℝ) (q p : float3 ℝ) (r : ℝ)
    (hf : 0 < s.focalLength_) (hr : 0 < r) (hqz : r < q.z) (hsq : s.sqr_radius_ = r ^ 2)
    (hpz : 0 < p.z) (hd : dot (p.sub q) (p.sub q) ≤ r ^ 2) :
    ((realOps.floor (projectedBounds realOps s q).x : ℝ)
          ≤ s.focalLength_ * p.x / p.z + (s.width_ : ℝ) / 2
        ∧ s.focalLength_ * p.x / p.z + (s.width_ : ℝ) / 2
          ≤ (realOps.ceil (projectedBounds realOps s q).y : ℝ))
      ∧ ((realOps.floor (projectedBounds realOps s q).z : ℝ)
          ≤ s.focalLength_ * p.y / p.z + (s.height_ : ℝ) / 2
        ∧ s.focalLength_ * p.y / p.z + (s.height_ : ℝ) / 2
          ≤ (realOps.ceil (projectedBounds realOps s q).w : ℝ)) := by
  have hA : 0 < q.z * q.z - s.sqr_radius_ := by rw [hsq]; nlinarith
  simp only [dot, float3.sub] at hd
  rw [← hsq] at hd
  have hx := slope_in_bounds q.x q.z s.sqr_radius_ p.x p.z hA hpz.ne.symm
    (by nlinarith [mul_self_nonneg (p.y - q.y)])
  have hy := slope_in_bounds q.y q.z s.sqr_radius_ p.y p.z hA hpz.ne.symm
    (by nlinarith [mul_self_nonneg (p.x - q.x)])
  have ex : s.focalLength_ * p.x / p.z = p.x / p.z * s.focalLength_ := by ring
  have ey : s.focalLength_ * p.y / p.z = p.y / p.z * s.focalLength_ := by ring
  simp only [projectedBounds, realOps]
  rw [ex, ey]
  refine ⟨⟨?_, ?_⟩, ⟨?_, ?_⟩⟩
  · exact (Int.floor_le _).trans (add_le_add_right (mul_le_mul_of_nonneg_right hx.1 hf.le) _)
  · exact (add_le_add_right (mul_le_mul_of_nonneg_right hx.2 hf.le) _).trans (Int.le_ceil _)
  · exact (Int.floor_le _).trans (add_le_add_right (mul_le_mul_of_nonneg_right hy.1 hf.le) _)
  · exact (add_le_add_right (mul_le_mul_of_nonneg_right hy.2 hf.le) _).trans (Int.le_ceil _)

/-- C11 witness: focal length `525`, a 640 x 480 image, radius `1/10`, query
`(0, 0, 2)` and the neighbour `(1/20, 0, 2)`. -/
theorem searchWindow_sound_witness :
    (0 : ℝ) < 525 ∧ (0 : ℝ) < 1 / 10 ∧ (1 / 10 : ℝ) < 2
      ∧ ((realOps.floor (projectedBounds realOps
            ⟨525, fun _ => ⟨none, none, none⟩, 640, 480, 1 / 100⟩ ⟨0, 0, 2⟩).x : ℝ)
          ≤ 525 * (1 / 20) / 2 + ((640 : ℤ) : ℝ) / 2
        ∧ 525 * (1 / 20) / 2 + ((640 : ℤ) : ℝ) / 2
          ≤ (realOps.ceil (projectedBounds realOps
            ⟨525, fun _ => ⟨none, none, none⟩, 640, 480, 1 / 100⟩ ⟨0, 0, 2⟩).y : ℝ)) :=
  ⟨by norm_num, by norm_num, by norm_num,
    (searchWindow_sound ⟨525, fun _ => ⟨none, none, none⟩, 640, 480, 1 / 100⟩ ⟨0, 0, 2⟩
      ⟨1 / 20, 0, 2⟩ (1 / 10) (by norm_num) (by norm_num) (by norm_num) (by norm_num)
      (by norm_num) (by simp only [dot, float3.sub]; norm_num)).1⟩

/-- C12 (as stated, refuted): for the cloud header with `width_ = 0` and
`height_ = 2` whose buffer holds `(0, 0, 1)` at index `0`, the query
`(0, 0, 1)` and the cap `2`, the window is the column `x = 0` with the rows
`0` and `1`; both pixels have the buffer index `y * 0 + 0 = 0` and both are
accepted, so `radiusSearch` returns `2` and writes `k_indices[0] = 0` and
`k_indices[1] = 0`: the entries are not pairwise distinct. -/
theorem radiusSearch_distinct_counterexample :
    (0 : Int) ≤ 2
      ∧ (radiusSearch realOps (zeroWidthCloud : OrganizedRadiusSearch ℝ) ⟨0, 0, 1⟩
          (fun _ => -1) 2).2 = 2
      ∧ (radiusSearch realOps (zeroWidthCloud : OrganizedRadiusSearch ℝ) ⟨0, 0, 1⟩
          (fun _ => -1) 2).1 0 = 0
      ∧ (radiusSearch realOps (zeroWidthCloud : OrganizedRadiusSearch ℝ) ⟨0, 0, 1⟩
          (fun _ => -1) 2).1 1 = 0 := by
  rw [radiusSearch_eq, zeroWidthCloud_acceptedColumnPixels]
  simp [pixelIndex, zeroWidthCloud, writeFrom, Function.update]

/-- C12 (amended): for every cloud with `width_ ≥ 1`, every query and every
cap `max_nnn ≥ 0`, `radiusSearch` returns `n = min (max_nnn, A)`, where `A`
is the number of accepted pixels of the search window (the same number as the
row-wise scan of `computeCovarianceOnline` accepts); each entry
`k_indices[i]` with `0 ≤ i < n` is the buffer index of an accepted pixel of
the window, these entries are pairwise distinct, and every other entry of
`k_indices`, so every entry at a position `≥ max_nnn`, is left as it was. -/
theorem radiusSearch_count_writes {F : Type} [LinearOrderedField F] (ops : MathOps F)
    (s : OrganizedRadiusSearch F) (query_pt : float3 F) (k_indices : Int → Int) (max_nnn : Int)
    (hw : 1 ≤ s.width_) (hcap : 0 ≤ max_nnn) :
    (radiusSearch ops s query_pt k_indices max_nnn).2
        = min max_nnn ((acceptedColumnPixels ops s query_pt).length : Int)
      ∧ (acceptedColumnPixels ops s query_pt).length = (acceptedPoints ops s query_pt).length
      ∧ (∀ i : Nat, (i : Int) < (radiusSearch ops s query_pt k_indices max_nnn).2 →
          ∃ yx : Int × Int, yx ∈ windowPixels ops s query_pt
            ∧ (acceptedPoint s query_pt yx).isSome
            ∧ (radiusSearch ops s query_pt k_indices max_nnn).1 i = yx.1 * s.width_ + yx.2)
      ∧ (∀ i j : Nat, i < j → (j : Int) < (radiusSearch ops s query_pt k_indices max_nnn).2 →
          (radiusSearch ops s query_pt k_indices max_nnn).1 i
            ≠ (radiusSearch ops s query_pt k_indices max_nnn).1 j)
      ∧ (∀ i : Int, (i < 0 ∨ (radiusSearch ops s query_pt k_indices max_nnn).2 ≤ i) →
          (radiusSearch ops s query_pt k_indices max_nnn).1 i = k_indices i)
      ∧ (∀ i : Int, max_nnn ≤ i →
          (radiusSearch ops s query_pt k_indices max_nnn).1 i = k_indices i) := by
  rw [radiusSearch_eq]
  dsimp only
  have hnd := acceptedIndices_nodup ops s query_pt hw
  generalize hL : (acceptedColumnPixels ops s query_pt).map (pixelIndex s) = L at hnd ⊢
  have hlenL : L.length = (acceptedColumnPixels ops s query_pt).length := by
    rw [← hL, List.length_map]
  have hlenT : ((L.take max_nnn.toNat).length : Int)
      = min max_nnn ((acceptedColumnPixels ops s query_pt).length : Int) := by
    rw [List.length_take, hlenL, Nat.cast_min, Int.toNat_of_nonneg hcap]
  have hentry : ∀ i : Nat, (i : Int) < ((L.take max_nnn.toNat).length : Int) →
      ∃ v, (L.take max_nnn.toNat)[i]? = some v ∧ L[i]? = some v
        ∧ writeFrom k_indices 0 (L.take max_nnn.toNat) i = v := by
    intro i hi
    have hi' : i < (L.take max_nnn.toNat).length := by exact_mod_cast hi
    have hi2 : i < max_nnn.toNat := by
      rw [List.length_take] at hi'; omega
    refine ⟨(L.take max_nnn.toNat)[i], List.getElem?_eq_getElem hi', ?_, ?_⟩
    · rw [← List.getElem?_take_of_lt hi2, List.getElem?_eq_getElem hi']
    · have := writeFrom_entry (L.take max_nnn.toNat) k_indices 0 i _
        (List.getElem?_eq_getElem hi')
      rwa [zero_add] at this
  have hout : ∀ i : Int, (i < 0 ∨ ((L.take max_nnn.toNat).length : Int) ≤ i) →
      writeFrom k_indices 0 (L.take max_nnn.toNat) i = k_indices i := by
    intro i hi
    exact writeFrom_outside _ _ _ _ (by rwa [zero_add])
  refine ⟨hlenT, acceptedColumnPixels_length ops s query_pt, ?_, ?_, hout, ?_⟩
  · intro i hi
    obtain ⟨v, _, hv, hw'⟩ := hentry i hi
    rw [← hL, List.getElem?_map] at hv
    obtain ⟨yx, hyx, rfl⟩ := Option.map_eq_some'.mp hv
    have hmem := List.getElem?_mem hyx
    obtain ⟨hcol, hacc⟩ := List.mem_filter.mp hmem
    exact ⟨yx, (columnPixels_perm ops s query_pt).mem_iff.mp hcol, hacc, hw'⟩
  · intro i j hij hj
    obtain ⟨vj, hj1, _, hj2⟩ := hentry j hj
    obtain ⟨vi, hi1, _, hi2⟩ := hentry i (by omega)
    rw [hi2, hj2]
    intro h
    subst h
    have hndT : (L.take max_nnn.toNat).Nodup := hnd.sublist (List.take_sublist _ _)
    have hjlt : j < (L.take max_nnn.toNat).length := by exact_mod_cast hj
    have hilt : i < (L.take max_nnn.toNat).length := by omega
    have e1 := List.getElem?_eq_getElem hilt
    have e2 := List.getElem?_eq_getElem hjlt
    have : (L.take max_nnn.toNat)[i] = (L.take max_nnn.toNat)[j] := by
      apply Option.some.inj
      rw [← e1, ← e2, hi1, hj1]
    have := (hndT.getElem_inj_iff).mp this
    omega
  · intro i hi
    exact hout i (Or.inr (by rw [hlenT]; exact (min_le_left _ _).trans hi))

/-- C12 witness of the amended statement: the two-pixel cloud (width `2`),
the query `(0, 0, 1)` and the cap `1`; both pixels are accepted and one index
is returned. -/
theorem radiusSearch_count_writes_witness :
    (1 : Int) ≤ (twoPixelCloud : OrganizedRadiusSearch ℝ).width_ ∧ (0 : Int) ≤ 1
      ∧ (radiusSearch realOps (twoPixelCloud : OrganizedRadiusSearch ℝ) ⟨0, 0, 1⟩
          (fun _ => -1) 1).2 = 1
      ∧ (radiusSearch realOps (twoPixelCloud : OrganizedRadiusSearch ℝ) ⟨0, 0, 1⟩
          (fun _ => -1) 1).1 1 = -1 := by
  have hw : (1 : Int) ≤ (twoPixelCloud : OrganizedRadiusSearch ℝ).width_ := by
    simp only [twoPixelCloud]; decide
  have main := radiusSearch_count_writes realOps (twoPixelCloud : OrganizedRadiusSearch ℝ)
    ⟨0, 0, 1⟩ (fun _ => -1) 1 hw (by decide)
  refine ⟨hw, by decide, ?_, main.2.2.2.2.2 1 le_rfl⟩
  rw [main.1, main.2.1, twoPixelCloud_accepted]
  decide

/-- C13 (as stated, refuted): on the cloud of two rows and two columns in
which every pixel is accepted for the query `(0, 0, 1)`, `radiusSearch` with
the cap `4` writes the indices `0, 2, 1, 3`, which are not increasing, and
with the cap `2` it writes `0, 2`, while the first two accepted pixels row by
row have the indices `0, 1`. -/
theorem radiusSearch_row_major_counterexample :
    (radiusSearch realOps (fourPixelCloud : OrganizedRadiusSearch ℝ) ⟨0, 0, 1⟩
        (fun _ => -1) 4).2 = 4
      ∧ (radiusSearch realOps (fourPixelCloud : OrganizedRadiusSearch ℝ) ⟨0, 0, 1⟩
          (fun _ => -1) 4).1 0 = 0
      ∧ (radiusSearch realOps (fourPixelCloud : OrganizedRadiusSearch ℝ) ⟨0, 0, 1⟩
          (fun _ => -1) 4).1 1 = 2
      ∧ (radiusSearch realOps (fourPixelCloud : OrganizedRadiusSearch ℝ) ⟨0, 0, 1⟩
          (fun _ => -1) 4).1 2 = 1
      ∧ (radiusSearch realOps (fourPixelCloud : OrganizedRadiusSearch ℝ) ⟨0, 0, 1⟩
          (fun _ => -1) 4).1 3 = 3
      ∧ ¬ ((radiusSearch realOps (fourPixelCloud : OrganizedRadiusSearch ℝ) ⟨0, 0, 1⟩
            (fun _ => -1) 4).1 1
          < (radiusSearch realOps (fourPixelCloud : OrganizedRadiusSearch ℝ) ⟨0, 0, 1⟩
            (fun _ => -1) 4).1 2)
      ∧ (radiusSearch realOps (fourPixelCloud : OrganizedRadiusSearch ℝ) ⟨0, 0, 1⟩
          (fun _ => -1) 2).2 = 2
      ∧ (radiusSearch realOps (fourPixelCloud : OrganizedRadiusSearch ℝ) ⟨0, 0, 1⟩
          (fun _ => -1) 2).1 0 = 0
      ∧ (radiusSearch realOps (fourPixelCloud : OrganizedRadiusSearch ℝ) ⟨0, 0, 1⟩
          (fun _ => -1) 2).1 1 = 2
      ∧ (((windowPixels realOps (fourPixelCloud : OrganizedRadiusSearch ℝ) ⟨0, 0, 1⟩).filter
            (fun yx => (acceptedPoint (fourPixelCloud : OrganizedRadiusSearch ℝ) ⟨0, 0, 1⟩
              yx).isSome)).map (pixelIndex (fourPixelCloud : OrganizedRadiusSearch ℝ))).take 2
          = [0, 1] := by
  have hr1 : loopRange 0 1 = [0, 1] := by decide
  have hall : ∀ yx ∈ columnPixels realOps (fourPixelCloud : OrganizedRadiusSearch ℝ) ⟨0, 0, 1⟩,
      (acceptedPoint (fourPixelCloud : OrganizedRadiusSearch ℝ) ⟨0, 0, 1⟩ yx).isSome = true := by
    intro yx h
    have h' : yx ∈ acceptedColumnPixels realOps (fourPixelCloud : OrganizedRadiusSearch ℝ)
        ⟨0, 0, 1⟩ := by
      rw [fourPixelCloud_acceptedColumnPixels]
      simpa [columnPixels, fourPixelCloud_box, hr1] using h
    exact (List.mem_filter.mp h').2
  have hrow : (windowPixels realOps (fourPixelCloud : OrganizedRadiusSearch ℝ) ⟨0, 0, 1⟩).filter
      (fun yx => (acceptedPoint (fourPixelCloud : OrganizedRadiusSearch ℝ) ⟨0, 0, 1⟩ yx).isSome)
      = [(0, 0), (0, 1), (1, 0), (1, 1)] := by
    rw [List.filter_eq_self.mpr]
    · simp [windowPixels, fourPixelCloud_box, hr1]
    · intro yx h
      exact hall yx ((columnPixels_perm _ _ _).mem_iff.mpr h)
  rw [hrow, radiusSearch_eq, radiusSearch_eq, fourPixelCloud_acceptedColumnPixels]
  simp [pixelIndex, fourPixelCloud, writeFrom, Function.update]

/-- C13 (amended): for every cloud, query and cap, the pixel indices that
`radiusSearch` writes are in column-major scan order. The accepted pixels of
the window, listed by increasing column `x` and within a column by increasing
row `y` (all accepted pixels of a column precede those of the next column),
are `acceptedColumnPixels`; entry `k_indices[i]`, for `0 ≤ i < n` with `n` the
count returned, is the buffer index of the `i`-th pixel of that list, and `n`
is the length of the list cut at `max_nnn`: when the cap is reached the result
is the first `max_nnn` accepted pixels in column-major order. -/
theorem radiusSearch_column_major {F : Type} [LinearOrderedField F] (ops : MathOps F)
    (s : OrganizedRadiusSearch F) (query_pt : float3 F) (k_indices : Int → Int)
    (max_nnn : Int) :
    List.Pairwise (fun a b : Int × Int => a.2 < b.2 ∨ (a.2 = b.2 ∧ a.1 < b.1))
        (acceptedColumnPixels ops s query_pt)
      ∧ (∀ yx : Int × Int, yx ∈ acceptedColumnPixels ops s query_pt
          ↔ yx ∈ windowPixels ops s query_pt ∧ (acceptedPoint s query_pt yx).isSome)
      ∧ (radiusSearch ops s query_pt k_indices max_nnn).2
          = (((acceptedColumnPixels ops s query_pt).take max_nnn.toNat).length : Int)
      ∧ (∀ i : Nat, (i : Int) < (radiusSearch ops s query_pt k_indices max_nnn).2 →
          ∃ yx : Int × Int, (acceptedColumnPixels ops s query_pt)[i]? = some yx
            ∧ (radiusSearch ops s query_pt k_indices max_nnn).1 i
              = yx.1 * s.width_ + yx.2) := by
  refine ⟨(columnPixels_increasing ops s query_pt).filter _, ?_, ?_, ?_⟩
  · intro yx
    unfold acceptedColumnPixels
    rw [List.mem_filter, (columnPixels_perm ops s query_pt).mem_iff]
  · rw [radiusSearch_eq]
    simp only [List.length_take, List.length_map]
  · rw [radiusSearch_eq]
    dsimp only
    intro i hi
    have hi' : i < (((acceptedColumnPixels ops s query_pt).map (pixelIndex s)).take
        max_nnn.toNat).length := by exact_mod_cast hi
    have hi2 : i < max_nnn.toNat := by
      rw [List.length_take] at hi'; omega
    have hi3 : i < (acceptedColumnPixels ops s query_pt).length := by
      rw [List.length_take, List.length_map] at hi'; omega
    refine ⟨(acceptedColumnPixels ops s query_pt)[i], List.getElem?_eq_getElem hi3, ?_⟩
    have := writeFrom_entry (((acceptedColumnPixels ops s query_pt).map (pixelIndex s)).take
      max_nnn.toNat) k_indices 0 i (pixelIndex s (acceptedColumnPixels ops s query_pt)[i])
      (by rw [List.getElem?_take_of_lt hi2, List.getElem?_map, List.getElem?_eq_getElem hi3]
          rfl)
    rwa [zero_add] at this

/-- C14: invalid-point robustness. The count and the matrix of
`computeCovarianceOnline` and the centroid of `computeCentroid` are determined
by the scan-ordered list of accepted points (valid and in radius) of the
window: another cloud, query and stride argument with the same list give the
same results. The count is the length of that list; every accepted pixel holds
a valid point within the radius, and a pixel with an invalid point is not
accepted. Two clouds with the same geometry that differ only at pixels holding
an invalid point in one and a non-accepted point in the other give the same
count, matrix and centroid. -/
theorem invalid_point_robustness {F : Type} [LinearOrderedField F] (ops : MathOps F)
    (s t : OrganizedRadiusSearch F) (query_pt : float3 F) (cov : CovarianceMatrix F)
    (sqrt_desired_nr_neighbors : F)
    (hf : t.focalLength_ = s.focalLength_) (hw : t.width_ = s.width_)
    (hh : t.height_ = s.height_) (hr : t.sqr_radius_ = s.sqr_radius_)
    (hpts : ∀ idx : Int, t.points_ idx = s.points_ idx
      ∨ ((s.points_ idx).invalid ∧ acceptedOf t.sqr_radius_ query_pt (t.points_ idx) = none)
      ∨ ((t.points_ idx).invalid ∧ acceptedOf s.sqr_radius_ query_pt (s.points_ idx) = none)) :
    (∀ (u : OrganizedRadiusSearch F) (query_u : float3 F) (d : F),
        acceptedPoints ops u query_u = acceptedPoints ops s query_pt →
          computeCovarianceOnline ops u query_u d
              = computeCovarianceOnline ops s query_pt sqrt_desired_nr_neighbors
            ∧ (computeCentroid ops u query_u cov d).1
              = (computeCentroid ops s query_pt cov sqrt_desired_nr_neighbors).1)
      ∧ (computeCovarianceOnline ops s query_pt sqrt_desired_nr_neighbors).2
          = ((acceptedPoints ops s query_pt).length : Int)
      ∧ (∀ (yx : Int × Int) (p : float3 F), acceptedPoint s query_pt yx = some p →
          s.points_ (yx.1 * s.width_ + yx.2) = ⟨some p.x, some p.y, some p.z⟩
            ∧ dot (p.sub query_pt) (p.sub query_pt) ≤ s.sqr_radius_)
      ∧ (∀ yx : Int × Int, (s.points_ (yx.1 * s.width_ + yx.2)).invalid →
          acceptedPoint s query_pt yx = none)
      ∧ acceptedPoints ops t query_pt = acceptedPoints ops s query_pt
      ∧ computeCovarianceOnline ops t query_pt sqrt_desired_nr_neighbors
          = computeCovarianceOnline ops s query_pt sqrt_desired_nr_neighbors
      ∧ (computeCentroid ops t query_pt cov sqrt_desired_nr_neighbors).1
          = (computeCentroid ops s query_pt cov sqrt_desired_nr_neighbors).1 := by
  have hfun : ∀ (u : OrganizedRadiusSearch F) (query_u : float3 F) (d : F),
      acceptedPoints ops u query_u = acceptedPoints ops s query_pt →
        computeCovarianceOnline ops u query_u d
            = computeCovarianceOnline ops s query_pt sqrt_desired_nr_neighbors
          ∧ (computeCentroid ops u query_u cov d).1
            = (computeCentroid ops s query_pt cov sqrt_desired_nr_neighbors).1 := by
    intro u query_u d h
    constructor
    · rw [computeCovarianceOnline_locals, computeCovarianceOnline_locals,
        computeCovarianceOnlineLocals_eq, computeCovarianceOnlineLocals_eq, h]
    · rw [computeCentroid_eq, computeCentroid_eq, h]
  have hinv : ∀ (r : F) (pt : PointXYZRGB F), pt.invalid → acceptedOf r query_pt pt = none := by
    intro r pt h
    obtain ⟨_ | px, _ | py, _ | pz⟩ := pt <;> first | rfl | skip
    rcases h with h | h | h <;> simp at h
  have hbox : getProjectedRadiusSearchBox ops t query_pt
      = getProjectedRadiusSearchBox ops s query_pt := by
    simp only [getProjectedRadiusSearchBox, projectedBounds, hf, hw, hh, hr]
  have hacc : ∀ yx : Int × Int, acceptedPoint t query_pt yx = acceptedPoint s query_pt yx := by
    intro yx
    rw [acceptedPoint_eq_acceptedOf, acceptedPoint_eq_acceptedOf, hw]
    rcases hpts (yx.1 * s.width_ + yx.2) with h | ⟨h1, h2⟩ | ⟨h1, h2⟩
    · rw [h, hr]
    · rw [h2, hinv _ _ h1]
    · rw [h2, hinv _ _ h1]
  have hlist : acceptedPoints ops t query_pt = acceptedPoints ops s query_pt := by
    simp only [acceptedPoints, windowPixels, hbox]
    congr 1
    funext yx
    exact hacc yx
  refine ⟨hfun, ?_, ?_, ?_, hlist, (hfun t query_pt _ hlist).1, (hfun t query_pt _ hlist).2⟩
  · have inv := onlineInv_foldl (acceptedPoints ops s query_pt) []
      ⟨⟨make_float3 0 0 0, make_float3 0 0 0, make_float3 0 0 0⟩, make_float3 0 0 0, 0⟩
      onlineInv_init
    rw [List.nil_append, ← computeCovarianceOnlineLocals_eq] at inv
    rw [computeCovarianceOnline_locals]
    exact inv.count
  · intro yx p h
    rw [acceptedPoint_eq_acceptedOf] at h
    generalize s.points_ (yx.1 * s.width_ + yx.2) = pt at h ⊢
    obtain ⟨_ | px, _ | py, _ | pz⟩ := pt <;> simp only [acceptedOf] at h <;> try cases h
    split_ifs at h with hd
    obtain rfl := Option.some.inj h
    exact ⟨rfl, hd⟩
  · intro yx h
    rw [acceptedPoint_eq_acceptedOf]
    exact hinv _ _ h

/-- C14 witness: two clouds of two pixels that hold `(0, 0, 1)` at pixel `0`;
at pixel `1` one holds the point `(5, 0, 1)`, out of the radius of the query
`(0, 0, 1)`, the other a point whose `x` is not-a-number. -/
theorem invalid_point_robustness_witness :
    (∀ idx : Int,
        (pairCloud ⟨none, some 0, some 1⟩ : OrganizedRadiusSearch ℝ).points_ idx
            = (pairCloud ⟨some 5, some 0, some 1⟩ : OrganizedRadiusSearch ℝ).points_ idx
          ∨ (((pairCloud ⟨some 5, some 0, some 1⟩ : OrganizedRadiusSearch ℝ).points_ idx).invalid
            ∧ acceptedOf (pairCloud ⟨none, some 0, some 1⟩ : OrganizedRadiusSearch ℝ).sqr_radius_
                ⟨0, 0, 1⟩
                ((pairCloud ⟨none, some 0, some 1⟩ : OrganizedRadiusSearch ℝ).points_ idx) = none)
          ∨ (((pairCloud ⟨none, some 0, some 1⟩ : OrganizedRadiusSearch ℝ).points_ idx).invalid
            ∧ acceptedOf (pairCloud ⟨some 5, some 0, some 1⟩ : OrganizedRadiusSearch ℝ).sqr_radius_
                ⟨0, 0, 1⟩
                ((pairCloud ⟨some 5, some 0, some 1⟩ : OrganizedRadiusSearch ℝ).points_ idx)
                  = none))
      ∧ computeCovarianceOnline realOps (pairCloud ⟨none, some 0, some 1⟩) ⟨0, 0, 1⟩ 1
          = computeCovarianceOnline realOps (pairCloud ⟨some 5, some 0, some 1⟩) ⟨0, 0, 1⟩ 1
      ∧ (computeCentroid realOps (pairCloud ⟨none, some 0, some 1⟩) ⟨0, 0, 1⟩
            ⟨⟨0, 0, 0⟩, ⟨0, 0, 0⟩, ⟨0, 0, 0⟩⟩ 1).1
          = (computeCentroid realOps (pairCloud ⟨some 5, some 0, some 1⟩) ⟨0, 0, 1⟩
            ⟨⟨0, 0, 0⟩, ⟨0, 0, 0⟩, ⟨0, 0, 0⟩⟩ 1).1 := by
  have hpts : ∀ idx : Int,
      (pairCloud ⟨none, some 0, some 1⟩ : OrganizedRadiusSearch ℝ).points_ idx
          = (pairCloud ⟨some 5, some 0, some 1⟩ : OrganizedRadiusSearch ℝ).points_ idx
        ∨ (((pairCloud ⟨some 5, some 0, some 1⟩ : OrganizedRadiusSearch ℝ).points_ idx).invalid
          ∧ acceptedOf (pairCloud ⟨none, some 0, some 1⟩ : OrganizedRadiusSearch ℝ).sqr_radius_
              ⟨0, 0, 1⟩
              ((pairCloud ⟨none, some 0, some 1⟩ : OrganizedRadiusSearch ℝ).points_ idx) = none)
        ∨ (((pairCloud ⟨none, some 0, some 1⟩ : OrganizedRadiusSearch ℝ).points_ idx).invalid
          ∧ acceptedOf (pairCloud ⟨some 5, some 0, some 1⟩ : OrganizedRadiusSearch ℝ).sqr_radius_
              ⟨0, 0, 1⟩
              ((pairCloud ⟨some 5, some 0, some 1⟩ : OrganizedRadiusSearch ℝ).points_ idx)
                = none) := by
    intro idx
    by_cases h : idx = 0
    · left
      simp only [pairCloud, h, if_true]
    · right; right
      simp only [pairCloud, h, if_false, PointXYZRGB.invalid, acceptedOf, dot, float3.sub,
        true_or, true_and]
      norm_num
  have main := invalid_point_robustness realOps (pairCloud ⟨some 5, some 0, some 1⟩)
    (pairCloud ⟨none, some 0, some 1⟩) ⟨0, 0, 1⟩ ⟨⟨0, 0, 0⟩, ⟨0, 0, 0⟩, ⟨0, 0, 0⟩⟩ 1
    rfl rfl rfl rfl hpts
  exact ⟨hpts, main.2.2.2.2.2.1, main.2.2.2.2.2.2⟩

/-- C15: for every cloud and query with at least one accepted pixel,
`computeCentroid` returns the arithmetic mean of the accepted points of the
search window (the count it divides by is not zero); this is the value of the
local `centroid` of `computeCovarianceOnline` after its loops on the same
cloud and query, which is updated for each accepted point `p` by
`centroid += (p - centroid) / nnn` with the incremented count; and
`computeCentroid` leaves its argument `cov` as it was. -/
theorem computeCentroid_eq_mean {F : Type} [LinearOrderedField F] (ops : MathOps F)
    (s : OrganizedRadiusSearch F) (query_pt : float3 F) (cov : CovarianceMatrix F)
    (sqrt_desired_nr_neighbors : F) (hne : acceptedPoints ops s query_pt ≠ []) :
    ((acceptedPoints ops s query_pt).length : F) ≠ 0
      ∧ (computeCentroid ops s query_pt cov sqrt_desired_nr_neighbors).1
          = ⟨((acceptedPoints ops s query_pt).map (fun p => p.x)).sum
                / ((acceptedPoints ops s query_pt).length : F),
              ((acceptedPoints ops s query_pt).map (fun p => p.y)).sum
                / ((acceptedPoints ops s query_pt).length : F),
              ((acceptedPoints ops s query_pt).map (fun p => p.z)).sum
                / ((acceptedPoints ops s query_pt).length : F)⟩
      ∧ (computeCentroid ops s query_pt cov sqrt_desired_nr_neighbors).1
          = (computeCovarianceOnlineLocals ops s query_pt).centroid
      ∧ computeCovarianceOnlineLocals ops s query_pt
          = (acceptedPoints ops s query_pt).foldl onlineUpdate
              ⟨⟨make_float3 0 0 0, make_float3 0 0 0, make_float3 0 0 0⟩, make_float3 0 0 0, 0⟩
      ∧ (∀ (st : OnlineState F) (p : float3 F),
          (onlineUpdate st p).nnn = st.nnn + 1
            ∧ (onlineUpdate st p).centroid
              = st.centroid.add ((p.sub st.centroid).sdiv (((st.nnn + 1 : Int)) : F)))
      ∧ (computeCentroid ops s query_pt cov sqrt_desired_nr_neighbors).2 = cov := by
  have hlen : ((acceptedPoints ops s query_pt).length : F) ≠ 0 :=
    Nat.cast_ne_zero.mpr (fun h => hne (List.length_eq_zero.mp h))
  have inv := onlineInv_foldl (acceptedPoints ops s query_pt) []
    ⟨⟨make_float3 0 0 0, make_float3 0 0 0, make_float3 0 0 0⟩, make_float3 0 0 0, 0⟩
    onlineInv_init
  rw [List.nil_append, ← computeCovarianceOnlineLocals_eq] at inv
  refine ⟨hlen, ?_, ?_, computeCovarianceOnlineLocals_eq ops s query_pt,
    fun st p => ⟨rfl, rfl⟩, rfl⟩
  · rw [computeCentroid_eq]
  · rw [computeCentroid_eq]
    have hx := inv.meanx
    have hy := inv.meany
    have hz := inv.meanz
    generalize computeCovarianceOnlineLocals ops s query_pt = st at hx hy hz ⊢
    obtain ⟨c, ⟨cx, cy, cz⟩, n⟩ := st
    simp only at hx hy hz ⊢
    rw [← hx, ← hy, ← hz, mul_div_cancel_left₀ _ hlen, mul_div_cancel_left₀ _ hlen,
      mul_div_cancel_left₀ _ hlen]

/-- C15 witness: on the two-pixel cloud with query `(0, 0, 1)` the accepted
points are `(0, 0, 1)` and `(1/2, 0, 1)`, and their mean `(1/4, 0, 1)` is
returned. -/
theorem computeCentroid_eq_mean_witness :
    acceptedPoints realOps (twoPixelCloud : OrganizedRadiusSearch ℝ) ⟨0, 0, 1⟩ ≠ []
      ∧ (computeCentroid realOps (twoPixelCloud : OrganizedRadiusSearch ℝ) ⟨0, 0, 1⟩
          ⟨⟨1, 2, 3⟩, ⟨4, 5, 6⟩, ⟨7, 8, 9⟩⟩ 1).1 = ⟨1 / 4, 0, 1⟩
      ∧ (computeCovarianceOnlineLocals realOps (twoPixelCloud : OrganizedRadiusSearch ℝ)
          ⟨0, 0, 1⟩).centroid = ⟨1 / 4, 0, 1⟩ := by
  have hne : acceptedPoints realOps (twoPixelCloud : OrganizedRadiusSearch ℝ) ⟨0, 0, 1⟩ ≠ [] := by
    rw [twoPixelCloud_accepted]; simp
  have main := computeCentroid_eq_mean realOps (twoPixelCloud : OrganizedRadiusSearch ℝ)
    ⟨0, 0, 1⟩ ⟨⟨1, 2, 3⟩, ⟨4, 5, 6⟩, ⟨7, 8, 9⟩⟩ 1 hne
  have hval : (computeCentroid realOps (twoPixelCloud : OrganizedRadiusSearch ℝ) ⟨0, 0, 1⟩
      ⟨⟨1, 2, 3⟩, ⟨4, 5, 6⟩, ⟨7, 8, 9⟩⟩ 1).1 = ⟨1 / 4, 0, 1⟩ := by
    rw [main.2.1, twoPixelCloud_accepted]
    simp only [List.map_cons, List.map_nil, List.sum_cons, List.sum_nil, List.length_cons,
      List.length_nil]
    norm_num
  exact ⟨hne, hval, main.2.2.1 ▸ hval⟩

/-- C16: for every non-empty sequence of points and every centroid argument,
the matrix returned by `computeCovariance` (whose divisor, the number of
points, is then not zero) is symmetric, `C[i][j] = C[j][i]`, and
positive-semidefinite, `v^T C v ≥ 0` for every vector `v`; the content of the
unassigned entries of the per-point matrices plays no part. -/
theorem computeCovariance_symmetric_psd {F : Type} [LinearOrderedField F]
    (indet : float3 F → CovarianceMatrix F) (pts : List (float3 F)) (centroid : float3 F)
    (hne : pts ≠ []) :
    (pts.length : F) ≠ 0
      ∧ (∀ i j : Fin 3, (computeCovariance indet pts centroid).entry i j
          = (computeCovariance indet pts centroid).entry j i)
      ∧ IsSymmetric (computeCovariance indet pts centroid)
      ∧ IsPSD (computeCovariance indet pts centroid) := by
  have hlen : (pts.length : F) ≠ 0 :=
    Nat.cast_ne_zero.mpr (fun h => hne (List.length_eq_zero.mp h))
  have hsym : IsSymmetric (computeCovariance indet pts centroid) := by
    exact ⟨rfl, rfl, rfl⟩
  refine ⟨hlen, ?_, hsym, ?_⟩
  · intro i j
    fin_cases i <;> fin_cases j <;> rfl
  · intro v
    rw [quadForm_computeCovariance]
    apply div_nonneg
    · apply List.sum_nonneg
      intro x hx
      obtain ⟨p, _, rfl⟩ := List.mem_map.mp hx
      exact sq_nonneg _
    · exact Nat.cast_nonneg _

/-- C16 witness: the two points `(0, 0, 0)` and `(2, 0, 0)` with centroid
argument `(1, 0, 0)`. -/
theorem computeCovariance_symmetric_psd_witness :
    ([⟨0, 0, 0⟩, ⟨2, 0, 0⟩] : List (float3 ℚ)) ≠ []
      ∧ IsSymmetric (computeCovariance (fun _ => ⟨⟨7, 7, 7⟩, ⟨7, 7, 7⟩, ⟨7, 7, 7⟩⟩)
          ([⟨0, 0, 0⟩, ⟨2, 0, 0⟩] : List (float3 ℚ)) ⟨1, 0, 0⟩)
      ∧ IsPSD (computeCovariance (fun _ => ⟨⟨7, 7, 7⟩, ⟨7, 7, 7⟩, ⟨7, 7, 7⟩⟩)
          ([⟨0, 0, 0⟩, ⟨2, 0, 0⟩] : List (float3 ℚ)) ⟨1, 0, 0⟩) :=
  ⟨by simp,
    (computeCovariance_symmetric_psd _ _ _ (by simp)).2.2.1,
    (computeCovariance_symmetric_psd _ _ _ (by simp)).2.2.2⟩

/-- C17: for every symmetric matrix for which `eigen33` divides by no zero
length (each selected cross product and the cross product of the first
re-orthogonalisation is not the zero vector), the returned eigenvector triple
is right-handed: `evecs.data[0] · (evecs.data[1] × evecs.data[2]) = 1`, hence
positive, in all four branches. (The proof does not use the symmetry.) -/
theorem eigen33_evecs_right_handed (M : CovarianceMatrix ℝ) (_hsym : IsSymmetric M)
    (hnz : eigen33NoZeroDivisor realOps M) :
    dot (eigen33 realOps M).evecs.data0
        (cross (eigen33 realOps M).evecs.data1 (eigen33 realOps M).evecs.data2) = 1
      ∧ 0 < dot (eigen33 realOps M).evecs.data0
        (cross (eigen33 realOps M).evecs.data1 (eigen33 realOps M).evecs.data2) := by
  have key : dot (eigen33 realOps M).evecs.data0
      (cross (eigen33 realOps M).evecs.data1 (eigen33 realOps M).evecs.data2) = 1 := by
    rw [eigen33_evecs_eq]
    unfold eigen33NoZeroDivisor at hnz
    unfold eigen33Vectors
    dsimp only at hnz ⊢
    generalize eigen33ScaledMat M = A at hnz ⊢
    generalize computeRoots realOps A = ev at hnz ⊢
    by_cases h1 : ev.z - ev.x ≤ FLT_EPSILON
    · rw [if_pos h1]
      simp [make_float3, dot, cross]
    · rw [if_neg h1] at hnz ⊢
      by_cases h2 : ev.y - ev.x ≤ FLT_EPSILON
      · rw [if_pos h2] at hnz ⊢
        have hu := sdiv_sqrt_unit _ _ (selectCross_len (shiftDiag A ev.z)) hnz
        obtain ⟨p1, p2⟩ := unitOrthogonal_of_unit _ hu
        exact (cross_unit _ _ p1 hu p2).1
      · rw [if_neg h2] at hnz ⊢
        by_cases h3 : ev.z - ev.y ≤ FLT_EPSILON
        · rw [if_pos h3] at hnz ⊢
          have hu := sdiv_sqrt_unit _ _ (selectCross_len (shiftDiag A ev.x)) hnz
          obtain ⟨p1, p2⟩ := unitOrthogonal_of_unit _ hu
          dsimp only
          rw [triple_cross_last, hu, p1, dot_comm, p2]
          norm_num
        · rw [if_neg h3] at hnz ⊢
          obtain ⟨n2, n1, n0, hc⟩ := hnz
          have u0 : dot (distinctSelected realOps A ev).data0
              (distinctSelected realOps A ev).data0 = 1 :=
            sdiv_sqrt_unit _ _ (selectCross_len (shiftDiag A ev.x)) n0
          have u1 : dot (distinctSelected realOps A ev).data1
              (distinctSelected realOps A ev).data1 = 1 :=
            sdiv_sqrt_unit _ _ (selectCross_len (shiftDiag A ev.y)) n1
          have u2 : dot (distinctSelected realOps A ev).data2
              (distinctSelected realOps A ev).data2 = 1 :=
            sdiv_sqrt_unit _ _ (selectCross_len (shiftDiag A ev.z)) n2
          have hcases := minMaxEl_cases (selectCross (shiftDiag A ev.z)).len
            (selectCross (shiftDiag A ev.y)).len (selectCross (shiftDiag A ev.x)).len
            (selectCross (shiftDiag A ev.x)).len3
          exact reorth_triple _ u0 u1 u2 _ _ hcases hc _ rfl
  exact ⟨key, key ▸ one_pos⟩

/-- C17 witness: the matrix `diag (1, 1/2, 0)`, which takes the all-distinct
branch; the three selected axes `(0,0,1), (0,1,0), (1,0,0)` are left-handed and
the re-orthogonalisation returns `(0,0,-1), (0,1,0), (1,0,0)`. -/
theorem eigen33_evecs_right_handed_witness :
    IsSymmetric (diag (1 : ℝ) (1 / 2) 0)
      ∧ eigen33NoZeroDivisor realOps (diag (1 : ℝ) (1 / 2) 0)
      ∧ (eigen33 realOps (diag (1 : ℝ) (1 / 2) 0)).evecs = ⟨⟨0, 0, -1⟩, ⟨0, 1, 0⟩, ⟨1, 0, 0⟩⟩
      ∧ dot (eigen33 realOps (diag (1 : ℝ) (1 / 2) 0)).evecs.data0
          (cross (eigen33 realOps (diag (1 : ℝ) (1 / 2) 0)).evecs.data1
            (eigen33 realOps (diag (1 : ℝ) (1 / 2) 0)).evecs.data2) = 1 :=
  ⟨isSymmetric_diag _ _ _, eigen33NoZeroDivisor_half, eigen33_evecs_half,
    (eigen33_evecs_right_handed _ (isSymmetric_diag _ _ _) eigen33NoZeroDivisor_half).1⟩

/-- C18: for every triple of values, the three conditional swaps of
`computeRoots` (lines 213-221) leave `roots.x ≤ roots.y ≤ roots.z`, and the
resulting triple is a permutation of the triple they started from. -/
theorem sortRoots_sorted_perm {F : Type} [LinearOrderedField F] (a b c : F) :
    ((sortRoots ⟨a, b, c⟩).x ≤ (sortRoots ⟨a, b, c⟩).y
        ∧ (sortRoots ⟨a, b, c⟩).y ≤ (sortRoots ⟨a, b, c⟩).z)
      ∧ List.Perm [(sortRoots ⟨a, b, c⟩).x, (sortRoots ⟨a, b, c⟩).y, (sortRoots ⟨a, b, c⟩).z]
          [a, b, c] := by
  refine ⟨sortRoots_sorted _, ?_⟩
  obtain ⟨p0, p1, p2, p3, p4, p5⟩ := perm3_cases a b c
  simp only [sortRoots, swap, ge_iff_le]
  by_cases h1 : b ≤ a <;> by_cases h2 : c ≤ a <;> by_cases h3 : c ≤ b <;>
    simp only [h1, h2, h3, if_true, if_false] <;>
    first | exact p0 | exact p1 | exact p2 | exact p3 | exact p4 | exact p5

/-- C19: for every matrix with `|c0| ≥ FLT_EPSILON` whose smallest sorted
closed-form root is negative, `computeRoots` returns exactly the result of the
fallback `computeRoots2 (c2, c1)`, that is
`(0, (c2 - √d) / 2, (c2 + √d) / 2)` with `d = max (c2² - 4 c1) 0`; the sorted
closed-form roots are discarded. -/
theorem computeRoots_negative_root_fallback (m : CovarianceMatrix ℝ)
    (hc0 : FLT_EPSILON ≤ |charC0 m|)
    (hneg : (sortRoots (trigRoots realOps (charC0 m) (charC1 m) (charC2 m))).x < 0) :
    computeRoots realOps m = computeRoots2 realOps (charC2 m) (charC1 m)
      ∧ computeRoots realOps m
          = ⟨0, (charC2 m - Real.sqrt (max (charC2 m * charC2 m - 4 * charC1 m) 0)) / 2,
              (charC2 m + Real.sqrt (max (charC2 m * charC2 m - 4 * charC1 m) 0)) / 2⟩ := by
  have h : computeRoots realOps m = computeRoots2 realOps (charC2 m) (charC1 m) := by
    unfold computeRoots
    dsimp only
    rw [if_neg (not_lt.mpr hc0), if_pos hneg.le]
  exact ⟨h, h.trans (computeRoots2_eq _ _)⟩

/-- C19 witness: on `diag (1, 1, -1/6)` the sorted closed-form roots are
`(-1/6, 1, 1)`; what is returned is `(0, 1/2, 4/3)`, not `(0, 1, 1)`. -/
theorem computeRoots_negative_root_fallback_witness :
    FLT_EPSILON ≤ |charC0 (diag (1 : ℝ) 1 (-(1 / 6)))|
      ∧ sortRoots (trigRoots realOps (charC0 (diag (1 : ℝ) 1 (-(1 / 6))))
          (charC1 (diag (1 : ℝ) 1 (-(1 / 6)))) (charC2 (diag (1 : ℝ) 1 (-(1 / 6)))))
          = ⟨-(1 / 6), 1, 1⟩
      ∧ computeRoots realOps (diag (1 : ℝ) 1 (-(1 / 6)))
          = computeRoots2 realOps (charC2 (diag (1 : ℝ) 1 (-(1 / 6))))
              (charC1 (diag (1 : ℝ) 1 (-(1 / 6))))
      ∧ computeRoots2 realOps (charC2 (diag (1 : ℝ) 1 (-(1 / 6))))
          (charC1 (diag (1 : ℝ) 1 (-(1 / 6)))) = ⟨0, 1 / 2, 4 / 3⟩ := by
  have hc0 : FLT_EPSILON ≤ |charC0 (diag (1 : ℝ) 1 (-(1 / 6)))| := by
    rw [charC0_sixth, abs_neg, abs_of_pos (by norm_num : (0 : ℝ) < 1 / 6)]
    unfold FLT_EPSILON; norm_num
  have hs : sortRoots (trigRoots realOps (charC0 (diag (1 : ℝ) 1 (-(1 / 6))))
      (charC1 (diag (1 : ℝ) 1 (-(1 / 6)))) (charC2 (diag (1 : ℝ) 1 (-(1 / 6)))))
      = ⟨-(1 / 6), 1, 1⟩ := by
    rw [charC0_sixth, charC1_sixth, charC2_sixth, trigRoots_sixth, sortRoots_sixth]
  have hneg : (sortRoots (trigRoots realOps (charC0 (diag (1 : ℝ) 1 (-(1 / 6))))
      (charC1 (diag (1 : ℝ) 1 (-(1 / 6)))) (charC2 (diag (1 : ℝ) 1 (-(1 / 6)))))).x < 0 := by
    rw [hs]; norm_num
  refine ⟨hc0, hs, (computeRoots_negative_root_fallback _ hc0 hneg).1, ?_⟩
  rw [charC1_sixth, charC2_sixth, computeRoots2_sixth]

/-- C20 (the code departs from the claim): on `diag (1, 1/2, 0)`, a symmetric
positive-semidefinite matrix whose eigenvalues `(0, 1/2, 1)` send `eigen33`
to the all-distinct branch, the selected squared lengths are
`mmax[0] = 1/4`, `mmax[1] = 1/16`, `mmax[2] = 1/4`, and lines 407-408 compare
`len3 = 0` instead of the selected `len1 = 1/4`: the code ends with
`min_el = 0`, `max_el = 2`, and `mmax[min_el]` is not the smallest entry of
`mmax`. -/
theorem eigen33_min_el_not_smallest :
    IsSymmetric (diag (1 : ℝ) (1 / 2) 0) ∧ IsPSD (diag (1 : ℝ) (1 / 2) 0)
      ∧ eigen33ScaledMat (diag (1 : ℝ) (1 / 2) 0) = diag 1 (1 / 2) 0
      ∧ computeRoots realOps (eigen33ScaledMat (diag (1 : ℝ) (1 / 2) 0)) = ⟨0, 1 / 2, 1⟩
      ∧ ¬ ((1 : ℝ) - 0 ≤ FLT_EPSILON) ∧ ¬ ((1 / 2 : ℝ) - 0 ≤ FLT_EPSILON)
      ∧ ¬ ((1 : ℝ) - 1 / 2 ≤ FLT_EPSILON)
      ∧ (selectCross (shiftDiag (diag (1 : ℝ) (1 / 2) 0) 0)).len = 1 / 4
      ∧ (selectCross (shiftDiag (diag (1 : ℝ) (1 / 2) 0) (1 / 2))).len = 1 / 16
      ∧ (selectCross (shiftDiag (diag (1 : ℝ) (1 / 2) 0) 1)).len = 1 / 4
      ∧ (selectCross (shiftDiag (diag (1 : ℝ) (1 / 2) 0) 0)).len3 = 0
      ∧ distinctMinMax (eigen33ScaledMat (diag (1 : ℝ) (1 / 2) 0))
          (computeRoots realOps (eigen33ScaledMat (diag (1 : ℝ) (1 / 2) 0))) = (0, 2)
      ∧ (selectCross (shiftDiag (diag (1 : ℝ) (1 / 2) 0) (1 / 2))).len
          < (selectCross (shiftDiag (diag (1 : ℝ) (1 / 2) 0) 0)).len := by
  refine ⟨isSymmetric_diag _ _ _, isPSD_diag _ _ _ (by norm_num) (by norm_num) (by norm_num),
    eigen33ScaledMat_half, ?_, branch_half.1, branch_half.2.1, branch_half.2.2, ?_, ?_, ?_, ?_,
    ?_, ?_⟩
  · rw [eigen33ScaledMat_half, computeRoots_half]
  · rw [selectCross_half_x]
  · rw [selectCross_half_y]
  · rw [selectCross_half_z]
  · rw [selectCross_half_x]
  · rw [eigen33ScaledMat_half, computeRoots_half, distinctMinMax_half]
  · rw [selectCross_half_x, selectCross_half_y]; norm_num

/-- C21: for every symmetric 3x3 matrix `M` and every value `lam` with
`det (M - lam I) = 0`, each of the three pairwise cross products of the rows
of `A = M - lam I` is mapped to zero by `A`; the squared length that
`eigen33` selects is the largest of the three, and when it is not zero the
selected cross product divided by its length is a unit vector `v` with
`M v = lam v`. (The proof does not use the symmetry of `M`.) -/
theorem selectCross_eigenvector (M : CovarianceMatrix ℝ) (lam : ℝ) (_hsym : IsSymmetric M)
    (hdet : det3 (shiftDiag M lam) = 0) :
    (mulVec (shiftDiag M lam) (cross (shiftDiag M lam).data0 (shiftDiag M lam).data1)
          = ⟨0, 0, 0⟩
        ∧ mulVec (shiftDiag M lam) (cross (shiftDiag M lam).data0 (shiftDiag M lam).data2)
          = ⟨0, 0, 0⟩
        ∧ mulVec (shiftDiag M lam) (cross (shiftDiag M lam).data1 (shiftDiag M lam).data2)
          = ⟨0, 0, 0⟩)
      ∧ (dot (cross (shiftDiag M lam).data0 (shiftDiag M lam).data1)
            (cross (shiftDiag M lam).data0 (shiftDiag M lam).data1)
              ≤ (selectCross (shiftDiag M lam)).len
        ∧ dot (cross (shiftDiag M lam).data0 (shiftDiag M lam).data2)
            (cross (shiftDiag M lam).data0 (shiftDiag M lam).data2)
              ≤ (selectCross (shiftDiag M lam)).len
        ∧ dot (cross (shiftDiag M lam).data1 (shiftDiag M lam).data2)
            (cross (shiftDiag M lam).data1 (shiftDiag M lam).data2)
              ≤ (selectCross (shiftDiag M lam)).len)
      ∧ ((selectCross (shiftDiag M lam)).len ≠ 0 →
          dot ((selectCross (shiftDiag M lam)).vec.sdiv
                (realOps.sqrt (selectCross (shiftDiag M lam)).len))
              ((selectCross (shiftDiag M lam)).vec.sdiv
                (realOps.sqrt (selectCross (shiftDiag M lam)).len)) = 1
            ∧ mulVec M ((selectCross (shiftDiag M lam)).vec.sdiv
                (realOps.sqrt (selectCross (shiftDiag M lam)).len))
              = ((selectCross (shiftDiag M lam)).vec.sdiv
                (realOps.sqrt (selectCross (shiftDiag M lam)).len)).smul lam) := by
  obtain ⟨c1, c2, c3⟩ := mulVec_cross_rows (shiftDiag M lam)
  rw [hdet] at c1 c2 c3
  rw [neg_zero] at c2
  refine ⟨⟨c1, c2, c3⟩, selectCross_len_max _, ?_⟩
  intro hlen
  refine ⟨sdiv_sqrt_unit _ _ (selectCross_len _) hlen, ?_⟩
  have hzero : mulVec (shiftDiag M lam) (selectCross (shiftDiag M lam)).vec = ⟨0, 0, 0⟩ := by
    rcases selectCross_vec_cases (shiftDiag M lam) with h | h | h <;> rw [h] <;> assumption
  rw [mulVec_shiftDiag M lam, mulVec_sdiv, hzero]
  simp [float3.add, float3.sdiv, float3.smul]

/-- C21 witness: `M = diag (1, 1/2, 0)` and `lam = 0`; the selected cross
product is `(0, 0, 1/2)`, of squared length `1/4`. -/
theorem selectCross_eigenvector_witness :
    IsSymmetric (diag (1 : ℝ) (1 / 2) 0) ∧ det3 (shiftDiag (diag (1 : ℝ) (1 / 2) 0) 0) = 0
      ∧ (selectCross (shiftDiag (diag (1 : ℝ) (1 / 2) 0) 0)).len ≠ 0
      ∧ mulVec (diag (1 : ℝ) (1 / 2) 0)
          ((selectCross (shiftDiag (diag (1 : ℝ) (1 / 2) 0) 0)).vec.sdiv
            (realOps.sqrt (selectCross (shiftDiag (diag (1 : ℝ) (1 / 2) 0) 0)).len))
          = ((selectCross (shiftDiag (diag (1 : ℝ) (1 / 2) 0) 0)).vec.sdiv
            (realOps.sqrt (selectCross (shiftDiag (diag (1 : ℝ) (1 / 2) 0) 0)).len)).smul 0 := by
  have hdet : det3 (shiftDiag (diag (1 : ℝ) (1 / 2) 0) 0) = 0 := by
    simp [det3, shiftDiag, diag]
  have hlen : (selectCross (shiftDiag (diag (1 : ℝ) (1 / 2) 0) 0)).len ≠ 0 := by
    rw [selectCross_half_x]; norm_num
  exact ⟨isSymmetric_diag _ _ _, hdet, hlen,
    ((selectCross_eigenvector _ 0 (isSymmetric_diag _ _ _) hdet).2.2 hlen).2⟩

/-- C22: for every non-zero vector `src`, `unitOrthogonal (src)` divides by
a non-zero length and returns a vector `perp` with `perp · perp = 1` and
`perp · src = 0`. When both `x² ≤ eps² z²` and `y² ≤ eps² z²`
(`eps = FLT_EPSILON`) it is `(0, -z, y) / sqrt (z² + y²)`, otherwise it is
`(-y, x, 0) / sqrt (x² + y²)`. -/
theorem unitOrthogonal_spec (src : float3 ℝ) (hne : src ≠ ⟨0, 0, 0⟩) :
    dot (unitOrthogonal realOps src) (unitOrthogonal realOps src) = 1
      ∧ dot (unitOrthogonal realOps src) src = 0
      ∧ ((src.x * src.x ≤ FLT_EPSILON * FLT_EPSILON * src.z * src.z
            ∧ src.y * src.y ≤ FLT_EPSILON * FLT_EPSILON * src.z * src.z) →
          realOps.sqrt (src.z * src.z + src.y * src.y) ≠ 0
            ∧ unitOrthogonal realOps src
              = ⟨0, -src.z / realOps.sqrt (src.z * src.z + src.y * src.y),
                  src.y / realOps.sqrt (src.z * src.z + src.y * src.y)⟩)
      ∧ (¬ (src.x * src.x ≤ FLT_EPSILON * FLT_EPSILON * src.z * src.z
            ∧ src.y * src.y ≤ FLT_EPSILON * FLT_EPSILON * src.z * src.z) →
          realOps.sqrt (src.x * src.x + src.y * src.y) ≠ 0
            ∧ unitOrthogonal realOps src
              = ⟨-src.y / realOps.sqrt (src.x * src.x + src.y * src.y),
                  src.x / realOps.sqrt (src.x * src.x + src.y * src.y), 0⟩) := by
  obtain ⟨x, y, z⟩ := src
  have he : (0 : ℝ) < FLT_EPSILON := FLT_EPSILON_pos
  have hbranch : ((!isMuchSmallerThan x z) || (!isMuchSmallerThan y z)) = true
      ↔ ¬ (x * x ≤ FLT_EPSILON * FLT_EPSILON * z * z
        ∧ y * y ≤ FLT_EPSILON * FLT_EPSILON * z * z) := by
    simp only [isMuchSmallerThan, Bool.or_eq_true, Bool.not_eq_eq_eq_not, Bool.not_true,
      decide_eq_false_iff_not, not_and_or]
  dsimp only
  by_cases hc : x * x ≤ FLT_EPSILON * FLT_EPSILON * z * z
      ∧ y * y ≤ FLT_EPSILON * FLT_EPSILON * z * z
  · have hpos : 0 < z * z + y * y := by
      by_contra hle
      have hz : z = 0 := by nlinarith [mul_self_nonneg z, mul_self_nonneg y]
      have hy : y = 0 := by nlinarith [mul_self_nonneg z, mul_self_nonneg y]
      have hx : x = 0 := by
        have := hc.1
        rw [hz] at this
        nlinarith [mul_self_nonneg x]
      exact hne (by rw [hx, hy, hz])
    have hs : Real.sqrt (z * z + y * y) * Real.sqrt (z * z + y * y) = z * z + y * y :=
      Real.mul_self_sqrt hpos.le
    have hsne : Real.sqrt (z * z + y * y) ≠ 0 := (Real.sqrt_pos.mpr hpos).ne.symm
    have hval : unitOrthogonal realOps ⟨x, y, z⟩
        = ⟨0, -z / Real.sqrt (z * z + y * y), y / Real.sqrt (z * z + y * y)⟩ := by
      unfold unitOrthogonal
      rw [if_neg (fun h => (hbranch.mp h) hc)]
      simp only [realOps_sqrt, float3.mk.injEq, true_and]
      constructor <;> ring
    refine ⟨?_, ?_, fun _ => ⟨hsne, hval⟩, fun h => absurd hc h⟩
    · rw [hval]
      simp only [dot]
      field_simp
    · rw [hval]
      simp only [dot]
      field_simp
      ring
  · have hpos : 0 < x * x + y * y := by
      by_contra hle
      have hx : x = 0 := by nlinarith [mul_self_nonneg x, mul_self_nonneg y]
      have hy : y = 0 := by nlinarith [mul_self_nonneg x, mul_self_nonneg y]
      have hz : 0 ≤ FLT_EPSILON * FLT_EPSILON * z * z := by
        have := mul_nonneg (mul_nonneg he.le he.le) (mul_self_nonneg z)
        nlinarith
      apply hc
      rw [hx, hy]
      simp only [mul_zero]
      exact ⟨hz, hz⟩
    have hs : Real.sqrt (x * x + y * y) * Real.sqrt (x * x + y * y) = x * x + y * y :=
      Real.mul_self_sqrt hpos.le
    have hsne : Real.sqrt (x * x + y * y) ≠ 0 := (Real.sqrt_pos.mpr hpos).ne.symm
    have hval : unitOrthogonal realOps ⟨x, y, z⟩
        = ⟨-y / Real.sqrt (x * x + y * y), x / Real.sqrt (x * x + y * y), 0⟩ := by
      unfold unitOrthogonal
      rw [if_pos (hbranch.mpr hc)]
      simp only [realOps_sqrt, float3.mk.injEq, and_true]
      constructor <;> ring
    refine ⟨?_, ?_, fun h => absurd h hc, fun _ => ⟨hsne, hval⟩⟩
    · rw [hval]
      simp only [dot]
      field_simp
      nlinarith
    · rw [hval]
      simp only [dot]
      field_simp
      ring

/-- C22 witness: `src = (0, 0, 2)` takes the second form and gives
`(0, -1, 0)`; `src = (3, 4, 0)` takes the first form. -/
theorem unitOrthogonal_spec_witness :
    (⟨0, 0, 2⟩ : float3 ℝ) ≠ ⟨0, 0, 0⟩
      ∧ dot (unitOrthogonal realOps ⟨0, 0, 2⟩) (unitOrthogonal realOps ⟨0, 0, 2⟩) = 1
      ∧ dot (unitOrthogonal realOps ⟨0, 0, 2⟩) ⟨0, 0, 2⟩ = 0
      ∧ unitOrthogonal realOps ⟨0, 0, 2⟩ = ⟨0, -1, 0⟩ := by
  have hne : (⟨0, 0, 2⟩ : float3 ℝ) ≠ ⟨0, 0, 0⟩ := by
    intro h
    have := congrArg float3.z h
    norm_num at this
  have main := unitOrthogonal_spec ⟨0, 0, 2⟩ hne
  have h2 : Real.sqrt (2 * 2 + 0 * 0) = 2 := by
    rw [show (2 * 2 + 0 * 0 : ℝ) = 2 ^ 2 by norm_num]
    exact Real.sqrt_sq (by norm_num)
  have hb := main.2.2.1 ⟨by
    simp only [mul_zero]
    exact mul_nonneg (mul_nonneg (mul_nonneg FLT_EPSILON_pos.le FLT_EPSILON_pos.le) (by norm_num))
      (by norm_num), by
    simp only [mul_zero]
    exact mul_nonneg (mul_nonneg (mul_nonneg FLT_EPSILON_pos.le FLT_EPSILON_pos.le) (by norm_num))
      (by norm_num)⟩
  refine ⟨hne, main.1, main.2.1, ?_⟩
  rw [hb.2]
  simp only [realOps_sqrt, h2]
  norm_num

/-- C23 (as stated, refuted): the cloud of one column and `2^25` rows with
focal length `2^26` and the query `(0, 0, 1)` has the window of the rows
`0 .. 2^25 - 1`. The `float` counter `y` of `computeCovarianceOnline` and of
`computeCentroid` reaches `2^24`, where `y += 1` gives `2^24` again since
`2^24 + 1` is not a binary32 number, and the test `y <= bounds.w` stays true:
whatever the fuel, the loops are not left. -/
theorem float_counter_counterexample :
    (1 : Int) ≤ (tallCloud : OrganizedRadiusSearch ℝ).width_
      ∧ (1 : Int) ≤ (tallCloud : OrganizedRadiusSearch ℝ).height_
      ∧ searchWindow realOps (tallCloud : OrganizedRadiusSearch ℝ) ⟨0, 0, 1⟩
          = ⟨0, 0, 0, 33554431⟩
      ∧ roundToFloat 33554431 = 33554432
      ∧ roundToFloat (16777216 + 1) = 16777216
      ∧ ∀ fuel : Nat,
          computeCovarianceOnlineFloatLoops fuel realOps
              (tallCloud : OrganizedRadiusSearch ℝ) ⟨0, 0, 1⟩ = none
            ∧ computeCentroidFloatLoops fuel realOps
              (tallCloud : OrganizedRadiusSearch ℝ) ⟨0, 0, 1⟩ = none
            ∧ scanIndicesFloat fuel realOps
              (tallCloud : OrganizedRadiusSearch ℝ) ⟨0, 0, 1⟩ = none := by
  have hhi : (16777216 : Int) ≤ roundToFloat 33554431 := by
    rw [roundToFloat_tall]; norm_num
  have h0 : roundToFloat 0 = 0 := roundToFloat_of_le 0 le_rfl (by norm_num)
  refine ⟨by simp only [tallCloud]; decide, by simp only [tallCloud]; decide, tallCloud_window,
    roundToFloat_tall, roundToFloat_stall, ?_⟩
  intro fuel
  simp only [computeCovarianceOnlineFloatLoops, computeCentroidFloatLoops, scanIndicesFloat,
    tallCloud_window, floatScan, h0]
  exact ⟨floatCounterLoop_stall _ _ hhi fuel 0 _ le_rfl (by norm_num),
    floatCounterLoop_stall _ _ hhi fuel 0 _ le_rfl (by norm_num),
    floatCounterLoop_stall _ _ hhi fuel 0 _ le_rfl (by norm_num)⟩

/-- C23 (amended): for every cloud with `1 ≤ width ≤ 2^24`,
`1 ≤ height ≤ 2^24` and `width * height ≤ 2^31 - 1` and every query, every
buffer index `idx = y * width + x` at which `computeCovarianceOnline` and
`computeCentroid` (row by row) and `radiusSearch` (column by column, up to its
cap) read `points_` has `0 ≤ idx < width * height`, and its 32-bit evaluation
does not overflow; no index occurs twice in one call and a call reads at most
`width * height` pixels. The loops with `float` counters are left as soon as
the fuel exceeds `width` and `height`, with the locals, the centroid and the
indices of the exact loops; `radiusSearch` is total. The results depend on the
buffer only through the entries `0 .. width * height - 1`: a cloud with the
same geometry that agrees with it on these entries gives the same results. -/
theorem reads_in_buffer {F : Type} [LinearOrderedField F] (ops : MathOps F)
    (s : OrganizedRadiusSearch F) (query_pt : float3 F) (k_indices : Int → Int) (max_nnn : Int)
    (hw : 1 ≤ s.width_) (hh : 1 ≤ s.height_) (hw2 : s.width_ ≤ 16777216)
    (hh2 : s.height_ ≤ 16777216) (hprod : s.width_ * s.height_ ≤ 2147483647) :
    (scanIndices ops s query_pt = (windowPixels ops s query_pt).map (pixelIndex s)
        ∧ (∀ idx ∈ scanIndices ops s query_pt, 0 ≤ idx ∧ idx < s.width_ * s.height_)
        ∧ (scanIndices ops s query_pt).Nodup
        ∧ ((scanIndices ops s query_pt).length : Int) ≤ s.width_ * s.height_)
      ∧ (List.Sublist (radiusSearchIndices ops s query_pt k_indices max_nnn)
            ((columnPixels ops s query_pt).map (pixelIndex s))
        ∧ (∀ idx ∈ radiusSearchIndices ops s query_pt k_indices max_nnn,
            0 ≤ idx ∧ idx < s.width_ * s.height_)
        ∧ (radiusSearchIndices ops s query_pt k_indices max_nnn).Nodup
        ∧ ((radiusSearchIndices ops s query_pt k_indices max_nnn).length : Int)
            ≤ s.width_ * s.height_)
      ∧ (∀ yx ∈ columnPixels ops s query_pt,
          wrapInt32 (yx.1 * s.width_) = yx.1 * s.width_
            ∧ wrapInt32 (wrapInt32 (yx.1 * s.width_) + yx.2) = yx.1 * s.width_ + yx.2)
      ∧ (∀ (fuel : Nat) (cov : CovarianceMatrix F) (d : F),
          s.width_ < (fuel : Int) → s.height_ < (fuel : Int) →
          computeCovarianceOnlineFloatLoops fuel ops s query_pt
              = some (computeCovarianceOnlineLocals ops s query_pt)
            ∧ (computeCentroidFloatLoops fuel ops s query_pt).map
                (fun st => (st.centroid.sdiv (st.nnn : F), cov))
              = some (computeCentroid ops s query_pt cov d)
            ∧ scanIndicesFloat fuel ops s query_pt = some (scanIndices ops s query_pt))
      ∧ (∀ (t : OrganizedRadiusSearch F) (cov : CovarianceMatrix F) (d : F),
          t.focalLength_ = s.focalLength_ → t.width_ = s.width_ → t.height_ = s.height_ →
          t.sqr_radius_ = s.sqr_radius_ →
          (∀ idx : Int, 0 ≤ idx → idx < s.width_ * s.height_ →
            t.points_ idx = s.points_ idx) →
          computeCovarianceOnline ops t query_pt d = computeCovarianceOnline ops s query_pt d
            ∧ computeCentroid ops t query_pt cov d = computeCentroid ops s query_pt cov d
            ∧ radiusSearch ops t query_pt k_indices max_nnn
              = radiusSearch ops s query_pt k_indices max_nnn) := by
  have hN : (0 : Int) ≤ s.width_ * s.height_ := by nlinarith
  have hcolRange : ∀ idx ∈ (columnPixels ops s query_pt).map (pixelIndex s),
      0 ≤ idx ∧ idx < s.width_ * s.height_ := by
    intro idx hidx
    obtain ⟨yx, hyx, rfl⟩ := List.mem_map.mp hidx
    exact pixelIndex_in_buffer ops s query_pt hw hh yx hyx
  have hcolNd := columnIndices_nodup ops s query_pt hw
  have hperm : List.Perm ((columnPixels ops s query_pt).map (pixelIndex s))
      ((windowPixels ops s query_pt).map (pixelIndex s)) :=
    (columnPixels_perm ops s query_pt).map _
  have hrowRange : ∀ idx ∈ scanIndices ops s query_pt, 0 ≤ idx ∧ idx < s.width_ * s.height_ := by
    intro idx hidx
    rw [scanIndices_eq] at hidx
    exact hcolRange idx (hperm.mem_iff.mpr hidx)
  have hrowNd : (scanIndices ops s query_pt).Nodup := by
    rw [scanIndices_eq]
    exact hperm.nodup_iff.mp hcolNd
  have hsub := radiusSearchIndices_sublist ops s query_pt k_indices max_nnn
  have hradRange : ∀ idx ∈ radiusSearchIndices ops s query_pt k_indices max_nnn,
      0 ≤ idx ∧ idx < s.width_ * s.height_ :=
    fun idx hidx => hcolRange idx (hsub.subset hidx)
  have hradNd : (radiusSearchIndices ops s query_pt k_indices max_nnn).Nodup :=
    hcolNd.sublist hsub
  have hwrap : ∀ yx ∈ columnPixels ops s query_pt,
      wrapInt32 (yx.1 * s.width_) = yx.1 * s.width_
        ∧ wrapInt32 (wrapInt32 (yx.1 * s.width_) + yx.2) = yx.1 * s.width_ + yx.2 := by
    intro yx hyx
    obtain ⟨h0, h1⟩ := pixelIndex_in_buffer ops s query_pt hw hh yx hyx
    obtain ⟨⟨a1, _⟩, ⟨a3, _⟩⟩ := (mem_columnPixels ops s query_pt yx).mp hyx
    have hb := searchWindow_in_image ops s query_pt hw hh
    rw [searchWindow_eq] at hb
    have hx0 : 0 ≤ yx.2 := hb.1.1.trans a1
    have hy0 : 0 ≤ yx.1 := hb.2.2.1.1.trans a3
    simp only [pixelIndex] at h0 h1
    have hyw : 0 ≤ yx.1 * s.width_ := mul_nonneg hy0 (by omega)
    have e1 : wrapInt32 (yx.1 * s.width_) = yx.1 * s.width_ :=
      wrapInt32_of_range _ (by omega) (by omega)
    exact ⟨e1, by rw [e1]; exact wrapInt32_of_range _ (by omega) (by omega)⟩
  refine ⟨⟨scanIndices_eq ops s query_pt, hrowRange, hrowNd,
      length_le_of_nodup_range _ _ hN hrowNd hrowRange⟩,
    ⟨hsub, hradRange, hradNd, length_le_of_nodup_range _ _ hN hradNd hradRange⟩, hwrap, ?_, ?_⟩
  · intro fuel cov d hfw hfh
    obtain ⟨bx, bY, bz, bw⟩ := searchWindow_in_image ops s query_pt hw hh
    have hfx : ((searchWindow ops s query_pt).y + 1 - (searchWindow ops s query_pt).x).toNat
        < fuel := by omega
    have hfy : ((searchWindow ops s query_pt).w + 1 - (searchWindow ops s query_pt).z).toNat
        < fuel := by omega
    have hscan : ∀ {σ : Type} (body : σ → Int → Int → σ) (init : σ),
        floatScan fuel (searchWindow ops s query_pt) body init
          = some ((loopRange (searchWindow ops s query_pt).z
              (searchWindow ops s query_pt).w).foldl
            (fun st y => (loopRange (searchWindow ops s query_pt).x
              (searchWindow ops s query_pt).y).foldl (fun st x => body st y x) st) init) :=
      fun body init => floatScan_eq_foldl fuel _ body init ⟨bx.1, by omega⟩ ⟨bY.1, by omega⟩
        ⟨bz.1, by omega⟩ ⟨bw.1, by omega⟩ hfx hfy
    refine ⟨?_, ?_, ?_⟩
    · unfold computeCovarianceOnlineFloatLoops
      rw [hscan]
      rfl
    · unfold computeCentroidFloatLoops
      rw [hscan]
      rfl
    · unfold scanIndicesFloat scanIndices
      rw [hscan]
      congr 1
      apply List.foldl_ext
      intro log y hy
      apply List.foldl_ext
      intro log x hx
      have hmem : (y, x) ∈ columnPixels ops s query_pt := by
        rw [mem_columnPixels, ← searchWindow_eq]
        exact ⟨(mem_loopRange _ _ _).mp hx, (mem_loopRange _ _ _).mp hy⟩
      rw [(hwrap (y, x) hmem).2]
  · intro t cov d hf hwt hht hr hpts
    have hbox := box_congr ops s t query_pt hf hwt hht hr
    have hacc : ∀ yx ∈ columnPixels ops s query_pt,
        acceptedPoint t query_pt yx = acceptedPoint s query_pt yx :=
      fun yx h => acceptedPoint_congr ops s t query_pt hw hh hwt hr hpts yx h
    have hlist : acceptedPoints ops t query_pt = acceptedPoints ops s query_pt := by
      simp only [acceptedPoints, windowPixels, hbox]
      apply List.filterMap_congr
      intro yx h
      exact hacc yx ((columnPixels_perm ops s query_pt).mem_iff.mpr h)
    have hcol : acceptedColumnPixels ops t query_pt = acceptedColumnPixels ops s query_pt := by
      simp only [acceptedColumnPixels, columnPixels, hbox]
      apply List.filter_congr
      intro yx h
      rw [hacc yx h]
    have hidx : pixelIndex t = pixelIndex s := by
      funext yx
      simp only [pixelIndex, hwt]
    refine ⟨?_, ?_, ?_⟩
    · rw [computeCovarianceOnline_locals, computeCovarianceOnline_locals,
        computeCovarianceOnlineLocals_eq, computeCovarianceOnlineLocals_eq, hlist]
    · rw [computeCentroid_eq, computeCentroid_eq, hlist]
    · rw [radiusSearch_eq, radiusSearch_eq, hcol, hidx]

/-- C23 witness of the amended statement: the two-pixel cloud (width `2`,
height `1`) with the query `(0, 0, 1)`: the row-wise scan reads the indices
`0` and `1`, and the loops with `float` counters are left within `3` tests. -/
theorem reads_in_buffer_witness :
    (1 : Int) ≤ (twoPixelCloud : OrganizedRadiusSearch ℝ).width_
      ∧ (1 : Int) ≤ (twoPixelCloud : OrganizedRadiusSearch ℝ).height_
      ∧ (twoPixelCloud : OrganizedRadiusSearch ℝ).width_ ≤ 16777216
      ∧ (twoPixelCloud : OrganizedRadiusSearch ℝ).height_ ≤ 16777216
      ∧ (twoPixelCloud : OrganizedRadiusSearch ℝ).width_
          * (twoPixelCloud : OrganizedRadiusSearch ℝ).height_ ≤ 2147483647
      ∧ scanIndices realOps (twoPixelCloud : OrganizedRadiusSearch ℝ) ⟨0, 0, 1⟩ = [0, 1]
      ∧ scanIndicesFloat 3 realOps (twoPixelCloud : OrganizedRadiusSearch ℝ) ⟨0, 0, 1⟩
          = some [0, 1] := by
  have hw : (1 : Int) ≤ (twoPixelCloud : OrganizedRadiusSearch ℝ).width_ := by
    simp only [twoPixelCloud]; decide
  have hh : (1 : Int) ≤ (twoPixelCloud : OrganizedRadiusSearch ℝ).height_ := by
    simp only [twoPixelCloud]; decide
  have hw2 : (twoPixelCloud : OrganizedRadiusSearch ℝ).width_ ≤ 16777216 := by
    simp only [twoPixelCloud]; decide
  have hh2 : (twoPixelCloud : OrganizedRadiusSearch ℝ).height_ ≤ 16777216 := by
    simp only [twoPixelCloud]; decide
  have hprod : (twoPixelCloud : OrganizedRadiusSearch ℝ).width_
      * (twoPixelCloud : OrganizedRadiusSearch ℝ).height_ ≤ 2147483647 := by
    simp only [twoPixelCloud]; decide
  have main := reads_in_buffer realOps (twoPixelCloud : OrganizedRadiusSearch ℝ) ⟨0, 0, 1⟩
    (fun _ => -1) 1 hw hh hw2 hh2 hprod
  have hr0 : loopRange 0 0 = [0] := by decide
  have hr1 : loopRange 0 1 = [0, 1] := by decide
  have hscan : scanIndices realOps (twoPixelCloud : OrganizedRadiusSearch ℝ) ⟨0, 0, 1⟩
      = [0, 1] := by
    rw [main.1.1]
    simp only [windowPixels, twoPixelCloud_box, hr0, hr1, List.flatMap_cons, List.flatMap_nil,
      List.map_cons, List.map_nil, List.append_nil, List.cons_append, List.nil_append, pixelIndex]
    simp [twoPixelCloud]
  refine ⟨hw, hh, hw2, hh2, hprod, hscan, ?_⟩
  rw [(main.2.2.2.1 3 ⟨⟨0, 0, 0⟩, ⟨0, 0, 0⟩, ⟨0, 0, 0⟩⟩ 1 (by simp only [twoPixelCloud]; decide)
    (by simp only [twoPixelCloud]; decide)).2.2, hscan]

/-- C24: for every 3x3 input matrix `M`, the three eigenvalues returned by
`eigen33` sum to the trace of `M`,
`evals.x + evals.y + evals.z = M[0][0] + M[1][1] + M[2][2]`, whatever the
library functions return: the roots of the quadratic path sum to `c2`, so do
the three values of the closed form, sorted or not, and the roots of the
fallback, and `c2` is the trace of the scaled matrix, which the final
multiplication by the scale turns into the trace of `M`. -/
theorem eigen33_evals_sum_trace {F : Type} [LinearOrderedField F] (ops : MathOps F)
    (M : CovarianceMatrix F) :
    (eigen33 ops M).evals.x + (eigen33 ops M).evals.y + (eigen33 ops M).evals.z = trace3 M
      ∧ (∀ b c : F, (computeRoots2 ops b c).x + (computeRoots2 ops b c).y
          + (computeRoots2 ops b c).z = b)
      ∧ (∀ c0 c1 c2 : F, (trigRoots ops c0 c1 c2).x + (trigRoots ops c0 c1 c2).y
          + (trigRoots ops c0 c1 c2).z = c2)
      ∧ (∀ r : float3 F, (sortRoots r).x + (sortRoots r).y + (sortRoots r).z = r.x + r.y + r.z)
      ∧ (∀ m : CovarianceMatrix F, (computeRoots ops m).x + (computeRoots ops m).y
          + (computeRoots ops m).z = charC2 m)
      ∧ charC2 (eigen33ScaledMat M) * eigen33Scale M = trace3 M := by
  have h2 : ∀ b c : F, (computeRoots2 ops b c).x + (computeRoots2 ops b c).y
      + (computeRoots2 ops b c).z = b := by
    intro b c
    simp only [computeRoots2]
    ring
  have ht : ∀ c0 c1 c2 : F, (trigRoots ops c0 c1 c2).x + (trigRoots ops c0 c1 c2).y
      + (trigRoots ops c0 c1 c2).z = c2 := by
    intro c0 c1 c2
    simp only [trigRoots]
    ring
  have hs : ∀ r : float3 F,
      (sortRoots r).x + (sortRoots r).y + (sortRoots r).z = r.x + r.y + r.z := by
    intro r
    obtain ⟨a, b, c⟩ := r
    simp only [sortRoots, swap, ge_iff_le]
    by_cases h1 : b ≤ a <;> by_cases h2 : c ≤ a <;> by_cases h3 : c ≤ b <;>
      simp only [h1, h2, h3, if_true, if_false] <;> ring
  have hc : ∀ m : CovarianceMatrix F, (computeRoots ops m).x + (computeRoots ops m).y
      + (computeRoots ops m).z = charC2 m := by
    intro m
    unfold computeRoots
    dsimp only
    split_ifs
    · exact h2 _ _
    · exact h2 _ _
    · rw [hs, ht]
  have hscale : charC2 (eigen33ScaledMat M) * eigen33Scale M = trace3 M := by
    have hpos := eigen33Scale_pos M
    simp only [charC2, eigen33ScaledMat, float3.sdiv, trace3]
    field_simp
  refine ⟨?_, h2, ht, hs, hc, hscale⟩
  rw [eigen33_evals_eq]
  simp only [float3.smul]
  rw [← hscale, ← hc (eigen33ScaledMat M)]
  ring

/-- C25: in the all-distinct branch of `eigen33`, whatever the squared
lengths are, `min_el` and `max_el` are different indices of `{0, 1, 2}` when
line 425 is reached; the unsigned expression `3 - min_el - max_el` does not
wrap, `mid_el + min_el + max_el = 3`, so `mid_el` is the third index of
`{0, 1, 2}`, and the two writes of lines 426-427 go to two different rows of
`evecs`. This holds for the pair that `eigen33` computes from the scaled
matrix and its eigenvalues. -/
theorem minMaxEl_distinct_indices {F : Type} [LinearOrderedField F]
    (mmax2 mmax1 mmax0 len3 : F) :
    ((minMaxEl mmax2 mmax1 mmax0 len3).1 ≠ (minMaxEl mmax2 mmax1 mmax0 len3).2
        ∧ (minMaxEl mmax2 mmax1 mmax0 len3).1 < 3
        ∧ (minMaxEl mmax2 mmax1 mmax0 len3).2 < 3
        ∧ (minMaxEl mmax2 mmax1 mmax0 len3).1 ≤ 3
        ∧ (minMaxEl mmax2 mmax1 mmax0 len3).2 ≤ 3 - (minMaxEl mmax2 mmax1 mmax0 len3).1
        ∧ midEl (minMaxEl mmax2 mmax1 mmax0 len3).1 (minMaxEl mmax2 mmax1 mmax0 len3).2
            = 3 - (minMaxEl mmax2 mmax1 mmax0 len3).1 - (minMaxEl mmax2 mmax1 mmax0 len3).2
        ∧ midEl (minMaxEl mmax2 mmax1 mmax0 len3).1 (minMaxEl mmax2 mmax1 mmax0 len3).2
            + (minMaxEl mmax2 mmax1 mmax0 len3).1 + (minMaxEl mmax2 mmax1 mmax0 len3).2 = 3
        ∧ midEl (minMaxEl mmax2 mmax1 mmax0 len3).1 (minMaxEl mmax2 mmax1 mmax0 len3).2 < 3
        ∧ midEl (minMaxEl mmax2 mmax1 mmax0 len3).1 (minMaxEl mmax2 mmax1 mmax0 len3).2
            ≠ (minMaxEl mmax2 mmax1 mmax0 len3).1
        ∧ midEl (minMaxEl mmax2 mmax1 mmax0 len3).1 (minMaxEl mmax2 mmax1 mmax0 len3).2
            ≠ (minMaxEl mmax2 mmax1 mmax0 len3).2)
      ∧ (∀ (scaledMat : CovarianceMatrix F) (evals : float3 F),
          (distinctMinMax scaledMat evals).1 ≠ (distinctMinMax scaledMat evals).2
            ∧ (distinctMinMax scaledMat evals).1 < 3 ∧ (distinctMinMax scaledMat evals).2 < 3
            ∧ midEl (distinctMinMax scaledMat evals).1 (distinctMinMax scaledMat evals).2
                + (distinctMinMax scaledMat evals).1 + (distinctMinMax scaledMat evals).2 = 3
            ∧ midEl (distinctMinMax scaledMat evals).1 (distinctMinMax scaledMat evals).2
                ≠ (distinctMinMax scaledMat evals).1) := by
  have key : ∀ a b c d : F,
      (minMaxEl a b c d).1 ≠ (minMaxEl a b c d).2
        ∧ (minMaxEl a b c d).1 < 3 ∧ (minMaxEl a b c d).2 < 3
        ∧ (minMaxEl a b c d).1 ≤ 3
        ∧ (minMaxEl a b c d).2 ≤ 3 - (minMaxEl a b c d).1
        ∧ midEl (minMaxEl a b c d).1 (minMaxEl a b c d).2
            = 3 - (minMaxEl a b c d).1 - (minMaxEl a b c d).2
        ∧ midEl (minMaxEl a b c d).1 (minMaxEl a b c d).2
            + (minMaxEl a b c d).1 + (minMaxEl a b c d).2 = 3
        ∧ midEl (minMaxEl a b c d).1 (minMaxEl a b c d).2 < 3
        ∧ midEl (minMaxEl a b c d).1 (minMaxEl a b c d).2 ≠ (minMaxEl a b c d).1
        ∧ midEl (minMaxEl a b c d).1 (minMaxEl a b c d).2 ≠ (minMaxEl a b c d).2 := by
    intro a b c d
    rcases minMaxEl_cases a b c d with h | h | h | h | h | h <;> rw [h] <;>
      simp only [midEl] <;> decide
  refine ⟨key _ _ _ _, ?_⟩
  intro scaledMat evals
  obtain ⟨k1, k2, k3, _, _, _, k7, _, k9, _⟩ := key
    (selectCross (shiftDiag scaledMat evals.z)).len (selectCross (shiftDiag scaledMat evals.y)).len
    (selectCross (shiftDiag scaledMat evals.x)).len (selectCross (shiftDiag scaledMat evals.x)).len3
  exact ⟨k1, k2, k3, k7, k9⟩

end PclCudaEigen
